import Mathlib

/-!
# GoStun: the STUN packet codec and the NAT discovery

A shallow embedding of `src/stun/packet.go`, `src/stun/attribute.go`,
`src/stun/versions.go`, `src/stun/client.go`, `src/stun/global.go`,
`src/tools/conv.go` and `src/tools/net.go`.

* Go's `uint16` / `uint32` are natural numbers, reduced `% 65536` /
  `% 4294967296` wherever the Go code performs arithmetic on them.
* A `[]byte` whose capacity matters (the argument of `FromBytes` and of
  `AttributeCreate`) is a `ByteSlice`: its elements plus the elements of its
  backing array that lie between its length and its capacity.
* A Go function returning `(T, error)` returns `T × Option StunError`.
* A run-time abort (`panic`, slice bounds) is `Outcome.abort`.
* The package variable `rfc` is an explicit argument.
* A Go `string` is the list of its bytes.
* A pointer to a packet is an address, resolved in a `Heap`.
* The network met by the client is a `World`; the connection that
  `SendRequest` writes to and reads from is a `NetConn`.
* A loop that the source does not bound takes fuel: one unit per pass.
-/

namespace GoStun

/-! ## Basic types -/

/-- Go's `byte`. -/
abbrev Byte := Fin 256

/-- The reasons for which the embedded code aborts. -/
inductive Panic where
  /-- The abort `panic("Internal error")`. -/
  | internalError
  /-- The abort `panic("Internal Error: invalid STUN ID.")` of `SetId`. -/
  | invalidStunId
  /-- The abort `panic("STUN is configured to be compliant with RFC 3489 ...")`. -/
  | rfc3489Alignment
  /-- The abort `panic("Invalid attribute's length (%d)!")` of `ToBytes`. -/
  | invalidAttributeLength
  /-- The Go run-time error "slice bounds out of range". -/
  | sliceBounds
  /-- The Go run-time error "index out of range". -/
  | indexOutOfRange
  /-- The Go run-time error "invalid memory address or nil pointer dereference". -/
  | nilDereference
  /-- The Go run-time error "interface conversion": a type assertion `x.(T)` that fails. -/
  | typeAssertion
  deriving DecidableEq, Repr

/-- The result of running a Go function: it returns, it aborts, or the
embedding ran out of loop fuel. -/
inductive Outcome (α : Type) where
  | ret (a : α)
  | abort (p : Panic)
  | outOfFuel
  deriving DecidableEq, Repr

/-- Sequencing of two computations that may abort. -/
def Outcome.bind {α β : Type} (x : Outcome α) (f : α → Outcome β) : Outcome β :=
  match x with
  | .ret a => f a
  | .abort p => .abort p
  | .outOfFuel => .outOfFuel

/-- The values of Go's `error` that the codec creates (`nil` is `none`). -/
inductive StunError where
  /-- The error "STUN is configured to be compliant with RFC 3489! Value's length must be a multiple of 4 bytes!". -/
  | rfc3489ValueLength
  /-- The error "Can not create new attribute: attribute's value is too long (%d bytes)". -/
  | attributeTooLong (n : Nat)
  /-- The error "The given list of bytes does not represent a STUN packet. Only %d bytes." -/
  | tooFewBytes (n : Nat)
  /-- The error "The given list of bytes does not represent a STUN packet. %d bytes." -/
  | tooManyBytes (n : Nat)
  /-- The error "Invalid STUN packet: can not decode attributes!". -/
  | cannotDecodeAttributes
  /-- The error of `binary.Read` on a buffer that is too short. -/
  | readError
  /-- The error "Invalid IP family." of `__getAddress`. -/
  | invalidIpFamily
  /-- The error "Invalid address' family: 0x%02x" of `AttributeGetXorMappedAddress`. -/
  | invalidAddressFamily (family : Nat)
  /-- The error "Invalid IPV4 address: % x" of `AttributeGetXorMappedAddress`. -/
  | invalidIPv4Address (address : List (Fin 256))
  /-- The error "Invalid IPV6 address: % x" of `AttributeGetXorMappedAddress`. -/
  | invalidIPv6Address (address : List (Fin 256))
  /-- The error "Invalid list of bytes: this does not represent an IP!" of `BytesToIp`. -/
  | invalidListOfBytes
  /-- The error "Invalid IP address \"%s\"!" of `MakeTransportAddress`. -/
  | invalidIpAddress (ip : List (Fin 256))
  /-- The error "Software's name if too long (more than 763 bytes!)". -/
  | softwareNameTooLong
  /-- An error value made by the package `net` (dial, write, read, close). -/
  | netError (code : Nat)
  /-- The error "Invalid change requested value (% x)" of `AttributeGetChangeRequest`. -/
  | invalidChangeRequest (value : List (Fin 256))
  /-- The error "Invalid IP address \"%s\"." of `IpToBytes`. -/
  | invalidIp (ip : List (Fin 256))
  /-- The error "Invalid IP address \"%s\". Can not determine the address' family." of
  `InetSplit`. -/
  | unknownAddressFamily (inet : List (Fin 256))
  /-- The error "Invalid INET address \"%s\". The port number is not valid (\"%s\"). It is
  not an integer." of `InetSplit`. -/
  | invalidPortNumber (inet port : List (Fin 256))
  /-- The error "Can not send STUN UDP packet to server: %s" of `SendRequest`, around the
  error of `Write`. -/
  | cannotSend (code : Nat)
  /-- The error "Can not send STUN UDP packet to server: The number of bytes sent is not
  valid." of `SendRequest`. -/
  | invalidSentCount
  /-- The error "Error while reading packet: %s" of `SendRequest`, around the error of
  `Read`. -/
  | cannotRead (code : Nat)
  deriving DecidableEq, Repr

/-! ## Go slices of bytes -/

/-- A Go `[]byte`: `data` are its `len` elements, `spare` the elements of the
backing array between `len` and `cap`. -/
structure ByteSlice where
  data : List Byte
  spare : List Byte
  deriving DecidableEq, Repr

/-- Go's `len(s)`. -/
def ByteSlice.len (s : ByteSlice) : Nat := s.data.length

/-- Go's `cap(s)`. -/
def ByteSlice.cap (s : ByteSlice) : Nat := s.data.length + s.spare.length

/-- The backing array seen from the first element of the slice. -/
def ByteSlice.backing (s : ByteSlice) : List Byte := s.data ++ s.spare

/-- Go's slice expression `s[lo:hi]`: it needs `lo ≤ hi ≤ cap(s)` and aborts
otherwise. -/
def ByteSlice.slice (s : ByteSlice) (lo hi : Nat) : Outcome ByteSlice :=
  if lo ≤ hi ∧ hi ≤ s.cap then
    .ret ⟨(s.backing.drop lo).take (hi - lo), s.backing.drop hi⟩
  else .abort .sliceBounds

/-- Go's `copy(dst, src)` on the elements of `dst`: the first
`min(len(dst), len(src))` elements of `dst` are overwritten. -/
def goCopy (dst src : List Byte) : List Byte :=
  src.take dst.length ++ dst.drop src.length

/-- Go's `append(s, xs...)`, the slice it returns: the backing array is reused
when `cap(s)` is large enough, and a new array is allocated otherwise. -/
def goAppend (s : ByteSlice) (xs : List Byte) : ByteSlice :=
  if xs.length ≤ s.spare.length then ⟨s.data ++ xs, s.spare.drop xs.length⟩
  else ⟨s.data ++ xs, []⟩

/-- Go's `append(s, xs...)`, what it does to `s` itself: when the backing
array is reused, the elements after `len(s)` are overwritten. -/
def goAppendAlias (s : ByteSlice) (xs : List Byte) : ByteSlice :=
  if xs.length ≤ s.spare.length then ⟨s.data, xs ++ s.spare.drop xs.length⟩
  else s

/-! ## encoding/binary and tools/conv.go -/

/-- The byte `byte(x)` of Go: the low 8 bits. -/
def toByte (x : Nat) : Byte := ⟨x % 256, Nat.mod_lt _ (by decide)⟩

/-- What `binary.Write(buf, binary.BigEndian, x)` appends for a `uint16`. -/
def binaryWriteUint16 (x : Nat) : List Byte := [toByte (x / 256), toByte x]

/-- What `binary.Write(buf, binary.BigEndian, x)` appends for a `uint32`. -/
def binaryWriteUint32 (x : Nat) : List Byte :=
  [toByte (x / 16777216), toByte (x / 65536), toByte (x / 256), toByte x]

/-- What `binary.Read(bytes.NewBuffer(b), binary.BigEndian, &x)` stores in a
`uint16`; `none` is a non-nil error (fewer than 2 bytes). -/
def binaryReadUint16 (b : List Byte) : Option Nat :=
  match b with
  | b0 :: b1 :: _ => some (b0.val * 256 + b1.val)
  | _ => none

/-- What `binary.Read(bytes.NewBuffer(b), binary.BigEndian, &x)` stores in a
`uint32`; `none` is a non-nil error (fewer than 4 bytes). -/
def binaryReadUint32 (b : List Byte) : Option Nat :=
  match b with
  | b0 :: b1 :: b2 :: b3 :: _ =>
    some (b0.val * 16777216 + b1.val * 65536 + b2.val * 256 + b3.val)
  | _ => none

/-- tools/conv.go `Uint16toBytesMSF`: most significant byte first. -/
def Uint16toBytesMSF (in_uint16 : Nat) : List Byte :=
  ([] : List Byte) ++ binaryWriteUint16 in_uint16

/-! ## versions.go -/

/-- versions.go `STUN_RFC_3489`. -/
def STUN_RFC_3489 : Int := 0

/-- versions.go `STUN_RFC_5389` (the source gives it the value 0 as well). -/
def STUN_RFC_5389 : Int := 0

/-- versions.go `SetRfc3489`: the value of the package variable `rfc` after the call. -/
def SetRfc3489 : Int := STUN_RFC_3489

/-- versions.go `SetRfc5389`: the value of the package variable `rfc` after the call. -/
def SetRfc5389 : Int := STUN_RFC_5389

/-! ## attribute.go -/

/-- attribute.go `StunAttribute`. `Typ` is the field `Type`; `Packet` is the
address held by the pointer field (`none` is `nil`). -/
structure StunAttribute where
  Typ : Nat
  Length : Nat
  Value : List Byte
  Packet : Option Nat
  deriving DecidableEq, Repr

/-- Go's zero value of `StunAttribute` (`var a StunAttribute`). -/
def StunAttribute.zero : StunAttribute := ⟨0, 0, [], none⟩

/-- attribute.go `__padding`, the slice it returns. -/
def __padding (in_byte : ByteSlice) : ByteSlice :=
  let rest := in_byte.len % 4
  if 0 = rest then in_byte
  else goAppend in_byte (List.replicate (4 - rest) 0)

/-- attribute.go `__padding`, its argument after the call (`append` may write
the padding into the backing array of the argument). -/
def __paddingAlias (in_byte : ByteSlice) : ByteSlice :=
  let rest := in_byte.len % 4
  if 0 = rest then in_byte
  else goAppendAlias in_byte (List.replicate (4 - rest) 0)

/-- attribute.go `__nextBoundary` on `uint16`. -/
def __nextBoundary (in_length : Nat) : Nat :=
  let rest := in_length % 4
  if 0 = rest then in_length
  else (in_length + 4 - rest) % 65536

/-- attribute.go `AttributeCreate`, with the package variable `rfc` as an argument. -/
def AttributeCreate (rfc : Int) (in_type : Nat) (in_value : ByteSlice)
    (in_packet : Option Nat) : StunAttribute × Option StunError :=
  let a := StunAttribute.zero
  if 0 ≠ in_value.len % 4 ∧ rfc = STUN_RFC_3489 then
    (a, some .rfc3489ValueLength)
  else
    let padded := __padding in_value
    let a := { a with Typ := in_type }
    let a := { a with Value := List.replicate padded.len 0 }
    if in_value.len > 65535 then (a, some (.attributeTooLong in_value.len))
    else
      let a := { a with Length := in_value.len % 65536 }
      let a := { a with Value := goCopy a.Value padded.data }
      let a := { a with Packet := in_packet }
      (a, none)

/-- attribute.go `AttributeCreate`, its argument `in_value` after the call. -/
def AttributeCreateAlias (rfc : Int) (in_value : ByteSlice) : ByteSlice :=
  if 0 ≠ in_value.len % 4 ∧ rfc = STUN_RFC_3489 then in_value
  else __paddingAlias in_value

/-! ## packet.go -/

/-- packet.go `STUN_MAGIC_COOKIE`. -/
def STUN_MAGIC_COOKIE : Nat := 0x2112A442

/-- packet.go `StunPacket`. -/
structure StunPacket where
  stype : Nat
  length : Nat
  cookie : Nat
  id : List Byte
  attributes : List StunAttribute
  deriving DecidableEq, Repr

/-- packet.go `PacketCreate`. -/
def PacketCreate : StunPacket :=
  { stype := 0
    length := 0
    cookie := STUN_MAGIC_COOKIE
    id := List.replicate 12 0
    attributes := [] }

/-- packet.go `SetType`. -/
def StunPacket.SetType (v : StunPacket) (in_type : Nat) : StunPacket :=
  { v with stype := in_type }

/-- packet.go `GetType`. -/
def StunPacket.GetType (v : StunPacket) : Nat := v.stype

/-- packet.go `SetLength`. -/
def StunPacket.SetLength (v : StunPacket) (in_length : Nat) : StunPacket :=
  { v with length := in_length }

/-- packet.go `GetLength`. -/
def StunPacket.GetLength (v : StunPacket) : Nat := v.length

/-- packet.go `SetId`. The field `id` is only ever made by `make([]byte, 12, 12)`,
so its capacity is its length. -/
def StunPacket.SetId (v : StunPacket) (in_id : List Byte) : Outcome StunPacket :=
  if 12 ≠ in_id.length then .abort .invalidStunId
  else
    let id := if 12 ≠ v.id.length then List.replicate 12 0 else v.id
    .ret { v with id := goCopy id in_id }

/-- packet.go `GetId`. -/
def StunPacket.GetId (v : StunPacket) : List Byte := v.id

/-- packet.go `SetCookie`. -/
def StunPacket.SetCookie (v : StunPacket) (in_cookie : Nat) : StunPacket :=
  { v with cookie := in_cookie }

/-- packet.go `GetCookie`. -/
def StunPacket.GetCookie (v : StunPacket) : Nat := v.cookie

/-- packet.go `AddAttribute`, with the package variable `rfc` as an argument. -/
def StunPacket.AddAttribute (rfc : Int) (v : StunPacket) (a : StunAttribute) :
    Outcome StunPacket :=
  let v := { v with attributes := v.attributes ++ [a] }
  if STUN_RFC_3489 = rfc then
    let v := { v with length := (v.length + (a.Length + 4) % 65536) % 65536 }
    if 0 ≠ v.length % 4 then .abort .rfc3489Alignment
    else .ret v
  else
    .ret { v with length := (v.length + (__nextBoundary a.Length + 4) % 65536) % 65536 }

/-- packet.go `GetAttributesCount`. -/
def StunPacket.GetAttributesCount (v : StunPacket) : Nat := v.attributes.length

/-- The attribute loop of `ToBytes`: `res` is the slice built so far. -/
def ToBytes_loop : List StunAttribute → List Byte → Outcome (List Byte)
  | [], res => .ret res
  | a :: rest, res =>
    let res := res ++ Uint16toBytesMSF a.Typ
    let length := a.Length
    if length > 65535 then .abort .invalidAttributeLength
    else
      let res := res ++ Uint16toBytesMSF (length % 65536)
      let res := res ++ a.Value
      ToBytes_loop rest res

/-- packet.go `ToBytes`. -/
def StunPacket.ToBytes (v : StunPacket) : Outcome (List Byte) :=
  let buf : List Byte := []
  let buf := buf ++ binaryWriteUint16 v.stype
  let buf := buf ++ binaryWriteUint16 v.length
  let buf := buf ++ binaryWriteUint32 v.cookie
  let res := buf ++ v.id
  (ToBytes_loop v.attributes res).bind fun res =>
    if res.length < 20 ∨ res.length > 65535 then .abort .internalError
    else
      .ret (res.take 2 ++ goCopy ((res.drop 2).take 2) (Uint16toBytesMSF v.length)
        ++ res.drop 4)

/-- The attribute loop of `FromBytes`. `in_bin` is threaded through the loop
because `AttributeCreate` may write into its backing array; `res_addr` is the
address of the local variable `res`. One unit of fuel is one iteration. -/
def FromBytes_loop (rfc : Int) (res_addr : Nat) :
    Nat → ByteSlice → StunPacket → Nat → Outcome (StunPacket × Option StunError)
  | 0, _, _, _ => .outOfFuel
  | fuel + 1, in_bin, res, pos =>
    if pos ≥ in_bin.len % 65536 then .ret (res, none)
    else
      (in_bin.slice pos ((pos + 2) % 65536)).bind fun s =>
      match binaryReadUint16 s.data with
      | none => .ret (res, some .cannotDecodeAttributes)
      | some vtype =>
        (in_bin.slice ((pos + 2) % 65536) ((pos + 4) % 65536)).bind fun s =>
        match binaryReadUint16 s.data with
        | none => .ret (res, some .cannotDecodeAttributes)
        | some length =>
          (in_bin.slice ((pos + 4) % 65536) ((pos + 4 + length) % 65536)).bind fun value =>
          match AttributeCreate rfc vtype value (some res_addr) with
          | (_, some err) => .ret (res, some err)
          | (attr, none) =>
            let value := AttributeCreateAlias rfc value
            let backing := in_bin.backing.take ((pos + 4) % 65536) ++ value.backing
            let in_bin : ByteSlice := ⟨backing.take in_bin.len, backing.drop in_bin.len⟩
            (res.AddAttribute rfc attr).bind fun res =>
            if STUN_RFC_3489 = rfc then
              let pos := (pos + (4 + length) % 65536) % 65536
              if 0 ≠ pos % 4 then .abort .rfc3489Alignment
              else FromBytes_loop rfc res_addr fuel in_bin res pos
            else
              let pos := (pos + (4 + __nextBoundary length) % 65536) % 65536
              FromBytes_loop rfc res_addr fuel in_bin res pos

/-- packet.go `FromBytes`, with the package variable `rfc`, the address of the
local variable `res` and the loop fuel as arguments. -/
def FromBytes (rfc : Int) (res_addr : Nat) (fuel : Nat) (in_bin : ByteSlice) :
    Outcome (StunPacket × Option StunError) :=
  let res := PacketCreate
  if in_bin.len < 20 then .ret (res, some (.tooFewBytes in_bin.len))
  else if in_bin.len > 65535 then .ret (res, some (.tooManyBytes in_bin.len))
  else
    (in_bin.slice 0 2).bind fun s =>
    match binaryReadUint16 s.data with
    | none => .abort .internalError
    | some stype =>
      let res := res.SetType stype
      (in_bin.slice 2 4).bind fun s =>
      match binaryReadUint16 s.data with
      | none => .abort .internalError
      | some length =>
        let res := res.SetLength length
        (in_bin.slice 4 8).bind fun s =>
        match binaryReadUint32 s.data with
        | none => .abort .internalError
        | some cookie =>
          let res := res.SetCookie cookie
          (in_bin.slice 8 20).bind fun s =>
          (res.SetId s.data).bind fun res =>
          FromBytes_loop rfc res_addr fuel in_bin res 20

/-- A sequence of `AddAttribute` calls, in the order of the list. -/
def StunPacket.AddAttributes (rfc : Int) : StunPacket → List StunAttribute → Outcome StunPacket
  | v, [] => .ret v
  | v, a :: rest => (v.AddAttribute rfc a).bind fun v => StunPacket.AddAttributes rfc v rest

/-! ## Wire format of the specification -/

/-- The bytes of one attribute on the wire: big-endian type, big-endian
semantic length, stored value. -/
def wireAttribute (a : StunAttribute) : List Byte :=
  binaryWriteUint16 a.Typ ++ binaryWriteUint16 a.Length ++ a.Value

/-- The attribute block on the wire: the attributes one after the other. -/
def wireAttributes : List StunAttribute → List Byte
  | [] => []
  | a :: rest => wireAttribute a ++ wireAttributes rest

/-- The sum of `4 + len(Value)` over a list of attributes. -/
def attributesSize : List StunAttribute → Nat
  | [] => 0
  | a :: rest => 4 + a.Value.length + attributesSize rest

/-- The attribute is one that `AttributeCreate` returned without error. -/
def CreatedBy (rfc : Int) (a : StunAttribute) : Prop :=
  ∃ t v p, AttributeCreate rfc t v p = (a, none)

/-! ## Test data -/

/-- Four zero bytes. -/
def zero4 : List Byte := [0, 0, 0, 0]

/-- The attribute of type MAPPED_ADDRESS (0x0001) with value `zero4`. -/
def attr4 : StunAttribute := ⟨1, 4, zero4, none⟩

/-- The packet `PacketCreate()` followed by `AddAttribute(attr4)`. -/
def packet4 : StunPacket :=
  { stype := 0, length := 8, cookie := STUN_MAGIC_COOKIE, id := List.replicate 12 0,
    attributes := [attr4] }

/-- The 28 bytes of `packet4` on the wire. -/
def bytes4 : List Byte :=
  [0, 0, 0, 8, 0x21, 0x12, 0xA4, 0x42, 0, 0, 0, 0, 0, 0, 0, 0, 0, 0, 0, 0, 0, 1, 0, 4, 0, 0, 0, 0]

/-- A 24-byte datagram: a header whose length field is 0x0001, followed by one
attribute of type 0x0001 with declared length 0. -/
def bytesOddLength : List Byte :=
  [0x01, 0x01, 0x00, 0x01, 0x21, 0x12, 0xA4, 0x42,
   1, 2, 3, 4, 5, 6, 7, 8, 9, 10, 11, 12,
   0x00, 0x01, 0x00, 0x00]

/-! ## Go strings, strconv and fmt -/

/-- A Go `string`: a sequence of bytes. -/
abbrev GoString := List Byte

/-- The Go string of a literal made of ASCII characters. -/
def ascii (s : String) : GoString := s.data.map fun c => toByte c.toNat

/-- Go's `strconv.Itoa` on a non-negative `int`: the decimal digits. -/
def itoa (n : Nat) : GoString := (Nat.toDigits 10 n).map fun c => toByte c.toNat

/-- Go's `fmt.Sprintf("%d", n)` for an `int`. -/
def fmtInt (n : Int) : GoString :=
  match n with
  | .ofNat m => itoa m
  | .negSucc m => ascii "-" ++ itoa (m + 1)

/-- Go's `fmt.Sprintf("%04x", dot)`: lowercase hexadecimal, zero-padded to
at least 4 digits. -/
def fmtHex04 (dot : Nat) : GoString :=
  let digits : GoString := (Nat.toDigits 16 dot).map fun c => toByte c.toNat
  List.replicate (4 - digits.length) (toByte 48) ++ digits

/-- Go's `strings.Join(a, sep)`. -/
def stringsJoin (a : List GoString) (sep : GoString) : GoString := sep.intercalate a

/-- The class `\d` of Go's regexp: an ASCII digit. -/
def isDigitByte (b : Byte) : Bool := 48 ≤ b.val && b.val ≤ 57

/-- The class `[0-9A-Fa-f]` of Go's regexp. -/
def isHexByte (b : Byte) : Bool :=
  isDigitByte b || (65 ≤ b.val && b.val ≤ 70) || (97 ≤ b.val && b.val ≤ 102)

/-- Whether the whole string matches the regular expression
`^C{1,m}(sC{1,m}){n-1}$`, for a class `C` that does not contain the separator
`s`: the string splits at `s` into exactly `n` groups of 1 to `m` bytes of the
class. -/
def matchGroups (cls : Byte → Bool) (m n : Nat) (sep : Byte) (s : GoString) : Bool :=
  let groups := s.splitOn sep
  groups.length == n &&
    groups.all fun g => decide (1 ≤ g.length) && decide (g.length ≤ m) && g.all cls

/-! ## tools/net.go -/

/-- The loop of `BytesToIp` for 16 bytes: the hexadecimal groups of the indices
in the list; `none` is an error of `binary.Read`. -/
def BytesToIp_groups (in_bytes : List Byte) : List Nat → Option (List GoString)
  | [] => some []
  | i :: rest =>
    match binaryReadUint16 ((in_bytes.drop (i * 2)).take ((i + 1) * 2 - i * 2)) with
    | none => none
    | some dot =>
      match BytesToIp_groups in_bytes rest with
      | none => none
      | some ip => some (fmtHex04 dot :: ip)

/-- tools/net.go `BytesToIp`. -/
def BytesToIp (in_bytes : List Byte) : GoString × Option StunError :=
  let family : Nat := 0
  let family := if 4 = in_bytes.length then 4 else family
  let family := if 16 = in_bytes.length then 6 else family
  if 0 = family then ([], some .invalidListOfBytes)
  else
    let res : GoString :=
      if 4 = family then stringsJoin (in_bytes.map fun b => itoa b.val) (ascii ".") else []
    if 6 = family then
      match BytesToIp_groups in_bytes (List.range 8) with
      | none => ([], some .readError)
      | some ip => (stringsJoin ip (ascii ":"), none)
    else (res, none)

/-- tools/net.go `MakeTransportAddress`. -/
def MakeTransportAddress (in_ip : GoString) (in_port : Int) : GoString × Option StunError :=
  if matchGroups isDigitByte 3 4 (toByte 46) in_ip then
    (in_ip ++ ascii ":" ++ fmtInt in_port, none)
  else if matchGroups isHexByte 4 8 (toByte 58) in_ip then
    (ascii "[" ++ in_ip ++ ascii "]:" ++ fmtInt in_port, none)
  else ([], some (.invalidIpAddress in_ip))

/-! ## attribute.go: accessors -/

/-- attribute.go `STUN_ATTRIBUT_FAMILY_IPV4`. -/
def STUN_ATTRIBUT_FAMILY_IPV4 : Nat := 0x01

/-- attribute.go `STUN_ATTRIBUT_FAMILY_IPV6`. -/
def STUN_ATTRIBUT_FAMILY_IPV6 : Nat := 0x02

/-- attribute.go `STUN_ATTRIBUT_MAPPED_ADDRESS`. -/
def STUN_ATTRIBUT_MAPPED_ADDRESS : Nat := 0x0001

/-- attribute.go `STUN_ATTRIBUT_CHANGE_REQUEST`. -/
def STUN_ATTRIBUT_CHANGE_REQUEST : Nat := 0x0003

/-- attribute.go `STUN_ATTRIBUT_SOURCE_ADDRESS`. -/
def STUN_ATTRIBUT_SOURCE_ADDRESS : Nat := 0x0004

/-- attribute.go `STUN_ATTRIBUT_CHANGED_ADDRESS`. -/
def STUN_ATTRIBUT_CHANGED_ADDRESS : Nat := 0x0005

/-- attribute.go `STUN_ATTRIBUT_XOR_MAPPED_ADDRESS`. -/
def STUN_ATTRIBUT_XOR_MAPPED_ADDRESS : Nat := 0x0020

/-- attribute.go `STUN_ATTRIBUT_XOR_MAPPED_ADDRESS_EXP`. -/
def STUN_ATTRIBUT_XOR_MAPPED_ADDRESS_EXP : Nat := 0x8020

/-- attribute.go `STUN_ATTRIBUT_SOFTWARE`. -/
def STUN_ATTRIBUT_SOFTWARE : Nat := 0x8022

/-- attribute.go `STUN_ATTRIBUT_FINGERPRINT`. -/
def STUN_ATTRIBUT_FINGERPRINT : Nat := 0x8028

/-- The memory in which the `Packet` pointers of attributes are resolved: the
packet stored at each address. -/
abbrev Heap := Nat → StunPacket

/-- The field `Value` as a Go slice: it is made by `make([]byte, n, n)`, so
its capacity is its length. -/
def StunAttribute.valueSlice (v : StunAttribute) : ByteSlice := ⟨v.Value, []⟩

/-- attribute.go `__getAddress`: family, IP text, port, error. -/
def StunAttribute.__getAddress (v : StunAttribute) :
    Outcome (Nat × GoString × Nat × Option StunError) :=
  (v.valueSlice.slice 0 2).bind fun s =>
  match binaryReadUint16 s.data with
  | none => .ret (0, [], 0, some .readError)
  | some family =>
    (v.valueSlice.slice 2 4).bind fun s =>
    match binaryReadUint16 s.data with
    | none => .ret (family, [], 0, some .readError)
    | some port =>
      (v.valueSlice.slice 4 v.valueSlice.len).bind fun s =>
      match BytesToIp s.data with
      | (_, some _) => .ret (family, [], port, some .invalidIpFamily)
      | (ip, none) => .ret (family, ip, port, none)

/-- attribute.go `AttributeGetMappedAddress`. -/
def StunAttribute.AttributeGetMappedAddress (v : StunAttribute) :
    Outcome (Nat × GoString × Nat × Option StunError) := v.__getAddress

/-- attribute.go `AttributeGetSourceAddress`. -/
def StunAttribute.AttributeGetSourceAddress (v : StunAttribute) :
    Outcome (Nat × GoString × Nat × Option StunError) := v.__getAddress

/-- attribute.go `AttributeGetChangeedAddress`. -/
def StunAttribute.AttributeGetChangeedAddress (v : StunAttribute) :
    Outcome (Nat × GoString × Nat × Option StunError) := v.__getAddress

/-- Go's `a ^ b` on bytes. -/
def xorByte (a b : Byte) : Byte := toByte (a.val ^^^ b.val)

/-- The loops `for i := 0; i < n; i++ { xored_ip = append(xored_ip, v.Value[i+4] ^ cookie[i]) }`
of `AttributeGetXorMappedAddress`: `count` iterations remain, `i` is the index. -/
def xorLoop (value cookie : List Byte) : Nat → Nat → List Byte → Outcome (List Byte)
  | 0, _, xored_ip => .ret xored_ip
  | count + 1, i, xored_ip =>
    match value[i + 4]?, cookie[i]? with
    | some x, some c => xorLoop value cookie count (i + 1) (xored_ip ++ [xorByte x c])
    | _, _ => .abort .indexOutOfRange

/-- attribute.go `AttributeGetXorMappedAddress`: family, IP text, port, de-XORed
IP text, de-XORed port, error. The pointer `v.Packet` is resolved in `heap`. -/
def StunAttribute.AttributeGetXorMappedAddress (heap : Heap) (v : StunAttribute) :
    Outcome (Nat × GoString × Nat × GoString × Nat × Option StunError) :=
  let cookie : List Byte := [0x21, 0x12, 0xA4, 0x42]
  (v.valueSlice.slice 0 2).bind fun s =>
  match binaryReadUint16 s.data with
  | none => .ret (0, [], 0, [], 0, some .readError)
  | some family =>
    if STUN_ATTRIBUT_FAMILY_IPV4 ≠ family ∧ STUN_ATTRIBUT_FAMILY_IPV6 ≠ family then
      .ret (0, [], 0, [], 0, some (.invalidAddressFamily family))
    else
      (v.valueSlice.slice 2 4).bind fun s =>
      match binaryReadUint16 s.data with
      | none => .ret (family, [], 0, [], 0, some .readError)
      | some port =>
        (v.valueSlice.slice 4 v.valueSlice.len).bind fun tail =>
        let xored : Outcome (List Byte × Option StunError) :=
          if STUN_ATTRIBUT_FAMILY_IPV4 = family then
            if tail.len ≠ 4 then .ret ([], some (.invalidIPv4Address tail.data))
            else (xorLoop v.Value cookie 4 0 []).bind fun xored_ip => .ret (xored_ip, none)
          else
            if tail.len ≠ 16 then .ret ([], some (.invalidIPv6Address tail.data))
            else
              let long_magic : List Byte := [] ++ cookie
              match v.Packet with
              | none => .abort .nilDereference
              | some addr =>
                ((⟨(heap addr).id, []⟩ : ByteSlice).slice 0 12).bind fun id =>
                let _long_magic := long_magic ++ id.data
                (xorLoop v.Value cookie 16 0 []).bind fun xored_ip => .ret (xored_ip, none)
        xored.bind fun r =>
        match r with
        | (_, some err) => .ret (0, [], 0, [], 0, some err)
        | (xored_ip, none) =>
          match BytesToIp tail.data with
          | (_, some err) => .ret (0, [], 0, [], 0, some err)
          | (ip_string, none) =>
            match BytesToIp xored_ip with
            | (_, some err) => .ret (0, [], 0, [], 0, some err)
            | (xored_ip_string, none) =>
              let xored_port := port ^^^ 0x2112
              .ret (family, ip_string, port, xored_ip_string, xored_port, none)

/-! ## packet.go: queries -/

/-- The loop of `GetMappedAddress` and `GetChangedAddress` over the attributes,
for the attribute type `wanted`. -/
def getAddress_loop (wanted : Nat) :
    List StunAttribute → Outcome (Bool × Nat × GoString × Nat × Option StunError)
  | [] => .ret (false, 0, [], 0, none)
  | a :: rest =>
    if wanted ≠ a.Typ then getAddress_loop wanted rest
    else a.__getAddress.bind fun r => .ret (true, r.1, r.2.1, r.2.2.1, r.2.2.2)

/-- packet.go `GetMappedAddress`. -/
def StunPacket.GetMappedAddress (v : StunPacket) :
    Outcome (Bool × Nat × GoString × Nat × Option StunError) :=
  getAddress_loop STUN_ATTRIBUT_MAPPED_ADDRESS v.attributes

/-- packet.go `GetChangedAddress`. -/
def StunPacket.GetChangedAddress (v : StunPacket) :
    Outcome (Bool × Nat × GoString × Nat × Option StunError) :=
  getAddress_loop STUN_ATTRIBUT_CHANGED_ADDRESS v.attributes

/-- The loop of `GetXorMappedAddress` over the attributes. -/
def getXorMappedAddress_loop (heap : Heap) :
    List StunAttribute → Outcome (Bool × Nat × GoString × Nat × Option StunError)
  | [] => .ret (false, 0, [], 0, none)
  | a :: rest =>
    if STUN_ATTRIBUT_XOR_MAPPED_ADDRESS ≠ a.Typ ∧ STUN_ATTRIBUT_XOR_MAPPED_ADDRESS_EXP ≠ a.Typ then
      getXorMappedAddress_loop heap rest
    else
      (a.AttributeGetXorMappedAddress heap).bind fun r =>
        .ret (true, r.1, r.2.2.2.1, r.2.2.2.2.1, r.2.2.2.2.2)

/-- packet.go `GetXorMappedAddress`. -/
def StunPacket.GetXorMappedAddress (heap : Heap) (v : StunPacket) :
    Outcome (Bool × Nat × GoString × Nat × Option StunError) :=
  getXorMappedAddress_loop heap v.attributes

/-! ## attribute.go: specialised constructors -/

/-- One bit step of the reflected CRC-32 with the IEEE polynomial 0xEDB88320. -/
def crc32Bit (crc : Nat) : Nat :=
  if crc % 2 = 1 then (crc / 2) ^^^ 0xEDB88320 else crc / 2

/-- The CRC-32 register after one more input byte. -/
def crc32Byte (crc : Nat) (b : Byte) : Nat :=
  crc32Bit (crc32Bit (crc32Bit (crc32Bit (crc32Bit (crc32Bit (crc32Bit (crc32Bit
    (crc ^^^ b.val))))))))

/-- Go's `crc32.ChecksumIEEE` of package hash/crc32: initial register and final
XOR 0xFFFFFFFF. -/
def ChecksumIEEE (data : List Byte) : Nat :=
  (data.foldl crc32Byte 0xFFFFFFFF) ^^^ 0xFFFFFFFF

/-- attribute.go `__stunCrc32`. -/
def __stunCrc32 (in_byte : List Byte) : Nat := ChecksumIEEE in_byte ^^^ 0x5354554e

/-- attribute.go `AttributeCreateFingerprint`: `in_packet` is the pointer,
`packet` the packet it points to. -/
def AttributeCreateFingerprint (rfc : Int) (in_packet : Option Nat) (packet : StunPacket) :
    Outcome (StunAttribute × Option StunError) :=
  packet.ToBytes.bind fun bytes =>
  let crc := __stunCrc32 bytes
  let buf := ([] : List Byte) ++ binaryWriteUint32 crc
  .ret (AttributeCreate rfc STUN_ATTRIBUT_FINGERPRINT ⟨buf, []⟩ in_packet)

/-- attribute.go `AttributeCreateSoftware`: `in_name` is the Go string, that is
its bytes. -/
def AttributeCreateSoftware (rfc : Int) (in_packet : Option Nat) (in_name : GoString) :
    StunAttribute × Option StunError :=
  let name := in_name
  if name.length > 763 then (StunAttribute.zero, some .softwareNameTooLong)
  else AttributeCreate rfc STUN_ATTRIBUT_SOFTWARE ⟨name, []⟩ in_packet

/-- attribute.go `AttributeCreateChangeRequest`. -/
def AttributeCreateChangeRequest (rfc : Int) (in_packet : Option Nat) (in_ip in_port : Bool) :
    StunAttribute × Option StunError :=
  let b3 : Nat := 0
  let b3 := if in_ip then b3 ||| 0x04 else b3
  let b3 := if in_port then b3 ||| 0x02 else b3
  let value : List Byte := [0, 0, 0, toByte b3]
  AttributeCreate rfc STUN_ATTRIBUT_CHANGE_REQUEST ⟨value, []⟩ in_packet

/-! ## client.go

The embedding takes the package variable `verbosity` at its initial value 0, so
the calls that only produce log text are left out. The network is a `World`:
what `net.Dial` answers at each call, and what the callee `SendRequest`
(global.go) and `Close` answer on the connection. -/

/-- packet.go `STUN_TYPE_BINDING_REQUEST`. -/
def STUN_TYPE_BINDING_REQUEST : Nat := 0x0001

/-- client.go `STUN_NAT_ERROR`. -/
def STUN_NAT_ERROR : Int := -1

/-- client.go `STUN_NAT_BLOCKED`. -/
def STUN_NAT_BLOCKED : Int := 0

/-- client.go `STUN_NAT_UNKNOWN`. -/
def STUN_NAT_UNKNOWN : Int := 1

/-- client.go `STUN_NAT_FULL_CONE`. -/
def STUN_NAT_FULL_CONE : Int := 2

/-- client.go `STUN_NAT_SYMETRIC`. -/
def STUN_NAT_SYMETRIC : Int := 3

/-- client.go `STUN_NAT_RESTRICTED`. -/
def STUN_NAT_RESTRICTED : Int := 4

/-- client.go `STUN_NAT_PORT_RESTRICTED`. -/
def STUN_NAT_PORT_RESTRICTED : Int := 5

/-- client.go `STUN_NAT_NO_NAT`. -/
def STUN_NAT_NO_NAT : Int := 6

/-- client.go `STUN_NAT_SYMETRIC_UDP_FIREWALL`. -/
def STUN_NAT_SYMETRIC_UDP_FIREWALL : Int := 7

/-- Go's zero value of `StunPacket` (`var rcv_packet StunPacket`). -/
def StunPacket.zero : StunPacket := ⟨0, 0, 0, [], []⟩

/-- client.go `requestResponse`. -/
structure requestResponse where
  response : Bool
  packet : StunPacket
  transport_local : GoString
  err : Option StunError
  deriving DecidableEq, Repr

/-- Go's zero value of `requestResponse`. -/
def requestResponse.zero : requestResponse := ⟨false, StunPacket.zero, [], none⟩

/-- client.go `requestResponse.init`. -/
def requestResponse.init (v : requestResponse) : requestResponse :=
  { v with response := false, err := none }

/-- client.go `test1Info`. -/
structure test1Info where
  changed_address_found : Bool
  changed_address_family : Nat
  changed_ip : GoString
  changed_port : Nat
  identical : Bool
  deriving DecidableEq, Repr

/-- Go's zero value of `test1Info`. -/
def test1Info.zero : test1Info := ⟨false, 0, [], 0, false⟩

/-- The dynamic values of the field `extra interface{}` of `testResponse`: the
nil interface, a `test1Info`, or the empty struct `test2Info`. -/
inductive Extra where
  | nil
  | test1 (info : test1Info)
  | test2
  deriving DecidableEq, Repr

/-- Go's type assertion `extra.(test1Info)`. -/
def Extra.assertTest1 (e : Extra) : Outcome test1Info :=
  match e with
  | .test1 info => .ret info
  | _ => .abort .typeAssertion

/-- client.go `testResponse`. -/
structure testResponse where
  request : requestResponse
  extra : Extra
  deriving DecidableEq, Repr

/-- Go's zero value of `testResponse`. -/
def testResponse.zero : testResponse := ⟨requestResponse.zero, .nil⟩

/-- A UDP connection returned by `net.Dial`, as the client uses it: the text of
`LocalAddr()`, the result of `SendRequest(connection, packet)` of global.go for
each request packet, and the result of `Close()`. -/
structure Conn where
  localAddr : GoString
  sendRequest : StunPacket → Outcome (StunPacket × Bool × Option StunError)
  close : Option StunError

/-- The answer of `net.Dial("udp", dest)`. -/
inductive DialResult where
  | failed (err : StunError)
  | connected (c : Conn)

/-- The environment of the client: the answer of the `n`-th call of `net.Dial`
for each destination, the address at which the request packet of the `n`-th
probe is allocated, and the memory in which the `Packet` pointers of received
attributes are resolved. -/
structure World where
  dial : Nat → GoString → DialResult
  alloc : Nat → Nat
  heap : Heap

/-- The transaction id of every request: `01 02 03 04 05 06 07 08 09 10 11 12`
in hexadecimal. -/
def requestId : List Byte :=
  [0x01, 0x02, 0x03, 0x04, 0x05, 0x06, 0x07, 0x08, 0x09, 0x10, 0x11, 0x12]

/-- The end of `ClientSendBinding` and `ClientSendChangeRequest`: dial, record
the local address, call `SendRequest`, close. `n` counts the calls of
`net.Dial` made so far. -/
def dialAndSend (w : World) (n : Nat) (dest_address : GoString) (resp : requestResponse)
    (packet : StunPacket) : Outcome ((requestResponse × Option StunError) × Nat) :=
  match w.dial n dest_address with
  | .failed err => .ret ((resp, some err), n + 1)
  | .connected connection =>
    let resp := { resp with transport_local := connection.localAddr }
    (connection.sendRequest packet).bind fun r =>
    let resp := { resp with packet := r.1, response := r.2.1, err := r.2.2 }
    .ret ((resp, connection.close), n + 1)

/-- client.go `ClientSendBinding`, with the package variables `rfc` and
`server_transport_address` as arguments. -/
def ClientSendBinding (rfc : Int) (w : World) (server_transport_address : GoString) (n : Nat)
    (in_destination_address : Option GoString) :
    Outcome ((requestResponse × Option StunError) × Nat) :=
  let packet := PacketCreate
  let resp := requestResponse.zero.init
  let packet := packet.SetType STUN_TYPE_BINDING_REQUEST
  (packet.SetId requestId).bind fun packet =>
  match AttributeCreateSoftware rfc (some (w.alloc n)) (ascii "TestClient01") with
  | (_, some err) => .ret ((resp, some err), n)
  | (attr, none) =>
    (packet.AddAttribute rfc attr).bind fun packet =>
    (AttributeCreateFingerprint rfc (some (w.alloc n)) packet).bind fun r =>
    match r with
    | (_, some err) => .ret ((resp, some err), n)
    | (attr, none) =>
      (packet.AddAttribute rfc attr).bind fun packet =>
      let dest_address :=
        match in_destination_address with
        | some d => d
        | none => server_transport_address
      dialAndSend w n dest_address resp packet

/-- client.go `ClientSendChangeRequest`. -/
def ClientSendChangeRequest (rfc : Int) (w : World) (server_transport_address : GoString)
    (n : Nat) (in_change_ip : Bool) : Outcome ((requestResponse × Option StunError) × Nat) :=
  let resp := requestResponse.zero.init
  let packet := PacketCreate
  let packet := packet.SetType STUN_TYPE_BINDING_REQUEST
  (packet.SetId requestId).bind fun packet =>
  match AttributeCreateSoftware rfc (some (w.alloc n)) (ascii "TestClient01") with
  | (_, some err) => .ret ((resp, some err), n)
  | (attr, none) =>
    (packet.AddAttribute rfc attr).bind fun packet =>
    match AttributeCreateChangeRequest rfc (some (w.alloc n)) in_change_ip true with
    | (_, some err) => .ret ((resp, some err), n)
    | (attr, none) =>
      (packet.AddAttribute rfc attr).bind fun packet =>
      (AttributeCreateFingerprint rfc (some (w.alloc n)) packet).bind fun r =>
      match r with
      | (_, some err) => .ret ((resp, some err), n)
      | (attr, none) =>
        (packet.AddAttribute rfc attr).bind fun packet =>
        dialAndSend w n server_transport_address resp packet

/-- client.go `ClientTest1`. -/
def ClientTest1 (rfc : Int) (w : World) (server_transport_address : GoString) (n : Nat)
    (in_destination_address : Option GoString) :
    Outcome ((testResponse × Option StunError) × Nat) :=
  let response := testResponse.zero
  let info := test1Info.zero
  (ClientSendBinding rfc w server_transport_address n in_destination_address).bind fun r =>
  let n := r.2
  let response := { response with request := r.1.1 }
  match r.1.2 with
  | some err => .ret ((response, some err), n)
  | none =>
    if !response.request.response then .ret ((response, none), n)
    else
      response.request.packet.GetMappedAddress.bind fun m =>
      let found := m.1
      let ip_mapped := m.2.2.1
      let port_mapped := m.2.2.2.1
      let err := m.2.2.2.2
      if err ≠ none ∨ !found then .ret ((response, err), n)
      else
        (response.request.packet.GetXorMappedAddress w.heap).bind fun x =>
        let found := x.1
        let ip_xored_mapped := x.2.2.1
        let port_xored_mapped := x.2.2.2.1
        let mapped : GoString × Nat :=
          if ip_mapped ≠ ip_xored_mapped ∧ found then (ip_xored_mapped, port_xored_mapped)
          else (ip_mapped, port_mapped)
        match MakeTransportAddress mapped.1 (Int.ofNat mapped.2) with
        | (_, some err) => .ret ((response, some err), n)
        | (ip_mapped, none) =>
          response.request.packet.GetChangedAddress.bind fun c =>
          let info := { info with
            changed_address_found := c.1
            changed_address_family := c.2.1
            changed_ip := c.2.2.1
            changed_port := c.2.2.2.1 }
          match c.2.2.2.2 with
          | some err => .ret ((response, some err), n)
          | none =>
            let info := { info with
              identical := decide (response.request.transport_local = ip_mapped) }
            let response := { response with extra := .test1 info }
            .ret ((response, none), n)

/-- client.go `CientTest2`. -/
def CientTest2 (rfc : Int) (w : World) (server_transport_address : GoString) (n : Nat) :
    Outcome ((testResponse × Option StunError) × Nat) :=
  let response := testResponse.zero
  (ClientSendChangeRequest rfc w server_transport_address n true).bind fun r =>
  let response := { response with request := r.1.1 }
  let response := { response with extra := .test2 }
  match r.1.2 with
  | some err => .ret ((response, some err), r.2)
  | none => .ret ((response, none), r.2)

/-- client.go `CientTest3`. -/
def CientTest3 (rfc : Int) (w : World) (server_transport_address : GoString) (n : Nat) :
    Outcome ((testResponse × Option StunError) × Nat) :=
  let response := testResponse.zero
  (ClientSendChangeRequest rfc w server_transport_address n false).bind fun r =>
  let response := { response with request := r.1.1 }
  let response := { response with extra := .test2 }
  match r.1.2 with
  | some err => .ret ((response, some err), r.2)
  | none => .ret ((response, none), r.2)

/-- The branch of `ClientDiscover` taken when the local and mapped transport
addresses of Test I differ: Test II, then Test I towards the changed address,
then Test III. -/
def ClientDiscover_nat (rfc : Int) (w : World) (server_transport_address : GoString) (n : Nat)
    (changer_transport : GoString) : Outcome (Int × Option StunError) :=
  (CientTest2 rfc w server_transport_address n).bind fun t2 =>
  match t2.1.2 with
  | some err => .ret (STUN_NAT_ERROR, some err)
  | none =>
    if !t2.1.1.request.response then
      (ClientTest1 rfc w server_transport_address t2.2 (some changer_transport)).bind fun t1 =>
      match t1.1.2 with
      | some err => .ret (STUN_NAT_ERROR, some err)
      | none =>
        if !t1.1.1.request.response then .ret (STUN_NAT_UNKNOWN, none)
        else
          t1.1.1.extra.assertTest1.bind fun info =>
          if !info.identical then .ret (STUN_NAT_SYMETRIC, none)
          else
            (CientTest3 rfc w server_transport_address t1.2).bind fun t3 =>
            match t3.1.2 with
            | some err => .ret (STUN_NAT_ERROR, some err)
            | none =>
              if !t3.1.1.request.response then .ret (STUN_NAT_PORT_RESTRICTED, none)
              else .ret (STUN_NAT_RESTRICTED, none)
    else .ret (STUN_NAT_FULL_CONE, none)

/-- The branch of `ClientDiscover` taken when the local and mapped transport
addresses of Test I are identical: Test II. -/
def ClientDiscover_open (rfc : Int) (w : World) (server_transport_address : GoString)
    (n : Nat) : Outcome (Int × Option StunError) :=
  (CientTest2 rfc w server_transport_address n).bind fun t2 =>
  match t2.1.2 with
  | some err => .ret (STUN_NAT_ERROR, some err)
  | none =>
    if t2.1.1.request.response then .ret (STUN_NAT_NO_NAT, none)
    else .ret (STUN_NAT_SYMETRIC_UDP_FIREWALL, none)

/-- client.go `ClientDiscover`, with the package variables `rfc` and
`server_transport_address` as arguments; the first call of `net.Dial` is call 0. -/
def ClientDiscover (rfc : Int) (w : World) (server_transport_address : GoString) :
    Outcome (Int × Option StunError) :=
  (ClientTest1 rfc w server_transport_address 0 none).bind fun t1 =>
  match t1.1.2 with
  | some err => .ret (STUN_NAT_ERROR, some err)
  | none =>
    if !t1.1.1.request.response then .ret (STUN_NAT_BLOCKED, none)
    else
      t1.1.1.extra.assertTest1.bind fun info =>
      if info.changed_address_found then
        -- the assertions `extra.(test1Info)` below are on the same value
        match MakeTransportAddress info.changed_ip (Int.ofNat info.changed_port) with
        | (_, some err) => .ret (STUN_NAT_ERROR, some err)
        | (changer_transport, none) =>
          if !info.identical then
            ClientDiscover_nat rfc w server_transport_address t1.2 changer_transport
          else ClientDiscover_open rfc w server_transport_address t1.2
      else .ret (STUN_NAT_UNKNOWN, none)

/-! ## Test data for the discovery -/

/-- A connection whose local address is `transport_local`, on which
`SendRequest` returns `r` and `Close` returns nil. -/
def connReturning (transport_local : GoString)
    (r : StunPacket × Bool × Option StunError) : Conn :=
  ⟨transport_local, fun _ => .ret r, none⟩

/-- The world in which the `n`-th `net.Dial` answers `answers n`, the request
packet of the `n`-th probe is at address `n`, and every received attribute
points to an empty packet. -/
def worldOf (answers : Nat → DialResult) : World :=
  ⟨fun n _ => answers n, fun n => n, fun _ => PacketCreate⟩

/-- The transport address of the server in the test worlds. -/
def testServer : GoString := ascii "10.0.0.1:3478"

/-- The local transport address in the test worlds. -/
def testLocal : GoString := ascii "10.0.0.2:5000"

/-- A 20-byte binding response without attributes. -/
def bytesHeaderOnly : List Byte :=
  [0x01, 0x01, 0x00, 0x00, 0x21, 0x12, 0xA4, 0x42,
   0x01, 0x02, 0x03, 0x04, 0x05, 0x06, 0x07, 0x08, 0x09, 0x10, 0x11, 0x12]

/-- The packet that `FromBytes` returns for `bytesHeaderOnly`. -/
def packetHeaderOnly : StunPacket :=
  { stype := 0x0101, length := 0, cookie := STUN_MAGIC_COOKIE, id := requestId,
    attributes := [] }

/-- A binding response with MAPPED_ADDRESS 10.0.0.2:5000 and CHANGED_ADDRESS
10.0.0.9:3479. -/
def packetMappedLocal : StunPacket :=
  { stype := 0x0101, length := 24, cookie := STUN_MAGIC_COOKIE, id := requestId,
    attributes := [⟨0x0001, 8, [0, 1, 0x13, 0x88, 10, 0, 0, 2], some 0⟩,
                   ⟨0x0005, 8, [0, 1, 0x0D, 0x97, 10, 0, 0, 9], some 0⟩] }

/-- A binding response with MAPPED_ADDRESS 198.51.100.7:40000 and
CHANGED_ADDRESS 10.0.0.9:3479. -/
def packetMappedOther : StunPacket :=
  { stype := 0x0101, length := 24, cookie := STUN_MAGIC_COOKIE, id := requestId,
    attributes := [⟨0x0001, 8, [0, 1, 0x9C, 0x40, 198, 51, 100, 7], some 0⟩,
                   ⟨0x0005, 8, [0, 1, 0x0D, 0x97, 10, 0, 0, 9], some 0⟩] }

/-- The world in which every probe gets the response `packetMappedLocal`. -/
def worldOpen : World :=
  worldOf fun _ => .connected (connReturning testLocal (packetMappedLocal, true, none))

/-- The world in which Test I gets the response `packetMappedOther`, Test II
gets no response, Test I towards the changed address gets the response
`packetMappedLocal`, and Test III gets no response. -/
def worldNat : World :=
  worldOf fun n =>
    if n = 0 then .connected (connReturning testLocal (packetMappedOther, true, none))
    else if n = 2 then .connected (connReturning testLocal (packetMappedLocal, true, none))
    else .connected (connReturning testLocal (StunPacket.zero, false, none))

/-- The world in which `SendRequest` reports an error during Test I (the
write on the socket fails) and `Close` succeeds. -/
def worldSendError : World :=
  worldOf fun _ =>
    .connected (connReturning testLocal (StunPacket.zero, false, some (.netError 1)))

/-- The world in which Test I gets the response `packetHeaderOnly`, which has
no MAPPED_ADDRESS attribute. -/
def worldNoMapped : World :=
  worldOf fun _ => .connected (connReturning testLocal (packetHeaderOnly, true, none))

/-! ## attribute.go: CHANGE_REQUEST and SOFTWARE accessors -/

/-- attribute.go `AttributeGetChangeRequest`: after the test `4 != len(v.Value)`
the index `v.Value[3]` is in range. -/
def StunAttribute.AttributeGetChangeRequest (v : StunAttribute) :
    Bool × Bool × Option StunError :=
  if 4 ≠ v.Value.length then (false, false, some (.invalidChangeRequest v.Value))
  else
    match v.Value with
    | [_, _, _, b3] => (decide ((0x04 ||| b3.val) ≠ 0), decide ((0x02 ||| b3.val) ≠ 0), none)
    | _ => (false, false, some (.invalidChangeRequest v.Value))

/-- The 84 bytes of the RFC 5769 sample message that precede its FINGERPRINT
attribute, as in `test_fingerprint` of stun_test.go. -/
def rfc5769Prefix : List Byte :=
  [0x01, 0x01, 0x00, 0x48, 0x21, 0x12, 0xa4, 0x42, 0xb7, 0xe7, 0xa7, 0x01, 0xbc, 0x34,
   0xd6, 0x86, 0xfa, 0x87, 0xdf, 0xae, 0x80, 0x22, 0x00, 0x0b, 0x74, 0x65, 0x73, 0x74,
   0x20, 0x76, 0x65, 0x63, 0x74, 0x6f, 0x72, 0x20, 0x00, 0x20, 0x00, 0x14, 0x00, 0x02,
   0xa1, 0x47, 0x01, 0x13, 0xa9, 0xfa, 0xa5, 0xd3, 0xf1, 0x79, 0xbc, 0x25, 0xf4, 0xb5,
   0xbe, 0xd2, 0xb9, 0xd9, 0x00, 0x08, 0x00, 0x14, 0xa3, 0x82, 0x95, 0x4e, 0x4b, 0xe6,
   0x7b, 0xf1, 0x17, 0x84, 0xc9, 0x7c, 0x82, 0x92, 0xc2, 0x75, 0xbf, 0xe3, 0xed, 0x41]

/-- The world in which every probe is answered by its own request packet: it
makes the request that a probe builds visible in the result of the probe. -/
def worldEcho : World :=
  worldOf fun _ => .connected ⟨testLocal, fun packet => .ret (packet, true, none), none⟩

/-- The request packet that `ClientSendBinding` builds: SOFTWARE "TestClient01"
and FINGERPRINT. -/
def requestBinding : StunPacket :=
  { stype := 0x0001, length := 24, cookie := STUN_MAGIC_COOKIE, id := requestId,
    attributes :=
      [⟨0x8022, 12, [84, 101, 115, 116, 67, 108, 105, 101, 110, 116, 48, 49], some 0⟩,
       ⟨0x8028, 4, [36, 144, 27, 25], some 0⟩] }

/-- The 44 bytes of `requestBinding` on the wire. -/
def bytesRequestBinding : List Byte :=
  [0x00, 0x01, 0x00, 24, 0x21, 0x12, 0xA4, 0x42,
   0x01, 0x02, 0x03, 0x04, 0x05, 0x06, 0x07, 0x08, 0x09, 0x10, 0x11, 0x12,
   0x80, 0x22, 0x00, 12, 84, 101, 115, 116, 67, 108, 105, 101, 110, 116, 48, 49,
   0x80, 0x28, 0x00, 4, 36, 144, 27, 25]

/-- The 36 bytes that `ClientSendBinding` gives to `AttributeCreateFingerprint`:
the packet before the FINGERPRINT is added, with 16 in its length field. -/
def bytesBeforeFingerprint : List Byte :=
  [0x00, 0x01, 0x00, 16, 0x21, 0x12, 0xA4, 0x42,
   0x01, 0x02, 0x03, 0x04, 0x05, 0x06, 0x07, 0x08, 0x09, 0x10, 0x11, 0x12,
   0x80, 0x22, 0x00, 12, 84, 101, 115, 116, 67, 108, 105, 101, 110, 116, 48, 49]

/-! ## unicode/utf8 and the SOFTWARE accessor -/

/-- Go's `utf8.RuneError`, the replacement character U+FFFD. -/
def RuneError : Nat := 0xFFFD

/-- The table `first` of package unicode/utf8 for a leading byte of a sequence
of several bytes: the size of the sequence and the range accepted for the
second byte; `none` for a byte that cannot start such a sequence. -/
def utf8Lead (p0 : Nat) : Option (Nat × Nat × Nat) :=
  if 0xC2 ≤ p0 ∧ p0 ≤ 0xDF then some (2, 0x80, 0xBF)
  else if p0 = 0xE0 then some (3, 0xA0, 0xBF)
  else if 0xE1 ≤ p0 ∧ p0 ≤ 0xEC then some (3, 0x80, 0xBF)
  else if p0 = 0xED then some (3, 0x80, 0x9F)
  else if 0xEE ≤ p0 ∧ p0 ≤ 0xEF then some (3, 0x80, 0xBF)
  else if p0 = 0xF0 then some (4, 0x90, 0xBF)
  else if 0xF1 ≤ p0 ∧ p0 ≤ 0xF3 then some (4, 0x80, 0xBF)
  else if p0 = 0xF4 then some (4, 0x80, 0x8F)
  else none

/-- Go's `utf8.DecodeRune(p)`: the rune and its size in bytes; `(RuneError, 0)`
for an empty input and `(RuneError, 1)` for an invalid encoding. -/
def utf8DecodeRune (p : List Byte) : Nat × Nat :=
  match p with
  | [] => (RuneError, 0)
  | p0 :: _ =>
    if p0.val < 0x80 then (p0.val, 1)
    else
      match utf8Lead p0.val with
      | none => (RuneError, 1)
      | some (sz, lo, hi) =>
        if p.length < sz then (RuneError, 1)
        else
          let b1 := (p.getD 1 0).val
          if b1 < lo ∨ hi < b1 then (RuneError, 1)
          else if sz ≤ 2 then (((p0.val &&& 0x1F) <<< 6) ||| (b1 &&& 0x3F), 2)
          else
            let b2 := (p.getD 2 0).val
            if b2 < 0x80 ∨ 0xBF < b2 then (RuneError, 1)
            else if sz ≤ 3 then
              (((p0.val &&& 0x0F) <<< 12) ||| ((b1 &&& 0x3F) <<< 6) ||| (b2 &&& 0x3F), 3)
            else
              let b3 := (p.getD 3 0).val
              if b3 < 0x80 ∨ 0xBF < b3 then (RuneError, 1)
              else
                (((p0.val &&& 0x07) <<< 18) ||| ((b1 &&& 0x3F) <<< 12) |||
                  ((b2 &&& 0x3F) <<< 6) ||| (b3 &&& 0x3F), 4)

/-- The text that `AttributeGetSoftware` returns when a rune does not decode. -/
def softwareDiagnostic : GoString :=
  ascii "Can not convert this list of bytes into a string. It is not UTF8 encoded."

/-- The loop of `AttributeGetSoftware` from index `i`: `true` when it runs to
the end, `false` when it meets `utf8.RuneError`. One unit of fuel is one
iteration. -/
def AttributeGetSoftware_loop (value : List Byte) : Nat → Nat → Outcome Bool
  | 0, _ => .outOfFuel
  | fuel + 1, i =>
    if i < value.length then
      let r := utf8DecodeRune (value.drop i)
      if RuneError = r.1 then .ret false
      else AttributeGetSoftware_loop value fuel (i + (r.2 - 1) + 1)
    else .ret true

/-- attribute.go `AttributeGetSoftware`; the loop gets one unit of fuel per
byte of the value and one more, which is all it can use. -/
def StunAttribute.AttributeGetSoftware (v : StunAttribute) : Outcome GoString :=
  (AttributeGetSoftware_loop v.Value (v.Value.length + 1) 0).bind fun decoded =>
    if decoded then .ret v.Value else .ret softwareDiagnostic

/-! ## UTF-8 of the specification -/

/-- A continuation byte `80..BF`. -/
def isUtf8Tail (b : Byte) : Bool := decide (0x80 ≤ b.val) && decide (b.val ≤ 0xBF)

/-- Whether the bytes are a valid UTF-8 byte sequence (RFC 3629, section 4:
no overlong form, no surrogate, nothing above U+10FFFF). -/
def validUtf8 : List Byte → Bool
  | [] => true
  | b0 :: rest =>
    if b0.val ≤ 0x7F then validUtf8 rest
    else
      match rest with
      | [] => false
      | b1 :: rest1 =>
        if 0xC2 ≤ b0.val ∧ b0.val ≤ 0xDF then isUtf8Tail b1 && validUtf8 rest1
        else
          match rest1 with
          | [] => false
          | b2 :: rest2 =>
            if 0xE0 ≤ b0.val ∧ b0.val ≤ 0xEF then
              decide (if b0.val = 0xE0 then 0xA0 ≤ b1.val ∧ b1.val ≤ 0xBF
                      else if b0.val = 0xED then 0x80 ≤ b1.val ∧ b1.val ≤ 0x9F
                      else 0x80 ≤ b1.val ∧ b1.val ≤ 0xBF)
                && isUtf8Tail b2 && validUtf8 rest2
            else
              match rest2 with
              | [] => false
              | b3 :: rest3 =>
                if 0xF0 ≤ b0.val ∧ b0.val ≤ 0xF4 then
                  decide (if b0.val = 0xF0 then 0x90 ≤ b1.val ∧ b1.val ≤ 0xBF
                          else if b0.val = 0xF4 then 0x80 ≤ b1.val ∧ b1.val ≤ 0x8F
                          else 0x80 ≤ b1.val ∧ b1.val ≤ 0xBF)
                    && isUtf8Tail b2 && isUtf8Tail b3 && validUtf8 rest3
                else false

/-- The text U+FFFD followed by the letter a: the bytes `EF BF BD 61`. -/
def replacementName : GoString := [0xEF, 0xBF, 0xBD, 0x61]

/-! ## strconv.ParseUint and tools/net.go `IpToBytes` -/

/-- The value of a digit for Go's `strconv.ParseUint` with an explicit base:
`0-9`, `a-z` and `A-Z`; anything else is a syntax error. -/
def digitValue (c : Byte) : Option Nat :=
  if 48 ≤ c.val ∧ c.val ≤ 57 then some (c.val - 48)
  else if 97 ≤ c.val ∧ c.val ≤ 122 then some (c.val - 97 + 10)
  else if 65 ≤ c.val ∧ c.val ≤ 90 then some (c.val - 65 + 10)
  else none

/-- The digits of `strconv.ParseUint` read from the left: the value, or `none`
for a byte that is not a digit of the base. -/
def parseDigits (base : Nat) : Nat → List Byte → Option Nat
  | acc, [] => some acc
  | acc, c :: rest =>
    match digitValue c with
    | none => none
    | some d => if d ≥ base then none else parseDigits base (acc * base + d) rest

/-- Go's `strconv.ParseUint(s, base, 64)` for base 10 or 16: `none` is a
non-nil error (empty text, a byte that is not a digit of the base, or a value
that does not fit 64 bits). -/
def ParseUint (s : GoString) (base : Nat) : Option Nat :=
  if s = [] then none
  else
    match parseDigits base 0 s with
    | none => none
    | some n => if n < 2 ^ 64 then some n else none

/-- Go's `strings.Split(s, sep)` for a separator of one byte. -/
def stringsSplit (s : GoString) (sep : Byte) : List GoString := s.splitOn sep

/-- The loop of `IpToBytes` over the groups that remain; `res` is the slice
built so far. -/
def IpToBytes_loop (in_ip : GoString) (length max : Nat) :
    List GoString → List Byte → List Byte × Option StunError
  | [], res => (res, none)
  | group :: rest, res =>
    match (if 4 = length then ParseUint group 10 else ParseUint group 16) with
    | none => ([], some (.invalidIp in_ip))
    | some dot =>
      if dot > max then ([], some (.invalidIp in_ip))
      else
        let buf := binaryWriteUint16 (dot % 65536)
        let res := if 4 = length then res ++ (buf.drop 1).take 1 else res ++ buf
        IpToBytes_loop in_ip length max rest res

/-- tools/net.go `IpToBytes`. -/
def IpToBytes (in_ip : GoString) : List Byte × Option StunError :=
  let data := stringsSplit in_ip (toByte 46)
  let data := if 1 = data.length then stringsSplit in_ip (toByte 58) else data
  let length := data.length
  if 4 ≠ length ∧ 8 ≠ length then ([], some (.invalidIp in_ip))
  else
    let max := if 4 = length then 255 else 65535
    IpToBytes_loop in_ip length max data []

/-! ## tools/conv.go and tools/net.go: `Uint16toBytesLSF`, `InetSplit` -/

/-- What `binary.Write(buf, binary.LittleEndian, x)` appends for a `uint16`. -/
def binaryWriteUint16LE (x : Nat) : List Byte := [toByte x, toByte (x / 256)]

/-- tools/conv.go `Uint16toBytesLSF`: least significant byte first. -/
def Uint16toBytesLSF (in_uint16 : Nat) : List Byte :=
  ([] : List Byte) ++ binaryWriteUint16LE in_uint16

/-- Go's `strconv.Atoi(s)` with a 64-bit `int`: an optional sign, then decimal
digits; `none` is a non-nil error. -/
def Atoi (s : GoString) : Option Int :=
  let signed : Bool × GoString :=
    match s with
    | [] => (false, [])
    | c :: rest =>
      if c = toByte 43 then (false, rest)
      else if c = toByte 45 then (true, rest)
      else (false, s)
  match ParseUint signed.2 10 with
  | none => none
  | some n =>
    if signed.1 then (if n ≤ 2 ^ 63 then some (-(Int.ofNat n)) else none)
    else (if n < 2 ^ 63 then some (Int.ofNat n) else none)

/-- The pattern `\d{1,5}` on a whole text. -/
def matchPort (port : GoString) : Bool :=
  decide (1 ≤ port.length) && decide (port.length ≤ 5) && port.all isDigitByte

/-- The groups 1 and 2 of `ipv4.FindStringSubmatch(in_inet)` in `InetSplit`, for
the pattern `^(\d{1,3}\.\d{1,3}\.\d{1,3}\.\d{1,3}):(\d{1,5})$`: neither group
can hold a colon, so the text splits at its only colon. `none` is no match. -/
def InetSplit_ipv4 (in_inet : GoString) : Option (GoString × GoString) :=
  match in_inet.splitOn (toByte 58) with
  | [ip, port] =>
    if matchGroups isDigitByte 3 4 (toByte 46) ip && matchPort port then some (ip, port)
    else none
  | _ => none

/-- The groups 1 and 2 of `ipv6.FindStringSubmatch(in_inet)` in `InetSplit`, for
the pattern `^\[(H:H:H:H:H:H:H:H)\]:(\d{1,5})$` with `H = [0-9A-Fa-f]{1,4}`:
after the opening bracket, neither group can hold a closing bracket, so the
rest splits at its only closing bracket, which a colon follows. -/
def InetSplit_ipv6 (in_inet : GoString) : Option (GoString × GoString) :=
  match in_inet with
  | [] => none
  | c :: rest =>
    if c = toByte 91 then
      match rest.splitOn (toByte 93) with
      | [ip, tail] =>
        match tail with
        | [] => none
        | d :: port =>
          if d = toByte 58 && matchGroups isHexByte 4 8 (toByte 58) ip && matchPort port then
            some (ip, port)
          else none
      | _ => none
    else none

/-- tools/net.go `InetSplit`. -/
def InetSplit (in_inet : GoString) : GoString × Int × Option StunError :=
  let data :=
    match InetSplit_ipv4 in_inet with
    | some d => some d
    | none => InetSplit_ipv6 in_inet
  match data with
  | none => ([], -1, some (.unknownAddressFamily in_inet))
  | some (ip, port) =>
    match Atoi port with
    | none => ([], -1, some (.invalidPortNumber in_inet port))
    | some p => (ip, p, none)

/-! ## The texts of addresses in the words of the specification

These definitions do not come from the source: they say what the
specification calls a decimal group, a hexadecimal group, a dotted IPv4 text
and a colon-separated IPv6 text, to be compared with what `IpToBytes` and
`BytesToIp` do. -/

/-- The value of a text read as decimal digits, from the left. -/
def decimalValue (g : GoString) : Nat := g.foldl (fun acc b => acc * 10 + (b.val - 48)) 0

/-- The value of one hexadecimal digit `0-9`, `a-f` or `A-F`. -/
def hexDigit (b : Byte) : Nat :=
  if 48 ≤ b.val ∧ b.val ≤ 57 then b.val - 48
  else if 97 ≤ b.val ∧ b.val ≤ 102 then b.val - 87
  else b.val - 55

/-- The value of a text read as hexadecimal digits, from the left. -/
def hexValue (g : GoString) : Nat := g.foldl (fun acc b => acc * 16 + hexDigit b) 0

/-- A decimal group in 0..255: one or more ASCII digits whose value is at
most 255. -/
def decimalGroup (g : GoString) : Bool :=
  !g.isEmpty && g.all isDigitByte && decide (decimalValue g ≤ 255)

/-- A decimal group in 0..255 written without leading zeros: the first digit
is `0` only in the text `0`. -/
def canonicalGroup (g : GoString) : Bool :=
  decimalGroup g && (g.length == 1 || g.head? != some (toByte 48))

/-- A hexadecimal group in 0..0xFFFF: one or more hexadecimal digits whose
value is at most 0xFFFF. -/
def hexGroup (g : GoString) : Bool :=
  !g.isEmpty && g.all isHexByte && decide (hexValue g ≤ 0xFFFF)

/-- Four dot-separated decimal groups, each in 0..255. -/
def dottedDecimal (s : GoString) : Bool :=
  let groups := s.splitOn (toByte 46)
  groups.length == 4 && groups.all decimalGroup

/-- A canonical IPv4 text: four dot-separated decimal groups, each in 0..255
and written without leading zeros. -/
def canonicalIPv4 (s : GoString) : Bool :=
  let groups := s.splitOn (toByte 46)
  groups.length == 4 && groups.all canonicalGroup

/-- Eight colon-separated hexadecimal groups, each in 0..0xFFFF. -/
def colonHex (s : GoString) : Bool :=
  let groups := s.splitOn (toByte 58)
  groups.length == 8 && groups.all hexGroup

/-- A lowercase hexadecimal digit: `0-9` or `a-f`. -/
def isLowerHexByte (b : Byte) : Bool := isDigitByte b || (97 ≤ b.val && b.val ≤ 102)

/-- Four colon-separated decimal groups, each in 0..255. -/
def colonDecimal (s : GoString) : Bool :=
  let groups := s.splitOn (toByte 58)
  groups.length == 4 && groups.all decimalGroup

/-- Eight dot-separated hexadecimal groups, each in 0..0xFFFF. -/
def dottedHex (s : GoString) : Bool :=
  let groups := s.splitOn (toByte 46)
  groups.length == 8 && groups.all hexGroup

/-- A group of a text: 1 to `m` bytes, all of the class. -/
def textGroup (cls : Byte → Bool) (m : Nat) (g : GoString) : Bool :=
  decide (1 ≤ g.length) && decide (g.length ≤ m) && g.all cls

/-- An IP text of IPv4 shape: four dot-separated groups of 1 to 3 decimal
digits. -/
def ipShape4 (ip : GoString) : Prop :=
  ∃ g1 g2 g3 g4 : GoString,
    textGroup isDigitByte 3 g1 = true ∧ textGroup isDigitByte 3 g2 = true ∧
    textGroup isDigitByte 3 g3 = true ∧ textGroup isDigitByte 3 g4 = true ∧
    ip = g1 ++ ascii "." ++ g2 ++ ascii "." ++ g3 ++ ascii "." ++ g4

/-- An IP text of IPv6 shape: eight colon-separated groups of 1 to 4
hexadecimal digits. -/
def ipShape6 (ip : GoString) : Prop :=
  ∃ h1 h2 h3 h4 h5 h6 h7 h8 : GoString,
    textGroup isHexByte 4 h1 = true ∧ textGroup isHexByte 4 h2 = true ∧
    textGroup isHexByte 4 h3 = true ∧ textGroup isHexByte 4 h4 = true ∧
    textGroup isHexByte 4 h5 = true ∧ textGroup isHexByte 4 h6 = true ∧
    textGroup isHexByte 4 h7 = true ∧ textGroup isHexByte 4 h8 = true ∧
    ip = h1 ++ ascii ":" ++ h2 ++ ascii ":" ++ h3 ++ ascii ":" ++ h4 ++ ascii ":" ++ h5 ++
      ascii ":" ++ h6 ++ ascii ":" ++ h7 ++ ascii ":" ++ h8

/-- A transport address of the shape `g.g.g.g:P`: an IP text of IPv4 shape, a
colon, and 1 to 5 decimal digits. -/
def inetShape4 (s ip port : GoString) : Prop :=
  ipShape4 ip ∧ textGroup isDigitByte 5 port = true ∧ s = ip ++ ascii ":" ++ port

/-- A transport address of the shape `[h:h:h:h:h:h:h:h]:P`: an IP text of IPv6
shape between brackets, a colon, and 1 to 5 decimal digits. -/
def inetShape6 (s ip port : GoString) : Prop :=
  ipShape6 ip ∧ textGroup isDigitByte 5 port = true ∧
    s = ascii "[" ++ ip ++ ascii "]:" ++ port

/-- A 24-byte binding response whose only attribute has the type `t1 t0` and a
declared length of 0 (an empty value). -/
def bytesEmptyValue (t1 t0 : Byte) : List Byte :=
  [0x01, 0x01, 0x00, 0x04, 0x21, 0x12, 0xA4, 0x42,
   0x01, 0x02, 0x03, 0x04, 0x05, 0x06, 0x07, 0x08, 0x09, 0x10, 0x11, 0x12,
   t1, t0, 0x00, 0x00]

/-- The packet that `FromBytes` returns for `bytesEmptyValue t1 t0` when its
local variable `res` is at address 0. -/
def packetEmptyValue (t1 t0 : Byte) : StunPacket :=
  { stype := 0x0101, length := 8, cookie := STUN_MAGIC_COOKIE, id := requestId,
    attributes := [⟨t1.val * 256 + t0.val, 0, [], some 0⟩] }

/-- A binding response with MAPPED_ADDRESS 10.0.0.2:5000, an XOR_MAPPED_ADDRESS
whose value `00 01 36 62 2B 12 A4 40` de-XORs to 10.0.0.2:6000 (the same IP,
another port), and CHANGED_ADDRESS 10.0.0.9:3479. -/
def packetXorPort : StunPacket :=
  { stype := 0x0101, length := 36, cookie := STUN_MAGIC_COOKIE, id := requestId,
    attributes := [⟨0x0001, 8, [0, 1, 0x13, 0x88, 10, 0, 0, 2], some 0⟩,
                   ⟨0x0020, 8, [0, 1, 0x36, 0x62, 0x2B, 0x12, 0xA4, 0x40], some 0⟩,
                   ⟨0x0005, 8, [0, 1, 0x0D, 0x97, 10, 0, 0, 9], some 0⟩] }

/-- The world in which every probe gets the response `packetXorPort` on a
socket whose local address is 10.0.0.2:5000. -/
def worldXorPort : World :=
  worldOf fun _ => .connected (connReturning testLocal (packetXorPort, true, none))

/-- A binding response with MAPPED_ADDRESS 10.0.0.2:5000, an XOR_MAPPED_ADDRESS
whose value `00 01 BD 52 E7 21 C0 45` de-XORs to 198.51.100.7:40000 (another
IP), and CHANGED_ADDRESS 10.0.0.9:3479. -/
def packetXorIp : StunPacket :=
  { stype := 0x0101, length := 36, cookie := STUN_MAGIC_COOKIE, id := requestId,
    attributes := [⟨0x0001, 8, [0, 1, 0x13, 0x88, 10, 0, 0, 2], some 0⟩,
                   ⟨0x0020, 8, [0, 1, 0xBD, 0x52, 0xE7, 0x21, 0xC0, 0x45], some 0⟩,
                   ⟨0x0005, 8, [0, 1, 0x0D, 0x97, 10, 0, 0, 9], some 0⟩] }

/-- The world in which every probe gets the response `packetXorIp` on a socket
whose local address is 10.0.0.2:5000. -/
def worldXorIp : World :=
  worldOf fun _ => .connected (connReturning testLocal (packetXorIp, true, none))

/-! ## packet.go: one iteration of the attribute loop of `FromBytes` -/

/-- How one iteration of the attribute loop of `FromBytes` ends: the function
returns (`stop`), or the loop goes on with the input slice, the packet and the
offset `pos` of the next iteration (`next`). -/
inductive LoopStep where
  | stop (res : StunPacket) (err : Option StunError)
  | next (in_bin : ByteSlice) (res : StunPacket) (pos : Nat)
  deriving DecidableEq, Repr

/-- One iteration of the attribute loop of `FromBytes`, from the test
`pos >= uint16(len(in_bin))` to the update of `pos`. -/
def FromBytes_step (rfc : Int) (res_addr : Nat) (in_bin : ByteSlice) (res : StunPacket)
    (pos : Nat) : Outcome LoopStep :=
  if pos ≥ in_bin.len % 65536 then .ret (.stop res none)
  else
    (in_bin.slice pos ((pos + 2) % 65536)).bind fun s =>
    match binaryReadUint16 s.data with
    | none => .ret (.stop res (some .cannotDecodeAttributes))
    | some vtype =>
      (in_bin.slice ((pos + 2) % 65536) ((pos + 4) % 65536)).bind fun s =>
      match binaryReadUint16 s.data with
      | none => .ret (.stop res (some .cannotDecodeAttributes))
      | some length =>
        (in_bin.slice ((pos + 4) % 65536) ((pos + 4 + length) % 65536)).bind fun value =>
        match AttributeCreate rfc vtype value (some res_addr) with
        | (_, some err) => .ret (.stop res (some err))
        | (attr, none) =>
          let value := AttributeCreateAlias rfc value
          let backing := in_bin.backing.take ((pos + 4) % 65536) ++ value.backing
          let in_bin : ByteSlice := ⟨backing.take in_bin.len, backing.drop in_bin.len⟩
          (res.AddAttribute rfc attr).bind fun res =>
          if STUN_RFC_3489 = rfc then
            let pos := (pos + (4 + length) % 65536) % 65536
            if 0 ≠ pos % 4 then .abort .rfc3489Alignment
            else .ret (.next in_bin res pos)
          else
            let pos := (pos + (4 + __nextBoundary length) % 65536) % 65536
            .ret (.next in_bin res pos)

/-- A 21-byte datagram: a header whose length field is 0, followed by one zero
byte. -/
def bytesOneExtra : List Byte :=
  [0x01, 0x01, 0x00, 0x00, 0x21, 0x12, 0xA4, 0x42,
   0x01, 0x02, 0x03, 0x04, 0x05, 0x06, 0x07, 0x08, 0x09, 0x10, 0x11, 0x12, 0x00]

/-! ## Packets built through the API -/

/-- The packets built with `PacketCreate`, `SetType`, `SetId`, `SetCookie` and
`AddAttribute` of attributes that `AttributeCreate` returned without error,
every call returning; the arguments are in the range of their Go types. -/
inductive Built (rfc : Int) : StunPacket → Prop where
  | create : Built rfc PacketCreate
  | setType (v : StunPacket) (in_type : Nat) :
      Built rfc v → in_type < 65536 → Built rfc (v.SetType in_type)
  | setId (v w : StunPacket) (in_id : List Byte) :
      Built rfc v → v.SetId in_id = .ret w → Built rfc w
  | setCookie (v : StunPacket) (in_cookie : Nat) :
      Built rfc v → in_cookie < 2 ^ 32 → Built rfc (v.SetCookie in_cookie)
  | addAttribute (v w : StunPacket) (a : StunAttribute) :
      Built rfc v → CreatedBy rfc a → a.Typ < 65536 → v.AddAttribute rfc a = .ret w →
      Built rfc w

/-- What parsing keeps of an attribute: its type, semantic length and value. -/
def StunAttribute.content (a : StunAttribute) : Nat × Nat × List Byte :=
  (a.Typ, a.Length, a.Value)

/-! ## global.go: `SendRequest` -/

/-- What one call of `in_connexion.Read(b)` gives. -/
inductive ReadResult where
  /-- A datagram arrived before the deadline: its first 1000 bytes are stored
  in the buffer and their number is returned with a nil error. -/
  | datagram (bytes : List Byte)
  /-- An error that is a `net.Error` whose `Timeout()` is true. -/
  | timeout
  /-- An error that is a `net.Error` whose `Timeout()` is false. -/
  | failed (code : Nat)
  /-- An error that is not a `net.Error`: the type assertion `err.(net.Error)`
  aborts. -/
  | notNetError
  deriving DecidableEq, Repr

/-- A connection as `SendRequest` uses it: the result `(count, err)` of the
`i`-th call of `Write` for the bytes written, and the result of the `i`-th
call of `Read` (calls are numbered from 0). -/
structure NetConn where
  write : Nat → List Byte → Nat × Option Nat
  read : Nat → ReadResult

/-- The local variables of `SendRequest` that live across the passes of its
loop, with two records of what was done so far: the number of calls of `Write`
and the durations in milliseconds given to `SetReadDeadline`, in order. -/
structure SendState where
  rcv_packet : StunPacket
  request_timeout : Nat
  retries_count : Nat
  sends : Nat
  deadlines : List Nat
  deriving DecidableEq, Repr

/-- The state of `SendRequest` before the first pass of its loop. -/
def SendState.init : SendState := ⟨StunPacket.zero, 100, 0, 0, []⟩

/-- The loop of `SendRequest` (verbosity 0), with the package variable `rfc` and
the address of the local variable `res` of `FromBytes` as arguments. One unit
of fuel is one pass. `FromBytes` gets `count + 1` units of fuel, more than its
loop can use on `count` bytes. -/
def SendRequest_loop (rfc : Int) (res_addr : Nat) (in_connexion : NetConn)
    (in_request : StunPacket) :
    Nat → SendState → Outcome ((StunPacket × Bool × Option StunError) × SendState)
  | 0, _ => .outOfFuel
  | fuel + 1, st =>
    in_request.ToBytes.bind fun out =>
    let w := in_connexion.write st.sends out
    let st := { st with sends := st.sends + 1 }
    match w.2 with
    | some code => .ret ((st.rcv_packet, false, some (.cannotSend code)), st)
    | none =>
      in_request.ToBytes.bind fun out =>
      if out.length ≠ w.1 then .ret ((st.rcv_packet, false, some .invalidSentCount), st)
      else
        let i := st.deadlines.length
        let st := { st with deadlines := st.deadlines ++ [st.request_timeout] }
        let st :=
          if st.request_timeout < 1600 then
            { st with request_timeout := st.request_timeout * 2 }
          else { st with retries_count := st.retries_count + 1 }
        match in_connexion.read i with
        | .timeout =>
          if st.retries_count ≥ 9 then .ret ((st.rcv_packet, false, none), st)
          else SendRequest_loop rfc res_addr in_connexion in_request fuel st
        | .failed code => .ret ((st.rcv_packet, false, some (.cannotRead code)), st)
        | .notNetError => .abort .typeAssertion
        | .datagram bytes =>
          let count := min bytes.length 1000
          let b : ByteSlice := ⟨bytes.take 1000, List.replicate (1000 - count) 0⟩
          (FromBytes rfc res_addr (count + 1) b).bind fun r =>
          let st := { st with rcv_packet := r.1 }
          match r.2 with
          | some _ => SendRequest_loop rfc res_addr in_connexion in_request fuel st
          | none => .ret ((st.rcv_packet, true, none), st)

/-- global.go `SendRequest`: the values it returns, and the final state of its
local variables with the record of the sends and deadlines. -/
def SendRequest (rfc : Int) (res_addr fuel : Nat) (in_connexion : NetConn)
    (in_request : StunPacket) :
    Outcome ((StunPacket × Bool × Option StunError) × SendState) :=
  SendRequest_loop rfc res_addr in_connexion in_request fuel SendState.init

/-- A connection on which every `Write` sends all the bytes and every `Read`
times out. -/
def connSilent : NetConn := ⟨fun _ out => (out.length, none), fun _ => .timeout⟩

/-- A connection on which every `Write` sends all the bytes, the first `Read`
gives a datagram of 3 bytes, which `FromBytes` rejects, and the next ones give
the 20-byte response `bytesHeaderOnly`. -/
def connGarbageFirst : NetConn :=
  ⟨fun _ out => (out.length, none),
    fun i => if i = 0 then .datagram [1, 2, 3] else .datagram bytesHeaderOnly⟩

/-- A connection on which every `Write` sends all the bytes, the first five
calls of `Read` give a datagram of 3 bytes and the next ones give the 20-byte
response `bytesHeaderOnly`: no `Read` ever times out. -/
def connGarbageFive : NetConn :=
  ⟨fun _ out => (out.length, none),
    fun i => if i < 5 then .datagram [1, 2, 3] else .datagram bytesHeaderOnly⟩

/-- The state of `SendRequest` after a pass of its loop in which the request
was sent and `Read` was called, `rcv` being the value of `rcv_packet` after the
pass: one more send, one more deadline (the timeout at the start of the pass),
and the timeout doubled when it was below 1600 ms, the retry counter
incremented otherwise. -/
def SendState.afterPass (st : SendState) (rcv : StunPacket) : SendState :=
  { rcv_packet := rcv
    request_timeout := if st.request_timeout < 1600 then st.request_timeout * 2
      else st.request_timeout
    retries_count := if st.request_timeout < 1600 then st.retries_count
      else st.retries_count + 1
    sends := st.sends + 1
    deadlines := st.deadlines ++ [st.request_timeout] }

/-- The read deadline that the specification gives to the read of index `i`
(counted from 0), in milliseconds: 100 doubled `i` times, at most 1600. -/
def specDeadline (i : Nat) : Nat := min (100 * 2 ^ i) 1600

/-- The record of deadlines and the current timeout follow the schedule of the
specification. -/
def SendState.onSchedule (st : SendState) : Prop :=
  st.deadlines = (List.range st.deadlines.length).map specDeadline ∧
  st.request_timeout = specDeadline st.deadlines.length

/-! ## The probes of the discovery, seen from the network -/

/-- The Binding Request of Test I: SOFTWARE "TestClient01" and FINGERPRINT, the
attributes pointing to the request packet at address `addr`. -/
def requestBindingAt (addr : Nat) : StunPacket :=
  { stype := STUN_TYPE_BINDING_REQUEST, length := 24, cookie := STUN_MAGIC_COOKIE,
    id := requestId,
    attributes :=
      [⟨STUN_ATTRIBUT_SOFTWARE, 12, ascii "TestClient01", some addr⟩,
       ⟨STUN_ATTRIBUT_FINGERPRINT, 4, [0x24, 0x90, 0x1B, 0x19], some addr⟩] }

/-- The Binding Request of Test II (`in_change_ip` true) and of Test III
(`in_change_ip` false): SOFTWARE "TestClient01", CHANGE-REQUEST with the flag
"change port" (0x02) and, for Test II, the flag "change IP" (0x04), and
FINGERPRINT. -/
def requestChangeAt (addr : Nat) (in_change_ip : Bool) : StunPacket :=
  { stype := STUN_TYPE_BINDING_REQUEST, length := 32, cookie := STUN_MAGIC_COOKIE,
    id := requestId,
    attributes :=
      [⟨STUN_ATTRIBUT_SOFTWARE, 12, ascii "TestClient01", some addr⟩,
       ⟨STUN_ATTRIBUT_CHANGE_REQUEST, 4, [0, 0, 0, if in_change_ip then 0x06 else 0x02],
         some addr⟩,
       ⟨STUN_ATTRIBUT_FINGERPRINT, 4,
         if in_change_ip then [0xBC, 0x59, 0x9B, 0xC5] else [0xBB, 0x34, 0x5F, 0xDC],
         some addr⟩] }

/-- The outcome of the probe made with the `n`-th call of `net.Dial`: the dial
towards `dest` succeeds on a socket whose local address is `loc`, `SendRequest`
of `request` returns the packet `packet` and the flag `response` with a nil
error, and `Close` succeeds (no error is reported). -/
def World.probe (w : World) (n : Nat) (dest : GoString) (request : StunPacket)
    (loc : GoString) (packet : StunPacket) (response : Bool) : Prop :=
  ∃ c, w.dial n dest = .connected c ∧ c.localAddr = loc ∧
    c.sendRequest request = .ret (packet, response, none) ∧ c.close = none

/-- The mapped transport address `M` of a response, as Test I compares it: the
response has a MAPPED_ADDRESS that decodes to `ipm : pm`, the lookup of the
XOR-MAPPED-ADDRESS returns, and `M` is the transport address of the de-XORed
address when one was found and its IP text differs from `ipm`, of `ipm : pm`
otherwise. -/
def mappedTransport (heap : Heap) (p : StunPacket) (M : GoString) : Prop :=
  ∃ (fm : Nat) (ipm : GoString) (pm : Nat) (fx : Bool) (famx : Nat) (ipx : GoString)
    (px : Nat) (ex : Option StunError),
    p.GetMappedAddress = .ret (true, fm, ipm, pm, none) ∧
    p.GetXorMappedAddress heap = .ret (fx, famx, ipx, px, ex) ∧
    MakeTransportAddress (if ipm ≠ ipx ∧ fx = true then ipx else ipm)
      (Int.ofNat (if ipm ≠ ipx ∧ fx = true then px else pm)) = (M, none)

/-- The changed transport address `C` of a response: the response has a
CHANGED_ADDRESS that decodes, and `C` is its transport address. -/
def changedTransport (p : StunPacket) (C : GoString) : Prop :=
  ∃ (cfam : Nat) (cip : GoString) (cport : Nat),
    p.GetChangedAddress = .ret (true, cfam, cip, cport, none) ∧
    (MakeTransportAddress cip (Int.ofNat cport)).1 = C

/-- The request after `SetType` and `SetId`, before any attribute is added. -/
def requestEmpty : StunPacket :=
  { stype := STUN_TYPE_BINDING_REQUEST, length := 0, cookie := STUN_MAGIC_COOKIE,
    id := requestId, attributes := [] }

/-- The 44 bytes that `ClientSendChangeRequest` gives to
`AttributeCreateFingerprint`: the packet before the FINGERPRINT is added, with
24 in its length field. -/
def bytesBeforeFingerprintChange (in_change_ip : Bool) : List Byte :=
  [0x00, 0x01, 0x00, 24, 0x21, 0x12, 0xA4, 0x42,
   0x01, 0x02, 0x03, 0x04, 0x05, 0x06, 0x07, 0x08, 0x09, 0x10, 0x11, 0x12,
   0x80, 0x22, 0x00, 12, 84, 101, 115, 116, 67, 108, 105, 101, 110, 116, 48, 49,
   0x00, 0x03, 0x00, 4, 0, 0, 0, if in_change_ip then 0x06 else 0x02]

/-- A 36-byte binding response with MAPPED_ADDRESS 10.0.0.2:5000 and a
CHANGED_ADDRESS whose declared length is 0 (an empty value). -/
def bytesChangedEmpty : List Byte :=
  [0x01, 0x01, 0x00, 0x10, 0x21, 0x12, 0xA4, 0x42,
   0x01, 0x02, 0x03, 0x04, 0x05, 0x06, 0x07, 0x08, 0x09, 0x10, 0x11, 0x12,
   0x00, 0x01, 0x00, 0x08, 0, 1, 0x13, 0x88, 10, 0, 0, 2,
   0x00, 0x05, 0x00, 0x00]

/-- The packet that `FromBytes` returns for `bytesChangedEmpty` when its local
variable `res` is at address 0. -/
def packetChangedEmpty : StunPacket :=
  { stype := 0x0101, length := 32, cookie := STUN_MAGIC_COOKIE, id := requestId,
    attributes := [⟨0x0001, 8, [0, 1, 0x13, 0x88, 10, 0, 0, 2], some 0⟩,
                   ⟨0x0005, 0, [], some 0⟩] }

/-- The world in which every probe gets the response `packetChangedEmpty` on a
socket whose local address is 10.0.0.2:5000. -/
def worldChangedEmpty : World :=
  worldOf fun _ => .connected (connReturning testLocal (packetChangedEmpty, true, none))

/-- The world of `worldNat`, except that Test I towards the changed address
gets the response `packetChangedEmpty`. -/
def worldNatChangedEmpty : World :=
  worldOf fun n =>
    if n = 0 then .connected (connReturning testLocal (packetMappedOther, true, none))
    else if n = 2 then .connected (connReturning testLocal (packetChangedEmpty, true, none))
    else .connected (connReturning testLocal (StunPacket.zero, false, none))

/-- A binding response with MAPPED_ADDRESS 198.51.100.7:40000, an
XOR_MAPPED_ADDRESS whose value `00 01 32 9A 2B 12 A4 40` de-XORs to
10.0.0.2:5000, and CHANGED_ADDRESS 10.0.0.9:3479. -/
def packetXorLocal : StunPacket :=
  { stype := 0x0101, length := 36, cookie := STUN_MAGIC_COOKIE, id := requestId,
    attributes := [⟨0x0001, 8, [0, 1, 0x9C, 0x40, 198, 51, 100, 7], some 0⟩,
                   ⟨0x0020, 8, [0, 1, 0x32, 0x9A, 0x2B, 0x12, 0xA4, 0x40], some 0⟩,
                   ⟨0x0005, 8, [0, 1, 0x0D, 0x97, 10, 0, 0, 9], some 0⟩] }

/-- The world in which every probe gets the response `packetXorLocal` on a
socket whose local address is 10.0.0.2:5000. -/
def worldXorLocal : World :=
  worldOf fun _ => .connected (connReturning testLocal (packetXorLocal, true, none))

/-- A binding response with MAPPED_ADDRESS 10.0.0.2:6000, an XOR_MAPPED_ADDRESS
whose value `00 01 32 9A 2B 12 A4 40` de-XORs to 10.0.0.2:5000 (the same IP,
another port), and CHANGED_ADDRESS 10.0.0.9:3479. -/
def packetXorPortLocal : StunPacket :=
  { stype := 0x0101, length := 36, cookie := STUN_MAGIC_COOKIE, id := requestId,
    attributes := [⟨0x0001, 8, [0, 1, 0x17, 0x70, 10, 0, 0, 2], some 0⟩,
                   ⟨0x0020, 8, [0, 1, 0x32, 0x9A, 0x2B, 0x12, 0xA4, 0x40], some 0⟩,
                   ⟨0x0005, 8, [0, 1, 0x0D, 0x97, 10, 0, 0, 9], some 0⟩] }

/-- The world in which every probe gets the response `packetXorPortLocal` on a
socket whose local address is 10.0.0.2:5000. -/
def worldXorPortLocal : World :=
  worldOf fun _ => .connected (connReturning testLocal (packetXorPortLocal, true, none))

end GoStun

namespace GoStun

/-! ## Theorems -/

/-- C5: `PacketCreate()` has no attributes, length 0 and the magic cookie
0x2112A442, and its `ToBytes()` is the 20 bytes 00 00 00 00 21 12 A4 42
followed by 12 zero bytes. -/
theorem PacketCreate_empty :
    PacketCreate.attributes = [] ∧ PacketCreate.GetAttributesCount = 0 ∧
    PacketCreate.GetLength = 0 ∧ PacketCreate.GetCookie = 0x2112A442 ∧
    PacketCreate.ToBytes =
      .ret [0, 0, 0, 0, 0x21, 0x12, 0xA4, 0x42, 0, 0, 0, 0, 0, 0, 0, 0, 0, 0, 0, 0] := by
  decide

/-- C6: after `SetRfc5389()`, `AttributeCreate` still rejects values of 1, 2
and 3 bytes with the RFC 3489 error, because `STUN_RFC_5389` and
`STUN_RFC_3489` are the same constant. -/
theorem AttributeCreate_rfc5389_rejects_unaligned :
    AttributeCreate SetRfc5389 0x8022 ⟨[0x61], []⟩ none
      = (StunAttribute.zero, some .rfc3489ValueLength) ∧
    AttributeCreate SetRfc5389 0x8022 ⟨[0x61, 0x62], []⟩ none
      = (StunAttribute.zero, some .rfc3489ValueLength) ∧
    AttributeCreate SetRfc5389 0x8022 ⟨[0x61, 0x62, 0x63], []⟩ none
      = (StunAttribute.zero, some .rfc3489ValueLength) := by
  decide

/-- C1: the packet made by `PacketCreate()` and one `AddAttribute` of a 4-byte
attribute has length 8 and serializes to 28 bytes; `FromBytes` of these bytes
returns without error a packet whose length is 16. -/
theorem FromBytes_ToBytes_doubles_length :
    AttributeCreate SetRfc3489 1 ⟨zero4, []⟩ none = (attr4, none) ∧
    PacketCreate.AddAttribute SetRfc3489 attr4 = .ret packet4 ∧
    packet4.ToBytes = .ret bytes4 ∧
    packet4.GetLength = 8 ∧
    FromBytes SetRfc3489 0 2 ⟨bytes4, []⟩
      = .ret ({ packet4 with length := 16, attributes := [{ attr4 with Packet := some 0 }] }, none) := by
  decide

/-- C10: on a 21-byte input (one byte after the header) and on a 24-byte input
whose attribute declares 4 value bytes that are not there, both with capacity
equal to length, `FromBytes` aborts with a slice-bounds run-time error instead
of returning an error. -/
theorem FromBytes_truncated_aborts (rfc : Int) (res_addr fuel : Nat) :
    FromBytes rfc res_addr (fuel + 1) ⟨List.replicate 21 0, []⟩ = .abort .sliceBounds ∧
    FromBytes rfc res_addr (fuel + 1) ⟨List.replicate 20 0 ++ [0, 1, 0, 4], []⟩
      = .abort .sliceBounds := by
  constructor <;> rfl

/-- The result of `AttributeCreate` under `rfc = STUN_RFC_3489`, value length not a multiple of 4. -/
theorem AttributeCreate_rfc0_unaligned (t : Nat) (v : ByteSlice) (p : Option Nat)
    (h : v.len % 4 ≠ 0) :
    AttributeCreate STUN_RFC_3489 t v p = (StunAttribute.zero, some .rfc3489ValueLength) := by
  have h' : 0 ≠ v.len % 4 := fun e => h e.symm
  simp [AttributeCreate, h']

/-- The result of `AttributeCreate` under `rfc = STUN_RFC_3489`, aligned value longer than 65535 bytes. -/
theorem AttributeCreate_rfc0_long (t : Nat) (v : ByteSlice) (p : Option Nat)
    (h4 : v.len % 4 = 0) (hl : v.len > 65535) :
    (AttributeCreate STUN_RFC_3489 t v p).2 = some (.attributeTooLong v.len) := by
  simp [AttributeCreate, h4, hl]

/-- The result of `AttributeCreate` under `rfc = STUN_RFC_3489`, aligned value of at most 65535 bytes. -/
theorem AttributeCreate_rfc0_ok (t : Nat) (v : ByteSlice) (p : Option Nat)
    (h4 : v.len % 4 = 0) (hl : v.len ≤ 65535) :
    AttributeCreate STUN_RFC_3489 t v p = (⟨t, v.len, v.data, p⟩, none) := by
  simp only [ByteSlice.len] at h4 hl
  have h0 : 0 = v.data.length % 4 := h4.symm
  have hl' : ¬ 65535 < v.data.length := by omega
  have hmod : v.data.length % 65536 = v.data.length := Nat.mod_eq_of_lt (by omega)
  simp [AttributeCreate, ← h0, hl', hmod, __padding, goCopy, ByteSlice.len]

/-- C7: after `SetRfc3489()`, `AttributeCreate(t, v, p)` returns an error if and
only if `len(v)` is not a multiple of 4 or exceeds 65535; when it returns no
error the attribute has `Type = t`, `Length = len(v)` and `Value` equal to `v`. -/
theorem AttributeCreate_rfc3489 (t : Nat) (v : ByteSlice) (p : Option Nat) :
    ((AttributeCreate SetRfc3489 t v p).2 ≠ none ↔ (v.len % 4 ≠ 0 ∨ v.len > 65535)) ∧
    ((AttributeCreate SetRfc3489 t v p).2 = none →
      (AttributeCreate SetRfc3489 t v p).1.Typ = t ∧
      (AttributeCreate SetRfc3489 t v p).1.Length = v.len ∧
      (AttributeCreate SetRfc3489 t v p).1.Value = v.data) := by
  unfold SetRfc3489
  by_cases h4 : v.len % 4 = 0
  · by_cases hl : v.len > 65535
    · rw [AttributeCreate_rfc0_long t v p h4 hl]
      simp [hl]
    · rw [AttributeCreate_rfc0_ok t v p h4 (by omega)]
      simp [h4, hl]
  · rw [AttributeCreate_rfc0_unaligned t v p h4]
    simp [h4]

/-- C7, at the 4-byte value `zero4` and the 1-byte value `[7]`. -/
theorem AttributeCreate_rfc3489_witness :
    (AttributeCreate SetRfc3489 1 ⟨zero4, []⟩ none).1.Value = zero4 ∧
    (AttributeCreate SetRfc3489 1 ⟨[7], []⟩ none).2 ≠ none :=
  ⟨((AttributeCreate_rfc3489 1 ⟨zero4, []⟩ none).2 (by decide)).2.2,
   (AttributeCreate_rfc3489 1 ⟨[7], []⟩ none).1.2 (by decide)⟩

/-- C8: `FromBytes(b)` returns a non-nil error for every `b` with
`len(b) < 20` or `len(b) > 65535`, whatever the mode and the fuel. -/
theorem FromBytes_rejects_bad_length (rfc : Int) (res_addr fuel : Nat) (b : ByteSlice)
    (h : b.len < 20 ∨ b.len > 65535) :
    ∃ res err, FromBytes rfc res_addr fuel b = .ret (res, some err) := by
  unfold FromBytes
  by_cases h20 : b.len < 20
  · exact ⟨PacketCreate, .tooFewBytes b.len, by simp [h20]⟩
  · have hl : b.len > 65535 := by omega
    exact ⟨PacketCreate, .tooManyBytes b.len, by simp [h20, hl]⟩

/-- C8, at a 3-byte input. -/
theorem FromBytes_rejects_bad_length_witness :
    ∃ res err, FromBytes SetRfc3489 0 0 ⟨[1, 2, 3], []⟩ = .ret (res, some err) :=
  FromBytes_rejects_bad_length SetRfc3489 0 0 ⟨[1, 2, 3], []⟩ (by decide)

/-- C9: for every 20-byte input, whatever its cookie bytes 4..7 (and whatever
lies in its spare capacity), `FromBytes` returns no error and a packet with
the big-endian type, length and cookie of the header, the 12 bytes 8..19 as
transaction id, and no attribute. -/
theorem FromBytes_header_only (rfc : Int) (res_addr fuel : Nat)
    (t0 t1 l0 l1 c0 c1 c2 c3 i0 i1 i2 i3 i4 i5 i6 i7 i8 i9 i10 i11 : Byte)
    (spare : List Byte) :
    ∃ p, FromBytes rfc res_addr (fuel + 1)
          ⟨[t0, t1, l0, l1, c0, c1, c2, c3, i0, i1, i2, i3, i4, i5, i6, i7, i8, i9, i10, i11],
            spare⟩ = .ret (p, none) ∧
      p.GetType = t0.val * 256 + t1.val ∧
      p.GetLength = l0.val * 256 + l1.val ∧
      p.GetCookie = c0.val * 16777216 + c1.val * 65536 + c2.val * 256 + c3.val ∧
      p.GetId = [i0, i1, i2, i3, i4, i5, i6, i7, i8, i9, i10, i11] ∧
      p.GetAttributesCount = 0 := by
  refine ⟨⟨t0.val * 256 + t1.val, l0.val * 256 + l1.val,
    c0.val * 16777216 + c1.val * 65536 + c2.val * 256 + c3.val,
    [i0, i1, i2, i3, i4, i5, i6, i7, i8, i9, i10, i11], []⟩, ?_, ?_⟩
  · simp [FromBytes, ByteSlice.len, ByteSlice.slice, ByteSlice.cap, ByteSlice.backing,
      Outcome.bind, binaryReadUint16, binaryReadUint32, StunPacket.SetId, PacketCreate,
      StunPacket.SetType, StunPacket.SetLength, StunPacket.SetCookie, goCopy, FromBytes_loop,
      show 2 ≤ 20 + spare.length by omega, show 4 ≤ 20 + spare.length by omega,
      show 8 ≤ 20 + spare.length by omega]
  · simp [StunPacket.GetType, StunPacket.GetLength, StunPacket.GetCookie, StunPacket.GetId,
      StunPacket.GetAttributesCount]

/-! ### Serialization -/

/-- The attribute loop of `ToBytes`, when it returns, has appended the wire
form of the attributes to what was built before. -/
theorem ToBytes_loop_ret (attrs : List StunAttribute) (res out : List Byte)
    (h : ToBytes_loop attrs res = .ret out) : out = res ++ wireAttributes attrs := by
  induction attrs generalizing res with
  | nil =>
    simp only [ToBytes_loop, Outcome.ret.injEq] at h
    simp [wireAttributes, h]
  | cons a rest ih =>
    simp only [ToBytes_loop] at h
    by_cases hl : a.Length > 65535
    · simp [hl] at h
    · rw [if_neg hl] at h
      have hmod : a.Length % 65536 = a.Length := Nat.mod_eq_of_lt (by omega)
      have := ih _ h
      rw [this, hmod]
      simp [wireAttributes, wireAttribute, Uint16toBytesMSF]

/-- The number of bytes of the attribute block. -/
theorem wireAttributes_length (attrs : List StunAttribute) :
    (wireAttributes attrs).length = attributesSize attrs := by
  induction attrs with
  | nil => rfl
  | cons a rest ih =>
    simp [wireAttributes, wireAttribute, attributesSize, binaryWriteUint16, ih]
    omega

/-- When `ToBytes` returns: the layout of its output and the bounds on its size. -/
theorem ToBytes_ret (v : StunPacket) (out : List Byte) (h : v.ToBytes = .ret out) :
    out = binaryWriteUint16 v.stype ++ binaryWriteUint16 v.length ++
          binaryWriteUint32 v.cookie ++ v.id ++ wireAttributes v.attributes ∧
    20 ≤ out.length ∧ out.length ≤ 65535 := by
  unfold StunPacket.ToBytes at h
  simp only [List.nil_append] at h
  cases hloop : ToBytes_loop v.attributes
      (binaryWriteUint16 v.stype ++ binaryWriteUint16 v.length ++
        binaryWriteUint32 v.cookie ++ v.id) with
  | abort p => rw [hloop] at h; simp [Outcome.bind] at h
  | outOfFuel => rw [hloop] at h; simp [Outcome.bind] at h
  | ret res =>
    rw [hloop] at h
    simp only [Outcome.bind] at h
    by_cases hb : res.length < 20 ∨ res.length > 65535
    · simp [hb] at h
    · rw [if_neg hb] at h
      have hres := ToBytes_loop_ret _ _ _ hloop
      simp only [Outcome.ret.injEq] at h
      have hout : out = res := by
        rw [← h, hres]
        simp [binaryWriteUint16, Uint16toBytesMSF, goCopy]
      subst hout
      refine ⟨hres, by omega, by omega⟩

/-- C2: when `ToBytes()` returns for a packet with a 12-byte transaction id, the
output is the big-endian message type, the big-endian length, the big-endian
cookie and the 12 id bytes (a 20-byte header), followed for each attribute in
insertion order by its big-endian type, its big-endian semantic length and its
stored value. -/
theorem ToBytes_wire_layout (v : StunPacket) (out : List Byte)
    (hid : v.GetId.length = 12) (h : v.ToBytes = .ret out) :
    out = binaryWriteUint16 v.GetType ++ binaryWriteUint16 v.GetLength ++
          binaryWriteUint32 v.GetCookie ++ v.GetId ++ wireAttributes v.attributes ∧
    (binaryWriteUint16 v.GetType ++ binaryWriteUint16 v.GetLength ++
          binaryWriteUint32 v.GetCookie ++ v.GetId).length = 20 := by
  refine ⟨(ToBytes_ret v out h).1, ?_⟩
  simp [binaryWriteUint16, binaryWriteUint32, hid]

/-- C2, at `packet4`. -/
theorem ToBytes_wire_layout_witness :
    bytes4 = binaryWriteUint16 packet4.GetType ++ binaryWriteUint16 packet4.GetLength ++
          binaryWriteUint32 packet4.GetCookie ++ packet4.GetId ++
          wireAttributes packet4.attributes ∧
    (binaryWriteUint16 packet4.GetType ++ binaryWriteUint16 packet4.GetLength ++
          binaryWriteUint32 packet4.GetCookie ++ packet4.GetId).length = 20 :=
  ToBytes_wire_layout packet4 bytes4 (by decide) (by decide)

/-! ### Building packets -/

/-- What `AttributeCreate` guarantees of an attribute it returns without error,
in every mode: the semantic length fits 16 bits, the stored value is the
semantic length rounded up to a multiple of 4, and under `STUN_RFC_3489` the
semantic length is a multiple of 4. -/
theorem CreatedBy_props (rfc : Int) (a : StunAttribute) (h : CreatedBy rfc a) :
    a.Length ≤ 65535 ∧ a.Value.length = a.Length + (4 - a.Length % 4) % 4 ∧
    (rfc = STUN_RFC_3489 → a.Length % 4 = 0) := by
  obtain ⟨t, v, p, h⟩ := h
  unfold AttributeCreate at h
  by_cases hg : 0 ≠ v.len % 4 ∧ rfc = STUN_RFC_3489
  · simp [hg] at h
  · rw [if_neg hg] at h
    by_cases hl : v.len > 65535
    · simp [hl] at h
    · simp only [hl, if_false, Prod.mk.injEq, and_true] at h
      have hmod : v.len % 65536 = v.len := Nat.mod_eq_of_lt (by omega)
      subst h
      simp only [hmod]
      refine ⟨by omega, ?_, ?_⟩
      · simp only [__padding, goAppend, goCopy, ByteSlice.len]
        simp only [ByteSlice.len] at hmod hl
        by_cases h4 : 0 = v.data.length % 4
        · simp [← h4]
        · by_cases hs : (List.replicate (4 - v.data.length % 4) (0 : Byte)).length ≤ v.spare.length
          · simp only [h4, hs, if_true, if_false]
            simp
            omega
          · simp only [h4, hs, if_true, if_false]
            simp
            omega
      · intro hr
        have : ¬ (0 ≠ v.len % 4) := fun h0 => hg ⟨h0, hr⟩
        omega

/-- One `AddAttribute` of a created attribute on a packet whose length is a
multiple of 4: it returns, appends the attribute and adds `4 + len(Value)` to
the 16-bit length. -/
theorem AddAttribute_created (rfc : Int) (v : StunPacket) (a : StunAttribute)
    (h : CreatedBy rfc a) (hv : v.length % 4 = 0) :
    v.AddAttribute rfc a =
      .ret { v with attributes := v.attributes ++ [a]
                    length := (v.length + (4 + a.Value.length)) % 65536 } := by
  obtain ⟨hL, hV, h4⟩ := CreatedBy_props rfc a h
  unfold StunPacket.AddAttribute
  by_cases hr : STUN_RFC_3489 = rfc
  · have hA := h4 hr.symm
    have e : (v.length + (a.Length + 4) % 65536) % 65536
        = (v.length + (4 + a.Value.length)) % 65536 := by omega
    have e4 : ¬ (0 ≠ (v.length + (4 + a.Value.length)) % 65536 % 4) := by omega
    simp only [hr, if_true, e, e4, if_false]
  · have e : (v.length + (__nextBoundary a.Length + 4) % 65536) % 65536
        = (v.length + (4 + a.Value.length)) % 65536 := by
      unfold __nextBoundary
      by_cases h0 : 0 = a.Length % 4
      · simp only [h0, if_true]
        omega
      · simp only [h0, if_false]
        omega
    simp only [hr, if_false, e]

/-- A sequence of `AddAttribute` of created attributes on a packet whose length
is a multiple of 4 and fits 16 bits: it returns, the attributes are appended in
order, the length grows by the sum of `4 + len(Value)` modulo 65536, and the
other fields are unchanged. -/
theorem AddAttributes_created (rfc : Int) (attrs : List StunAttribute)
    (h : ∀ a ∈ attrs, CreatedBy rfc a) (v : StunPacket)
    (hv : v.length % 4 = 0) (hlt : v.length < 65536) :
    v.AddAttributes rfc attrs =
      .ret { v with attributes := v.attributes ++ attrs
                    length := (v.length + attributesSize attrs) % 65536 } := by
  induction attrs generalizing v with
  | nil =>
    simp [StunPacket.AddAttributes, attributesSize, Nat.mod_eq_of_lt hlt]
  | cons a rest ih =>
    have ha := h a (List.mem_cons_self a rest)
    have hrest : ∀ b ∈ rest, CreatedBy rfc b := fun b hb => h b (List.mem_cons_of_mem a hb)
    obtain ⟨_, hV, _⟩ := CreatedBy_props rfc a ha
    simp only [StunPacket.AddAttributes, AddAttribute_created rfc v a ha hv, Outcome.bind]
    rw [ih hrest _ (by simp only; omega) (by simp only; omega)]
    simp only [attributesSize, List.append_assoc, List.singleton_append, Outcome.ret.injEq,
      StunPacket.mk.injEq, true_and, and_true]
    omega

/-- The attribute `attr4` is returned without error by `AttributeCreate`. -/
theorem attr4_created : ∀ a ∈ [attr4], CreatedBy SetRfc3489 a := by
  intro a ha
  rw [List.mem_singleton] at ha
  subst ha
  exact ⟨1, ⟨zero4, []⟩, none, by decide⟩

/-- C3: `PacketCreate()` followed by `AddAttribute` of attributes that
`AttributeCreate` returned without error, when the sum `S` of `4 + len(Value)`
over them is at most 65535: every call returns, the packet holds exactly these
attributes in insertion order, and `GetLength()` is `S`. -/
theorem AddAttributes_length (rfc : Int) (attrs : List StunAttribute)
    (h : ∀ a ∈ attrs, CreatedBy rfc a) (hS : attributesSize attrs ≤ 65535) :
    ∃ P, PacketCreate.AddAttributes rfc attrs = .ret P ∧
      P.GetLength = attributesSize attrs ∧ P.attributes = attrs := by
  refine ⟨_, AddAttributes_created rfc attrs h PacketCreate (by decide) (by decide), ?_, ?_⟩
  · simp only [StunPacket.GetLength, PacketCreate]
    omega
  · simp [PacketCreate]

/-- C3, at the single attribute `attr4`. -/
theorem AddAttributes_length_witness :
    ∃ P, PacketCreate.AddAttributes SetRfc3489 [attr4] = .ret P ∧
      P.GetLength = attributesSize [attr4] ∧ P.attributes = [attr4] :=
  AddAttributes_length SetRfc3489 [attr4] attr4_created (by decide)

/-- C4: for a packet built from `PacketCreate()` by `AddAttribute` of attributes
that `AttributeCreate` returned without error, whenever `ToBytes()` returns its
output has exactly `20 + GetLength()` bytes. -/
theorem ToBytes_size (rfc : Int) (attrs : List StunAttribute) (P : StunPacket)
    (out : List Byte) (h : ∀ a ∈ attrs, CreatedBy rfc a)
    (hP : PacketCreate.AddAttributes rfc attrs = .ret P)
    (hout : P.ToBytes = .ret out) :
    out.length = 20 + P.GetLength := by
  rw [AddAttributes_created rfc attrs h PacketCreate (by decide) (by decide)] at hP
  simp only [Outcome.ret.injEq] at hP
  subst hP
  obtain ⟨hlay, _, hle⟩ := ToBytes_ret _ _ hout
  have hlen := congrArg List.length hlay
  simp only [List.length_append, wireAttributes_length, PacketCreate, List.nil_append,
    List.length_replicate, binaryWriteUint16, binaryWriteUint32, List.length_cons,
    List.length_nil] at hlen
  simp only [StunPacket.GetLength, PacketCreate]
  omega

/-- C4, at the single attribute `attr4`. -/
theorem ToBytes_size_witness : bytes4.length = 20 + packet4.GetLength :=
  ToBytes_size SetRfc3489 [attr4] packet4 bytes4 attr4_created (by decide) (by decide)

/-- C11: on the well-framed 24-byte input `bytesOddLength` (header length field
0x0001, one zero-length attribute), `FromBytes` aborts in `AddAttribute`,
because the length 1 + 4 is not a multiple of 4; it does so whatever lies in
the spare capacity of the input (none, or the rest of a receive buffer). -/
theorem FromBytes_odd_header_length_aborts (res_addr fuel : Nat) (spare : List Byte) :
    FromBytes SetRfc3489 res_addr (fuel + 2) ⟨bytesOddLength, spare⟩
      = .abort .rfc3489Alignment := by
  simp [FromBytes, bytesOddLength, ByteSlice.len, ByteSlice.slice, ByteSlice.cap,
    ByteSlice.backing, Outcome.bind, binaryReadUint16, binaryReadUint32, StunPacket.SetId,
    PacketCreate, StunPacket.SetType, StunPacket.SetLength, StunPacket.SetCookie, goCopy,
    FromBytes_loop, AttributeCreate, AttributeCreateAlias, __padding, __paddingAlias,
    StunPacket.AddAttribute, SetRfc3489, STUN_RFC_3489,
    show 2 ≤ 24 + spare.length by omega, show 4 ≤ 24 + spare.length by omega,
    show 8 ≤ 24 + spare.length by omega, show 20 ≤ 24 + spare.length by omega,
    show 22 ≤ 24 + spare.length by omega]

/-! ### Address accessors -/

/-- The exclusive or of two bytes is a byte. -/
theorem xorByte_val (a b : Byte) : (xorByte a b).val = a.val ^^^ b.val := by
  have h : a.val ^^^ b.val < 2 ^ 8 := Nat.xor_lt_two_pow a.isLt b.isLt
  simp only [xorByte, toByte]
  exact Nat.mod_eq_of_lt h

/-- The result of `BytesToIp` on 4 bytes: the decimal values joined by dots. -/
theorem BytesToIp_four (a b c d : Byte) :
    BytesToIp [a, b, c, d]
      = (stringsJoin [itoa a.val, itoa b.val, itoa c.val, itoa d.val] (ascii "."), none) := by
  simp [BytesToIp]

/-- C16: for every attribute whose value is `00 01 p1 p0 a0 a1 a2 a3`,
`AttributeGetXorMappedAddress` returns no error, family 1, the raw address
`a0.a1.a2.a3`, the raw port `256 * p1 + p0`, the dotted text of the address
bytes XORed with `21 12 A4 42`, and the port XORed with 0x2112. -/
theorem AttributeGetXorMappedAddress_ipv4 (heap : Heap) (t l : Nat) (pk : Option Nat)
    (p1 p0 a0 a1 a2 a3 : Byte) :
    (⟨t, l, [0x00, 0x01, p1, p0, a0, a1, a2, a3], pk⟩ :
        StunAttribute).AttributeGetXorMappedAddress heap
      = .ret (1,
          stringsJoin [itoa a0.val, itoa a1.val, itoa a2.val, itoa a3.val] (ascii "."),
          256 * p1.val + p0.val,
          stringsJoin [itoa (a0.val ^^^ 0x21), itoa (a1.val ^^^ 0x12),
            itoa (a2.val ^^^ 0xA4), itoa (a3.val ^^^ 0x42)] (ascii "."),
          (256 * p1.val + p0.val) ^^^ 0x2112, none) := by
  have e0 : (xorByte a0 0x21).val = a0.val ^^^ 0x21 := xorByte_val a0 0x21
  have e1 : (xorByte a1 0x12).val = a1.val ^^^ 0x12 := xorByte_val a1 0x12
  have e2 : (xorByte a2 0xA4).val = a2.val ^^^ 0xA4 := xorByte_val a2 0xA4
  have e3 : (xorByte a3 0x42).val = a3.val ^^^ 0x42 := xorByte_val a3 0x42
  simp [StunAttribute.AttributeGetXorMappedAddress, StunAttribute.valueSlice, ByteSlice.slice,
    ByteSlice.cap, ByteSlice.backing, ByteSlice.len, Outcome.bind, binaryReadUint16,
    STUN_ATTRIBUT_FAMILY_IPV4, STUN_ATTRIBUT_FAMILY_IPV6, xorLoop, BytesToIp_four, e0, e1, e2,
    e3, Nat.mul_comm]

/-- C16, at the value `00 01 A1 47 E1 12 A4 43`: de-XORed port 0x8055 and
de-XORed address 192.0.0.1. -/
theorem AttributeGetXorMappedAddress_ipv4_witness :
    (⟨0x0020, 8, [0x00, 0x01, 0xA1, 0x47, 0xE1, 0x12, 0xA4, 0x43], none⟩ :
        StunAttribute).AttributeGetXorMappedAddress (fun _ => PacketCreate)
      = .ret (1, ascii "225.18.164.67", 0xA147, ascii "192.0.0.1", 0x8055, none) :=
  (AttributeGetXorMappedAddress_ipv4 (fun _ => PacketCreate) 0x0020 8 none
    0xA1 0x47 0xE1 0x12 0xA4 0x43).trans rfl

/-- The result of `BytesToIp` on 16 bytes: eight groups of four hexadecimal
digits, each the big-endian value of two bytes, joined by colons. -/
theorem BytesToIp_sixteen (b0 b1 b2 b3 b4 b5 b6 b7 b8 b9 b10 b11 b12 b13 b14 b15 : Byte) :
    BytesToIp [b0, b1, b2, b3, b4, b5, b6, b7, b8, b9, b10, b11, b12, b13, b14, b15]
      = (stringsJoin [fmtHex04 (b0.val * 256 + b1.val), fmtHex04 (b2.val * 256 + b3.val),
          fmtHex04 (b4.val * 256 + b5.val), fmtHex04 (b6.val * 256 + b7.val),
          fmtHex04 (b8.val * 256 + b9.val), fmtHex04 (b10.val * 256 + b11.val),
          fmtHex04 (b12.val * 256 + b13.val), fmtHex04 (b14.val * 256 + b15.val)]
          (ascii ":"), none) := by
  have hr : List.range 8 = [0, 1, 2, 3, 4, 5, 6, 7] := rfl
  simp [BytesToIp, hr, BytesToIp_groups, binaryReadUint16]

/-- The result of `__getAddress` on a value of 8 bytes: the first two bytes are
the family, whatever they are. -/
theorem getAddress_eight (t l : Nat) (pk : Option Nat) (f1 f0 p1 p0 a b c d : Byte) :
    (⟨t, l, [f1, f0, p1, p0, a, b, c, d], pk⟩ : StunAttribute).__getAddress
      = .ret (f1.val * 256 + f0.val,
          stringsJoin [itoa a.val, itoa b.val, itoa c.val, itoa d.val] (ascii "."),
          p1.val * 256 + p0.val, none) := by
  simp [StunAttribute.__getAddress, StunAttribute.valueSlice, ByteSlice.slice,
    ByteSlice.cap, ByteSlice.backing, ByteSlice.len, Outcome.bind, binaryReadUint16,
    BytesToIp_four]

/-- The result of `__getAddress` on a value of 20 bytes. -/
theorem getAddress_twenty (t l : Nat) (pk : Option Nat) (f1 f0 p1 p0 : Byte)
    (b0 b1 b2 b3 b4 b5 b6 b7 b8 b9 b10 b11 b12 b13 b14 b15 : Byte) :
    (⟨t, l, [f1, f0, p1, p0, b0, b1, b2, b3, b4, b5, b6, b7, b8, b9, b10, b11, b12, b13,
        b14, b15], pk⟩ : StunAttribute).__getAddress
      = .ret (f1.val * 256 + f0.val,
          stringsJoin [fmtHex04 (b0.val * 256 + b1.val), fmtHex04 (b2.val * 256 + b3.val),
            fmtHex04 (b4.val * 256 + b5.val), fmtHex04 (b6.val * 256 + b7.val),
            fmtHex04 (b8.val * 256 + b9.val), fmtHex04 (b10.val * 256 + b11.val),
            fmtHex04 (b12.val * 256 + b13.val), fmtHex04 (b14.val * 256 + b15.val)]
            (ascii ":"),
          p1.val * 256 + p0.val, none) := by
  simp [StunAttribute.__getAddress, StunAttribute.valueSlice, ByteSlice.slice,
    ByteSlice.cap, ByteSlice.backing, ByteSlice.len, Outcome.bind, binaryReadUint16,
    BytesToIp_sixteen]

/-- C18: on a value `00 01 p1 p0 a b c d` the three address accessors return
family 1, the dotted decimal text `a.b.c.d`, the port `256 * p1 + p0` and no
error; on a value `00 02 p1 p0` followed by 16 bytes they return family 2, the
text of eight colon-separated groups of four hexadecimal digits, the port and
no error. -/
theorem address_accessors_layout (t l : Nat) (pk : Option Nat) (p1 p0 a b c d : Byte)
    (b0 b1 b2 b3 b4 b5 b6 b7 b8 b9 b10 b11 b12 b13 b14 b15 : Byte) :
    let v4 : StunAttribute := ⟨t, l, [0x00, 0x01, p1, p0, a, b, c, d], pk⟩
    let v6 : StunAttribute := ⟨t, l, [0x00, 0x02, p1, p0, b0, b1, b2, b3, b4, b5, b6, b7,
      b8, b9, b10, b11, b12, b13, b14, b15], pk⟩
    let r4 : Outcome (Nat × GoString × Nat × Option StunError) :=
      .ret (1, stringsJoin [itoa a.val, itoa b.val, itoa c.val, itoa d.val] (ascii "."),
        256 * p1.val + p0.val, none)
    let r6 : Outcome (Nat × GoString × Nat × Option StunError) :=
      .ret (2, stringsJoin [fmtHex04 (b0.val * 256 + b1.val), fmtHex04 (b2.val * 256 + b3.val),
          fmtHex04 (b4.val * 256 + b5.val), fmtHex04 (b6.val * 256 + b7.val),
          fmtHex04 (b8.val * 256 + b9.val), fmtHex04 (b10.val * 256 + b11.val),
          fmtHex04 (b12.val * 256 + b13.val), fmtHex04 (b14.val * 256 + b15.val)]
          (ascii ":"),
        256 * p1.val + p0.val, none)
    v4.AttributeGetMappedAddress = r4 ∧ v4.AttributeGetSourceAddress = r4 ∧
    v4.AttributeGetChangeedAddress = r4 ∧
    v6.AttributeGetMappedAddress = r6 ∧ v6.AttributeGetSourceAddress = r6 ∧
    v6.AttributeGetChangeedAddress = r6 := by
  intro v4 v6 r4 r6
  have h4 : v4.__getAddress = r4 := by
    simp only [v4, r4, getAddress_eight]
    simp [Nat.mul_comm]
  have h6 : v6.__getAddress = r6 := by
    simp only [v6, r6, getAddress_twenty]
    simp [Nat.mul_comm]
  exact ⟨h4, h4, h4, h6, h6, h6⟩

/-- C18, at `00 01 00 50 C0 A8 00 01` (192.168.0.1, port 80) and at the
16 bytes `00 11 22 .. FF`. -/
theorem address_accessors_layout_witness :
    (⟨1, 8, [0x00, 0x01, 0x00, 0x50, 192, 168, 0, 1], none⟩ :
        StunAttribute).AttributeGetMappedAddress
      = .ret (1, ascii "192.168.0.1", 80, none) ∧
    (⟨1, 20, [0x00, 0x02, 0x00, 0x50, 0x00, 0x11, 0x22, 0x33, 0x44, 0x55, 0x66, 0x77,
        0x88, 0x99, 0xAA, 0xBB, 0xCC, 0xDD, 0xEE, 0xFF], none⟩ :
        StunAttribute).AttributeGetMappedAddress
      = .ret (2, ascii "0011:2233:4455:6677:8899:aabb:ccdd:eeff", 80, none) :=
  ⟨(address_accessors_layout 1 8 none 0x00 0x50 192 168 0 1
      0 0 0 0 0 0 0 0 0 0 0 0 0 0 0 0).1.trans rfl,
   (address_accessors_layout 1 20 none 0x00 0x50 0 0 0 0
      0x00 0x11 0x22 0x33 0x44 0x55 0x66 0x77 0x88 0x99 0xAA 0xBB 0xCC 0xDD 0xEE
      0xFF).2.2.2.1.trans rfl⟩

/-- C19: a value whose family field is 3 (`00 03 p1 p0 a b c d`) is accepted:
the three address accessors, and `GetMappedAddress` / `GetChangedAddress` on a
packet holding it, return family 3 and no error. -/
theorem getAddress_accepts_family_three (l : Nat) (pk : Option Nat) (p1 p0 a b c d : Byte)
    (P : StunPacket) :
    let value : List Byte := [0x00, 0x03, p1, p0, a, b, c, d]
    let text := stringsJoin [itoa a.val, itoa b.val, itoa c.val, itoa d.val] (ascii ".")
    let port := p1.val * 256 + p0.val
    (⟨STUN_ATTRIBUT_MAPPED_ADDRESS, l, value, pk⟩ : StunAttribute).AttributeGetMappedAddress
      = .ret (3, text, port, none) ∧
    (⟨STUN_ATTRIBUT_SOURCE_ADDRESS, l, value, pk⟩ : StunAttribute).AttributeGetSourceAddress
      = .ret (3, text, port, none) ∧
    (⟨STUN_ATTRIBUT_CHANGED_ADDRESS, l, value, pk⟩ : StunAttribute).AttributeGetChangeedAddress
      = .ret (3, text, port, none) ∧
    ({ P with attributes := [⟨STUN_ATTRIBUT_MAPPED_ADDRESS, l, value, pk⟩] }
        : StunPacket).GetMappedAddress = .ret (true, 3, text, port, none) ∧
    ({ P with attributes := [⟨STUN_ATTRIBUT_CHANGED_ADDRESS, l, value, pk⟩] }
        : StunPacket).GetChangedAddress = .ret (true, 3, text, port, none) := by
  intro value text port
  refine ⟨?_, ?_, ?_, ?_, ?_⟩
  · simp [StunAttribute.AttributeGetMappedAddress, value, text, port, getAddress_eight]
    rfl
  · simp [StunAttribute.AttributeGetSourceAddress, value, text, port, getAddress_eight]
    rfl
  · simp [StunAttribute.AttributeGetChangeedAddress, value, text, port, getAddress_eight]
    rfl
  · simp [StunPacket.GetMappedAddress, getAddress_loop, value, text, port, getAddress_eight,
      Outcome.bind]
    rfl
  · simp [StunPacket.GetChangedAddress, getAddress_loop, value, text, port, getAddress_eight,
      Outcome.bind]
    rfl

/-- C17: for every attribute whose value is `00 02 p1 p0` followed by 16 bytes,
`AttributeGetXorMappedAddress` aborts: the XOR loop reads `cookie[i]` for
`i < 16` in the 4-byte cookie and fails at `i = 4` with "index out of range"
(earlier still when the attribute has no packet or its packet has a short id). -/
theorem AttributeGetXorMappedAddress_ipv6_aborts (heap : Heap) (t l : Nat) (pk : Option Nat)
    (p1 p0 b0 b1 b2 b3 b4 b5 b6 b7 b8 b9 b10 b11 b12 b13 b14 b15 : Byte) :
    (⟨t, l, [0x00, 0x02, p1, p0, b0, b1, b2, b3, b4, b5, b6, b7, b8, b9, b10, b11, b12,
        b13, b14, b15], pk⟩ : StunAttribute).AttributeGetXorMappedAddress heap
      = match pk with
        | none => .abort .nilDereference
        | some addr =>
          if 12 ≤ (heap addr).id.length then .abort .indexOutOfRange
          else .abort .sliceBounds := by
  cases pk with
  | none =>
    simp [StunAttribute.AttributeGetXorMappedAddress, StunAttribute.valueSlice,
      ByteSlice.slice, ByteSlice.cap, ByteSlice.backing, ByteSlice.len, Outcome.bind,
      binaryReadUint16, STUN_ATTRIBUT_FAMILY_IPV4, STUN_ATTRIBUT_FAMILY_IPV6]
  | some addr =>
    by_cases h : 12 ≤ (heap addr).id.length
    · simp [StunAttribute.AttributeGetXorMappedAddress, StunAttribute.valueSlice,
        ByteSlice.slice, ByteSlice.cap, ByteSlice.backing, ByteSlice.len, Outcome.bind,
        binaryReadUint16, STUN_ATTRIBUT_FAMILY_IPV4, STUN_ATTRIBUT_FAMILY_IPV6, h, xorLoop]
    · simp [StunAttribute.AttributeGetXorMappedAddress, StunAttribute.valueSlice,
        ByteSlice.slice, ByteSlice.cap, ByteSlice.backing, ByteSlice.len, Outcome.bind,
        binaryReadUint16, STUN_ATTRIBUT_FAMILY_IPV4, STUN_ATTRIBUT_FAMILY_IPV6, h]

/-! ### Packet queries -/

/-- A computation that ends by returning `true` in the first component never
returns `false` there. -/
theorem bind_true_ne_false {α β : Type} (x : Outcome α) (f : α → β) (r : β) :
    x.bind (fun a => Outcome.ret (true, f a)) ≠ Outcome.ret (false, r) := by
  cases x <;> simp [Outcome.bind]

/-- The address loop returns "not found" exactly when no attribute has the wanted type. -/
theorem getAddress_loop_false_iff (wanted : Nat) (attrs : List StunAttribute) :
    getAddress_loop wanted attrs = .ret (false, 0, [], 0, none) ↔
      ∀ a ∈ attrs, a.Typ ≠ wanted := by
  induction attrs with
  | nil => simp [getAddress_loop]
  | cons a rest ih =>
    by_cases h : wanted ≠ a.Typ
    · simp only [getAddress_loop]
      rw [if_pos h, ih]
      simp only [List.mem_cons, forall_eq_or_imp]
      constructor
      · intro hr
        exact ⟨fun e => h e.symm, hr⟩
      · intro hr
        exact hr.2
    · simp only [getAddress_loop]
      rw [if_neg h]
      simp only [List.mem_cons, forall_eq_or_imp]
      constructor
      · intro hr
        exact absurd hr
          (bind_true_ne_false a.__getAddress (fun r => (r.1, r.2.1, r.2.2.1, r.2.2.2)) _)
      · intro hr
        exact absurd hr.1.symm h

/-- The address loop decodes the first attribute of the wanted type. -/
theorem getAddress_loop_first (wanted : Nat) (pre post : List StunAttribute)
    (a : StunAttribute) (hpre : ∀ b ∈ pre, b.Typ ≠ wanted) (ha : a.Typ = wanted) :
    getAddress_loop wanted (pre ++ a :: post)
      = a.__getAddress.bind fun r => .ret (true, r.1, r.2.1, r.2.2.1, r.2.2.2) := by
  induction pre with
  | nil => simp [getAddress_loop, ha]
  | cons b rest ih =>
    have hb : wanted ≠ b.Typ := fun e => hpre b (List.mem_cons_self b rest) e.symm
    simp only [List.cons_append, getAddress_loop]
    rw [if_pos hb]
    exact ih fun c hc => hpre c (List.mem_cons_of_mem b hc)

/-- The XOR loop returns "not found" exactly when no attribute has type
0x0020 or 0x8020. -/
theorem getXorMappedAddress_loop_false_iff (heap : Heap) (attrs : List StunAttribute) :
    getXorMappedAddress_loop heap attrs = .ret (false, 0, [], 0, none) ↔
      ∀ a ∈ attrs, a.Typ ≠ 0x0020 ∧ a.Typ ≠ 0x8020 := by
  induction attrs with
  | nil => simp [getXorMappedAddress_loop]
  | cons a rest ih =>
    by_cases h : STUN_ATTRIBUT_XOR_MAPPED_ADDRESS ≠ a.Typ ∧
        STUN_ATTRIBUT_XOR_MAPPED_ADDRESS_EXP ≠ a.Typ
    · simp only [getXorMappedAddress_loop]
      rw [if_pos h, ih]
      simp only [List.mem_cons, forall_eq_or_imp]
      constructor
      · intro hr
        exact ⟨⟨fun e => h.1 e.symm, fun e => h.2 e.symm⟩, hr⟩
      · intro hr
        exact hr.2
    · simp only [getXorMappedAddress_loop]
      rw [if_neg h]
      simp only [List.mem_cons, forall_eq_or_imp]
      constructor
      · intro hr
        exact absurd hr
          (bind_true_ne_false (a.AttributeGetXorMappedAddress heap)
            (fun r => (r.1, r.2.2.2.1, r.2.2.2.2.1, r.2.2.2.2.2)) _)
      · intro hr
        exact absurd ⟨fun e => hr.1.1 e.symm, fun e => hr.1.2 e.symm⟩ h

/-- The XOR loop decodes the first attribute of type 0x0020 or 0x8020 and
returns its de-XORed address and port. -/
theorem getXorMappedAddress_loop_first (heap : Heap) (pre post : List StunAttribute)
    (a : StunAttribute) (hpre : ∀ b ∈ pre, b.Typ ≠ 0x0020 ∧ b.Typ ≠ 0x8020)
    (ha : a.Typ = 0x0020 ∨ a.Typ = 0x8020) :
    getXorMappedAddress_loop heap (pre ++ a :: post)
      = (a.AttributeGetXorMappedAddress heap).bind fun r =>
          .ret (true, r.1, r.2.2.2.1, r.2.2.2.2.1, r.2.2.2.2.2) := by
  induction pre with
  | nil =>
    have h : ¬ (STUN_ATTRIBUT_XOR_MAPPED_ADDRESS ≠ a.Typ ∧
        STUN_ATTRIBUT_XOR_MAPPED_ADDRESS_EXP ≠ a.Typ) := by
      rintro ⟨h1, h2⟩
      rcases ha with e | e
      · exact h1 e.symm
      · exact h2 e.symm
    simp only [List.nil_append, getXorMappedAddress_loop]
    rw [if_neg h]
  | cons b rest ih =>
    have hb := hpre b (List.mem_cons_self b rest)
    have hb' : STUN_ATTRIBUT_XOR_MAPPED_ADDRESS ≠ b.Typ ∧
        STUN_ATTRIBUT_XOR_MAPPED_ADDRESS_EXP ≠ b.Typ :=
      ⟨fun e => hb.1 e.symm, fun e => hb.2 e.symm⟩
    simp only [List.cons_append, getXorMappedAddress_loop]
    rw [if_pos hb']
    exact ih fun c hc => hpre c (List.mem_cons_of_mem b hc)

/-- C20: each packet query returns `(false, 0, "", 0, nil)` if and only if the
packet has no attribute of a matching type (0x0001 for `GetMappedAddress`,
0x0005 for `GetChangedAddress`, 0x0020 or 0x8020 for `GetXorMappedAddress`);
otherwise it behaves as the decoding of the first matching attribute in
insertion order, with `found = true`, `GetXorMappedAddress` giving the de-XORed
address and port. -/
theorem packet_queries_first_match (heap : Heap) (v : StunPacket) :
    (v.GetMappedAddress = .ret (false, 0, [], 0, none) ↔
      ∀ a ∈ v.attributes, a.Typ ≠ 0x0001) ∧
    (v.GetChangedAddress = .ret (false, 0, [], 0, none) ↔
      ∀ a ∈ v.attributes, a.Typ ≠ 0x0005) ∧
    (v.GetXorMappedAddress heap = .ret (false, 0, [], 0, none) ↔
      ∀ a ∈ v.attributes, a.Typ ≠ 0x0020 ∧ a.Typ ≠ 0x8020) ∧
    (∀ pre a post, v.attributes = pre ++ a :: post →
      (∀ b ∈ pre, b.Typ ≠ 0x0001) → a.Typ = 0x0001 →
      v.GetMappedAddress = a.AttributeGetMappedAddress.bind fun r =>
        .ret (true, r.1, r.2.1, r.2.2.1, r.2.2.2)) ∧
    (∀ pre a post, v.attributes = pre ++ a :: post →
      (∀ b ∈ pre, b.Typ ≠ 0x0005) → a.Typ = 0x0005 →
      v.GetChangedAddress = a.AttributeGetChangeedAddress.bind fun r =>
        .ret (true, r.1, r.2.1, r.2.2.1, r.2.2.2)) ∧
    (∀ pre a post, v.attributes = pre ++ a :: post →
      (∀ b ∈ pre, b.Typ ≠ 0x0020 ∧ b.Typ ≠ 0x8020) → (a.Typ = 0x0020 ∨ a.Typ = 0x8020) →
      v.GetXorMappedAddress heap = (a.AttributeGetXorMappedAddress heap).bind fun r =>
        .ret (true, r.1, r.2.2.2.1, r.2.2.2.2.1, r.2.2.2.2.2)) := by
  refine ⟨getAddress_loop_false_iff _ _, getAddress_loop_false_iff _ _,
    getXorMappedAddress_loop_false_iff _ _, ?_, ?_, ?_⟩
  · intro pre a post hv hpre ha
    simp only [StunPacket.GetMappedAddress, hv]
    exact getAddress_loop_first _ pre post a hpre ha
  · intro pre a post hv hpre ha
    simp only [StunPacket.GetChangedAddress, hv]
    exact getAddress_loop_first _ pre post a hpre ha
  · intro pre a post hv hpre ha
    simp only [StunPacket.GetXorMappedAddress, hv]
    exact getXorMappedAddress_loop_first heap pre post a hpre ha

/-- C20, on a packet with a SOFTWARE attribute followed by two MAPPED_ADDRESS
attributes: the query returns the address of the first of the two. -/
theorem packet_queries_first_match_witness :
    ({ PacketCreate with attributes :=
        [⟨0x8022, 4, [65, 66, 67, 68], none⟩,
         ⟨0x0001, 8, [0, 1, 0, 80, 192, 168, 0, 1], none⟩,
         ⟨0x0001, 8, [0, 1, 0, 81, 10, 0, 0, 2], none⟩] } : StunPacket).GetMappedAddress
      = .ret (true, 1, ascii "192.168.0.1", 80, none) :=
  ((packet_queries_first_match (fun _ => PacketCreate) _).2.2.2.1
    [⟨0x8022, 4, [65, 66, 67, 68], none⟩] ⟨0x0001, 8, [0, 1, 0, 80, 192, 168, 0, 1], none⟩
    [⟨0x0001, 8, [0, 1, 0, 81, 10, 0, 0, 2], none⟩] rfl (by decide) rfl).trans rfl

/-! ### Text of addresses -/

/-- Every character that `Nat.toDigitsCore` produces is a digit character of
the base, or was in the accumulator. -/
theorem toDigitsCore_forall (base : Nat) (P : Char → Prop)
    (hP : ∀ n, P (Nat.digitChar (n % base))) (fuel n : Nat) (ds : List Char)
    (hds : ∀ c ∈ ds, P c) : ∀ c ∈ Nat.toDigitsCore base fuel n ds, P c := by
  induction fuel generalizing n ds with
  | zero => simpa [Nat.toDigitsCore] using hds
  | succ fuel ih =>
    simp only [Nat.toDigitsCore]
    have hcons : ∀ c ∈ Nat.digitChar (n % base) :: ds, P c := by
      intro c hc
      rcases List.mem_cons.mp hc with e | e
      · exact e ▸ hP n
      · exact hds c e
    split
    · exact hcons
    · exact ih _ _ hcons

/-- The number of characters that `Nat.toDigitsCore` adds is at least 1 and at
most `k` for a number below `base ^ k`. -/
theorem toDigitsCore_length (base : Nat) (hb : 1 < base) (fuel : Nat) :
    ∀ (k n : Nat) (ds : List Char), n < base ^ k → n < fuel →
      ds.length + 1 ≤ (Nat.toDigitsCore base fuel n ds).length ∧
      (Nat.toDigitsCore base fuel n ds).length ≤ ds.length + max k 1 := by
  induction fuel with
  | zero => intro k n ds _ hf; omega
  | succ fuel ih =>
    intro k n ds hk hf
    simp only [Nat.toDigitsCore]
    split
    · simp only [List.length_cons]
      omega
    · rename_i hne
      have hk0 : k ≠ 0 := by
        intro e
        subst e
        simp only [pow_zero, Nat.lt_one_iff] at hk
        subst hk
        simp at hne
      obtain ⟨j, rfl⟩ : ∃ j, k = j + 1 := ⟨k - 1, by omega⟩
      have hdiv : n / base < base ^ j := by
        rw [Nat.div_lt_iff_lt_mul (by omega)]
        rw [pow_succ] at hk
        exact hk
      have hfu : n / base < fuel := by
        have : n / base < n := Nat.div_lt_self (by
          rcases Nat.eq_zero_or_pos n with e | e
          · subst e; simp at hne
          · exact e) hb
        omega
      have hj : j ≠ 0 := by
        intro e
        subst e
        simp only [pow_zero, Nat.lt_one_iff] at hdiv
        exact hne hdiv
      have := ih j (n / base) (Nat.digitChar (n % base) :: ds) hdiv hfu
      simp only [List.length_cons] at this
      omega

/-- The decimal text of a number below 1000 has 1 to 3 bytes, all ASCII digits. -/
theorem itoa_props (x : Nat) (hx : x < 1000) :
    1 ≤ (itoa x).length ∧ (itoa x).length ≤ 3 ∧ ∀ b ∈ itoa x, isDigitByte b = true := by
  have hlen := toDigitsCore_length 10 (by decide) (x + 1) 3 x [] (by simpa using hx) (by omega)
  have hd : ∀ d, d < 10 → isDigitByte (toByte (Nat.digitChar d).toNat) = true := by decide
  have hall := toDigitsCore_forall 10 (fun c => isDigitByte (toByte c.toNat) = true)
    (fun n => hd (n % 10) (Nat.mod_lt _ (by decide))) (x + 1) x [] (by simp)
  simp only [List.length_nil, Nat.zero_add] at hlen
  refine ⟨?_, ?_, ?_⟩
  · simpa [itoa, Nat.toDigits] using hlen.1
  · simpa [itoa, Nat.toDigits] using hlen.2
  · intro b hb
    simp only [itoa, Nat.toDigits, List.mem_map] at hb
    obtain ⟨c, hc, rfl⟩ := hb
    exact hall c hc

/-- The text `%04x` of a number below 65536 has exactly 4 bytes, all
hexadecimal digits. -/
theorem fmtHex04_props (x : Nat) (hx : x < 65536) :
    (fmtHex04 x).length = 4 ∧ ∀ b ∈ fmtHex04 x, isHexByte b = true := by
  have hlen := toDigitsCore_length 16 (by decide) (x + 1) 4 x [] (by simpa using hx) (by omega)
  have hd : ∀ d, d < 16 → isHexByte (toByte (Nat.digitChar d).toNat) = true := by decide
  have hall := toDigitsCore_forall 16 (fun c => isHexByte (toByte c.toNat) = true)
    (fun n => hd (n % 16) (Nat.mod_lt _ (by decide))) (x + 1) x [] (by simp)
  simp only [List.length_nil, Nat.zero_add] at hlen
  refine ⟨?_, ?_⟩
  · simp only [fmtHex04, Nat.toDigits, List.length_append, List.length_replicate,
      List.length_map]
    omega
  · intro b hb
    simp only [fmtHex04, Nat.toDigits, List.mem_append, List.mem_replicate, List.mem_map] at hb
    rcases hb with ⟨_, rfl⟩ | ⟨c, hc, rfl⟩
    · decide
    · exact hall c hc

/-- A text made of `n` groups of 1 to `m` bytes of the class, joined by a
separator outside the class, matches the pattern of `matchGroups`. -/
theorem matchGroups_intercalate (cls : Byte → Bool) (m n : Nat) (sep : Byte)
    (groups : List GoString) (hn : groups.length = n) (hne : groups ≠ [])
    (hg : ∀ g ∈ groups, 1 ≤ g.length ∧ g.length ≤ m ∧ ∀ b ∈ g, cls b = true)
    (hsep : cls sep = false) :
    matchGroups cls m n sep ([sep].intercalate groups) = true := by
  have hnot : ∀ g ∈ groups, sep ∉ g := by
    intro g hgm hmem
    have := (hg g hgm).2.2 sep hmem
    rw [hsep] at this
    exact Bool.noConfusion this
  simp only [matchGroups, List.splitOn_intercalate groups sep hnot hne, hn, beq_self_eq_true,
    Bool.true_and, List.all_eq_true, Bool.and_eq_true, decide_eq_true_eq]
  intro g hgm
  exact ⟨⟨(hg g hgm).1, (hg g hgm).2.1⟩, (hg g hgm).2.2⟩

/-- Every text that `BytesToIp` returns without error is accepted by
`MakeTransportAddress`. -/
theorem MakeTransportAddress_BytesToIp (bytes : List Byte) (ip : GoString) (port : Int)
    (h : BytesToIp bytes = (ip, none)) : (MakeTransportAddress ip port).2 = none := by
  by_cases h4 : bytes.length = 4
  · obtain ⟨a, b, c, d, rfl⟩ : ∃ a b c d, bytes = [a, b, c, d] := by
      match bytes, h4 with
      | [a, b, c, d], _ => exact ⟨a, b, c, d, rfl⟩
    rw [BytesToIp_four] at h
    simp only [Prod.mk.injEq, and_true] at h
    have hm : matchGroups isDigitByte 3 4 (toByte 46) ip = true := by
      rw [← h]
      refine matchGroups_intercalate isDigitByte 3 4 (toByte 46) _ rfl (by simp) ?_ (by decide)
      intro g hgm
      simp only [List.mem_cons, List.mem_singleton, List.not_mem_nil, or_false] at hgm
      rcases hgm with rfl | rfl | rfl | rfl
      · exact itoa_props _ (by omega)
      · exact itoa_props _ (by omega)
      · exact itoa_props _ (by omega)
      · exact itoa_props _ (by omega)
    simp [MakeTransportAddress, hm]
  · by_cases h16 : bytes.length = 16
    · obtain ⟨b0, b1, b2, b3, b4, b5, b6, b7, b8, b9, b10, b11, b12, b13, b14, b15, rfl⟩ :
          ∃ b0 b1 b2 b3 b4 b5 b6 b7 b8 b9 b10 b11 b12 b13 b14 b15,
            bytes = [b0, b1, b2, b3, b4, b5, b6, b7, b8, b9, b10, b11, b12, b13, b14, b15] := by
        match bytes, h16 with
        | [b0, b1, b2, b3, b4, b5, b6, b7, b8, b9, b10, b11, b12, b13, b14, b15], _ =>
          exact ⟨b0, b1, b2, b3, b4, b5, b6, b7, b8, b9, b10, b11, b12, b13, b14, b15, rfl⟩
      rw [BytesToIp_sixteen] at h
      simp only [Prod.mk.injEq, and_true] at h
      have hm : matchGroups isHexByte 4 8 (toByte 58) ip = true := by
        rw [← h]
        refine matchGroups_intercalate isHexByte 4 8 (toByte 58) _ rfl (by simp) ?_ (by decide)
        intro g hgm
        simp only [List.mem_cons, List.mem_singleton, List.not_mem_nil, or_false] at hgm
        have key : ∀ x y : Byte, 1 ≤ (fmtHex04 (x.val * 256 + y.val)).length ∧
            (fmtHex04 (x.val * 256 + y.val)).length ≤ 4 ∧
            ∀ b ∈ fmtHex04 (x.val * 256 + y.val), isHexByte b = true := by
          intro x y
          have := fmtHex04_props (x.val * 256 + y.val) (by omega)
          exact ⟨by omega, by omega, this.2⟩
        rcases hgm with rfl | rfl | rfl | rfl | rfl | rfl | rfl | rfl <;> exact key _ _
      by_cases hv4 : matchGroups isDigitByte 3 4 (toByte 46) ip = true
      · simp [MakeTransportAddress, hv4]
      · simp [MakeTransportAddress, hv4, hm]
    · exfalso
      have h4' : ¬ (4 = bytes.length) := fun e => h4 e.symm
      have h16' : ¬ (16 = bytes.length) := fun e => h16 e.symm
      simp [BytesToIp, h4', h16'] at h

/-! ### Discovery -/

/-- The text that `__getAddress` returns without error is a text returned by
`BytesToIp`. -/
theorem getAddress_text (v : StunAttribute) (f : Nat) (ip : GoString) (p : Nat)
    (h : v.__getAddress = .ret (f, ip, p, none)) : ∃ bytes, BytesToIp bytes = (ip, none) := by
  simp only [StunAttribute.__getAddress] at h
  cases h1 : v.valueSlice.slice 0 2 with
  | abort q => simp [h1, Outcome.bind] at h
  | outOfFuel => simp [h1, Outcome.bind] at h
  | ret s1 =>
    simp only [h1, Outcome.bind] at h
    cases hf : binaryReadUint16 s1.data with
    | none => simp [hf] at h
    | some family =>
      simp only [hf] at h
      cases h2 : v.valueSlice.slice 2 4 with
      | abort q => simp [h2] at h
      | outOfFuel => simp [h2] at h
      | ret s2 =>
        simp only [h2] at h
        cases hp : binaryReadUint16 s2.data with
        | none => simp [hp] at h
        | some port =>
          simp only [hp] at h
          cases h3 : v.valueSlice.slice 4 v.valueSlice.len with
          | abort q => simp [h3] at h
          | outOfFuel => simp [h3] at h
          | ret s3 =>
            simp only [h3] at h
            rcases hb : BytesToIp s3.data with ⟨text, _ | err⟩
            · simp only [hb, Outcome.ret.injEq, Prod.mk.injEq, and_true] at h
              exact ⟨s3.data, by rw [hb, h.2.1]⟩
            · simp [hb] at h

/-- When the address loop returns: it found an attribute exactly when one has
the wanted type, and a text found without error is a text of `BytesToIp`. -/
theorem getAddress_loop_ret (wanted : Nat) (attrs : List StunAttribute)
    (r : Bool × Nat × GoString × Nat × Option StunError)
    (h : getAddress_loop wanted attrs = .ret r) :
    (r.1 = true ↔ ∃ a ∈ attrs, a.Typ = wanted) ∧
    (r.1 = true → r.2.2.2.2 = none → ∃ bytes, BytesToIp bytes = (r.2.2.1, none)) := by
  induction attrs with
  | nil =>
    simp only [getAddress_loop, Outcome.ret.injEq] at h
    subst h
    simp
  | cons a rest ih =>
    simp only [getAddress_loop] at h
    by_cases hw : wanted ≠ a.Typ
    · rw [if_pos hw] at h
      obtain ⟨i1, i2⟩ := ih h
      refine ⟨?_, i2⟩
      rw [i1]
      constructor
      · rintro ⟨b, hb, e⟩
        exact ⟨b, List.mem_cons_of_mem a hb, e⟩
      · rintro ⟨b, hb, e⟩
        rcases List.mem_cons.mp hb with rfl | hb
        · exact absurd e.symm hw
        · exact ⟨b, hb, e⟩
    · rw [if_neg hw] at h
      have ha : a.Typ = wanted := by
        by_contra hne
        exact hw fun e => hne e.symm
      cases hg : a.__getAddress with
      | abort q => simp [hg, Outcome.bind] at h
      | outOfFuel => simp [hg, Outcome.bind] at h
      | ret g =>
        simp only [hg, Outcome.bind, Outcome.ret.injEq] at h
        subst h
        refine ⟨?_, ?_⟩
        · simp only [true_iff]
          exact ⟨a, List.mem_cons_self a rest, ha⟩
        · intro _ he
          obtain ⟨f, ip, p, e⟩ := g
          simp only at he
          subst he
          exact getAddress_text a f ip p hg

/-- What `ClientTest1` returns when it reports no error and a response was
received: either the response has no MAPPED_ADDRESS and `extra` is the nil
interface, or it has one and `extra` is a `test1Info` whose
`changed_address_found` tells whether the response has a CHANGED_ADDRESS, and
whose changed address is accepted by `MakeTransportAddress`. -/
theorem ClientTest1_ret (rfc : Int) (w : World) (server : GoString) (n : Nat)
    (dest : Option GoString) (r : testResponse) (n' : Nat)
    (h : ClientTest1 rfc w server n dest = .ret ((r, none), n'))
    (hresp : r.request.response = true) :
    ((∀ a ∈ r.request.packet.attributes, a.Typ ≠ 0x0001) ∧ r.extra = .nil) ∨
    ((∃ a ∈ r.request.packet.attributes, a.Typ = 0x0001) ∧
      ∃ info, r.extra = .test1 info ∧
        (info.changed_address_found = true ↔
          ∃ a ∈ r.request.packet.attributes, a.Typ = 0x0005) ∧
        (info.changed_address_found = true →
          ∀ port, (MakeTransportAddress info.changed_ip port).2 = none)) := by
  simp only [ClientTest1] at h
  cases hs : ClientSendBinding rfc w server n dest with
  | abort q => simp [hs, Outcome.bind] at h
  | outOfFuel => simp [hs, Outcome.bind] at h
  | ret s =>
    obtain ⟨⟨req, err0⟩, n0⟩ := s
    simp only [hs, Outcome.bind] at h
    cases err0 with
    | some e => simp at h
    | none =>
      simp only at h
      by_cases hr : req.response = true
      · simp only [hr, Bool.not_true, Bool.false_eq_true, if_false] at h
        cases hm : req.packet.GetMappedAddress with
        | abort q => simp [hm] at h
        | outOfFuel => simp [hm] at h
        | ret m =>
          obtain ⟨mfound, mfam, mip, mport, merr⟩ := m
          simp only [hm] at h
          have hmm := getAddress_loop_ret _ _ _ hm
          by_cases hg : merr ≠ none ∨ (!mfound) = true
          · rw [if_pos hg] at h
            simp only [Outcome.ret.injEq, Prod.mk.injEq] at h
            obtain ⟨⟨hr1, hr2⟩, _⟩ := h
            subst hr1
            subst hr2
            left
            refine ⟨?_, rfl⟩
            have hmf : mfound = false := by
              rcases hg with e | e
              · exact absurd rfl e
              · simpa using e
            intro a ha e
            have := hmm.1.mpr ⟨a, ha, e⟩
            simp only at this
            rw [hmf] at this
            exact Bool.noConfusion this
          · rw [if_neg hg] at h
            have hmf : mfound = true := by
              by_contra hne
              exact hg (Or.inr (by simpa using hne))
            cases hx : req.packet.GetXorMappedAddress w.heap with
            | abort q => simp [hx] at h
            | outOfFuel => simp [hx] at h
            | ret x =>
              simp only [hx] at h
              split at h
              · simp at h
              · rename_i ipm hmk
                cases hc : req.packet.GetChangedAddress with
                | abort q => simp [hc] at h
                | outOfFuel => simp [hc] at h
                | ret c =>
                  obtain ⟨cfound, cfam, cip, cport, cerr⟩ := c
                  simp only [hc] at h
                  have hcc := getAddress_loop_ret _ _ _ hc
                  cases cerr with
                  | some e => simp at h
                  | none =>
                    simp only [Outcome.ret.injEq, Prod.mk.injEq, and_true] at h
                    obtain ⟨hr1, _⟩ := h
                    subst hr1
                    right
                    refine ⟨?_, _, rfl, ?_, ?_⟩
                    · exact hmm.1.mp hmf
                    · exact hcc.1
                    · intro hf port
                      obtain ⟨bytes, hb⟩ := hcc.2 hf rfl
                      exact MakeTransportAddress_BytesToIp bytes _ port hb
      · exfalso
        have hr' : req.response = false := by simpa using hr
        simp only [hr', Bool.not_false, if_true, Outcome.ret.injEq, Prod.mk.injEq,
          and_true] at h
        obtain ⟨hr1, _⟩ := h
        subst hr1
        simp only [hr'] at hresp
        exact Bool.noConfusion hresp

/-- The start of `ClientDiscover` once Test I returned a response holding a
`test1Info` with a changed address: Test II runs next, in the branch chosen by
the flag `identical`. -/
theorem ClientDiscover_after_test1 (rfc : Int) (w : World) (server : GoString)
    (r1 : testResponse) (n1 : Nat) (info : test1Info)
    (h1 : ClientTest1 rfc w server 0 none = .ret ((r1, none), n1))
    (hresp : r1.request.response = true) (hx : r1.extra = .test1 info)
    (hc : info.changed_address_found = true) :
    ClientDiscover rfc w server =
      if info.identical then ClientDiscover_open rfc w server n1
      else ClientDiscover_nat rfc w server n1
        (MakeTransportAddress info.changed_ip (Int.ofNat info.changed_port)).1 := by
  obtain hnil | ⟨_, info', hx', _, hmk⟩ := ClientTest1_ret rfc w server 0 none r1 n1 h1 hresp
  · rw [hx] at hnil
    exact Extra.noConfusion hnil.2
  · rw [hx] at hx'
    injection hx' with hx'
    subst hx'
    have hm := hmk hc (Int.ofNat info.changed_port)
    simp only [ClientDiscover, h1, Outcome.bind, hresp, Bool.not_true, Bool.false_eq_true,
      if_false, hx, Extra.assertTest1, hc, if_true]
    rcases hmt : MakeTransportAddress info.changed_ip (Int.ofNat info.changed_port) with
      ⟨ct, _ | e⟩
    · cases hi : info.identical <;> simp
    · rw [hmt] at hm
      exact Option.noConfusion hm

/-- `AttributeCreate` on a value whose length is a multiple of 4 and fits 16
bits: the attribute holds the type, the length, the value and the pointer. -/
theorem AttributeCreate_aligned (rfc : Int) (t : Nat) (v : List Byte) (p : Option Nat)
    (h4 : v.length % 4 = 0) (hl : v.length ≤ 65535) :
    AttributeCreate rfc t ⟨v, []⟩ p = (⟨t, v.length, v, p⟩, none) := by
  have h0 : 0 = v.length % 4 := h4.symm
  have hl2 : ¬ 65535 < v.length := by omega
  have hmod : v.length % 65536 = v.length := Nat.mod_eq_of_lt (by omega)
  simp [AttributeCreate, ← h0, hl2, hmod, __padding, goCopy, ByteSlice.len, StunAttribute.zero]

/-- The FINGERPRINT attribute made for a packet whose serialisation is `out`. -/
theorem AttributeCreateFingerprint_bytes (rfc : Int) (in_packet : Option Nat)
    (P : StunPacket) (out : List Byte) (h : P.ToBytes = .ret out) :
    AttributeCreateFingerprint rfc in_packet P
      = .ret (⟨STUN_ATTRIBUT_FINGERPRINT, 4, binaryWriteUint32 (__stunCrc32 out), in_packet⟩,
          none) := by
  have := AttributeCreate_aligned rfc STUN_ATTRIBUT_FINGERPRINT
    (binaryWriteUint32 (__stunCrc32 out)) in_packet (by simp [binaryWriteUint32])
    (by simp [binaryWriteUint32])
  simp only [AttributeCreateFingerprint, h, Outcome.bind, List.nil_append, this]
  rfl

/-- The SOFTWARE attribute of every request. -/
theorem AttributeCreateSoftware_client (rfc : Int) (addr : Nat) :
    AttributeCreateSoftware rfc (some addr) (ascii "TestClient01")
      = (⟨STUN_ATTRIBUT_SOFTWARE, 12, ascii "TestClient01", some addr⟩, none) := by
  have := AttributeCreate_aligned rfc STUN_ATTRIBUT_SOFTWARE (ascii "TestClient01")
    (some addr) (by decide) (by decide)
  simp only [AttributeCreateSoftware]
  rw [if_neg (show ¬ (ascii "TestClient01").length > 763 by decide)]
  exact this

/-- The CHANGE-REQUEST attribute of Test II and Test III. -/
theorem AttributeCreateChangeRequest_client (rfc : Int) (addr : Nat) (in_change_ip : Bool) :
    AttributeCreateChangeRequest rfc (some addr) in_change_ip true
      = (⟨STUN_ATTRIBUT_CHANGE_REQUEST, 4,
          [0, 0, 0, if in_change_ip then 0x06 else 0x02], some addr⟩, none) := by
  have := AttributeCreate_aligned rfc STUN_ATTRIBUT_CHANGE_REQUEST
    [0, 0, 0, if in_change_ip then 0x06 else 0x02] (some addr) (by simp) (by simp)
  cases in_change_ip
  · exact this
  · exact this

/-- The request after `SetType` and `SetId`. -/
theorem SetId_client :
    (PacketCreate.SetType STUN_TYPE_BINDING_REQUEST).SetId requestId = .ret requestEmpty := by
  decide

/-- `AddAttribute` of an attribute with an aligned value, as the client calls it. -/
theorem AddAttribute_aligned (rfc : Int) (v : StunPacket) (t : Nat) (val : List Byte)
    (p : Option Nat) (h4 : val.length % 4 = 0) (hl : val.length ≤ 65535)
    (hv : v.length % 4 = 0) :
    v.AddAttribute rfc ⟨t, val.length, val, p⟩ =
      .ret { v with attributes := v.attributes ++ [⟨t, val.length, val, p⟩]
                    length := (v.length + (4 + val.length)) % 65536 } :=
  AddAttribute_created rfc v _ ⟨_, _, _, AttributeCreate_aligned rfc t val p h4 hl⟩ hv

/-- What `ClientSendBinding` sends: the dial and the exchange are made with the
packet `requestBindingAt`, towards the destination given or else the server. -/
theorem ClientSendBinding_sends (rfc : Int) (w : World) (server : GoString) (n : Nat)
    (dest : Option GoString) :
    ClientSendBinding rfc w server n dest
      = dialAndSend w n (match dest with | some d => d | none => server)
          requestResponse.zero.init (requestBindingAt (w.alloc n)) := by
  simp only [ClientSendBinding, SetId_client, Outcome.bind, AttributeCreateSoftware_client]
  generalize w.alloc n = addr
  have hadd1 : requestEmpty.AddAttribute rfc
      ⟨STUN_ATTRIBUT_SOFTWARE, 12, ascii "TestClient01", some addr⟩
      = .ret { stype := STUN_TYPE_BINDING_REQUEST, length := 16, cookie := STUN_MAGIC_COOKIE,
               id := requestId,
               attributes := [⟨STUN_ATTRIBUT_SOFTWARE, 12, ascii "TestClient01", some addr⟩] } :=
    AddAttribute_aligned rfc requestEmpty STUN_ATTRIBUT_SOFTWARE (ascii "TestClient01")
      (some addr) (by decide) (by decide) (by decide)
  have hbytes : (StunPacket.ToBytes
      { stype := STUN_TYPE_BINDING_REQUEST, length := 16, cookie := STUN_MAGIC_COOKIE,
        id := requestId,
        attributes := [⟨STUN_ATTRIBUT_SOFTWARE, 12, ascii "TestClient01", some addr⟩] })
      = .ret bytesBeforeFingerprint := by
    simp only [StunPacket.ToBytes, ToBytes_loop, Outcome.bind]
    decide
  have hcrc : binaryWriteUint32 (__stunCrc32 bytesBeforeFingerprint)
      = [0x24, 0x90, 0x1B, 0x19] := by decide!
  have hfp := AttributeCreateFingerprint_bytes rfc (some addr) _ _ hbytes
  rw [hcrc] at hfp
  have hadd2 : StunPacket.AddAttribute rfc
      { stype := STUN_TYPE_BINDING_REQUEST, length := 16, cookie := STUN_MAGIC_COOKIE,
        id := requestId,
        attributes := [⟨STUN_ATTRIBUT_SOFTWARE, 12, ascii "TestClient01", some addr⟩] }
      ⟨STUN_ATTRIBUT_FINGERPRINT, 4, [0x24, 0x90, 0x1B, 0x19], some addr⟩
      = .ret (requestBindingAt addr) :=
    AddAttribute_aligned rfc _ STUN_ATTRIBUT_FINGERPRINT [0x24, 0x90, 0x1B, 0x19]
      (some addr) (by decide) (by decide) (by simp)
  simp only [hadd1, hfp, hadd2]

/-- What `ClientSendChangeRequest` sends: the dial towards the server and the
exchange are made with the packet `requestChangeAt`. -/
theorem ClientSendChangeRequest_sends (rfc : Int) (w : World) (server : GoString) (n : Nat)
    (in_change_ip : Bool) :
    ClientSendChangeRequest rfc w server n in_change_ip
      = dialAndSend w n server requestResponse.zero.init
          (requestChangeAt (w.alloc n) in_change_ip) := by
  simp only [ClientSendChangeRequest, SetId_client, Outcome.bind,
    AttributeCreateSoftware_client, AttributeCreateChangeRequest_client]
  generalize w.alloc n = addr
  have hadd1 : requestEmpty.AddAttribute rfc
      ⟨STUN_ATTRIBUT_SOFTWARE, 12, ascii "TestClient01", some addr⟩
      = .ret { stype := STUN_TYPE_BINDING_REQUEST, length := 16, cookie := STUN_MAGIC_COOKIE,
               id := requestId,
               attributes := [⟨STUN_ATTRIBUT_SOFTWARE, 12, ascii "TestClient01", some addr⟩] } :=
    AddAttribute_aligned rfc requestEmpty STUN_ATTRIBUT_SOFTWARE (ascii "TestClient01")
      (some addr) (by decide) (by decide) (by decide)
  have hadd2 : StunPacket.AddAttribute rfc
      { stype := STUN_TYPE_BINDING_REQUEST, length := 16, cookie := STUN_MAGIC_COOKIE,
        id := requestId,
        attributes := [⟨STUN_ATTRIBUT_SOFTWARE, 12, ascii "TestClient01", some addr⟩] }
      ⟨STUN_ATTRIBUT_CHANGE_REQUEST, 4, [0, 0, 0, if in_change_ip then 0x06 else 0x02],
        some addr⟩
      = .ret { stype := STUN_TYPE_BINDING_REQUEST, length := 24,
               cookie := STUN_MAGIC_COOKIE, id := requestId,
               attributes :=
                 [⟨STUN_ATTRIBUT_SOFTWARE, 12, ascii "TestClient01", some addr⟩,
                  ⟨STUN_ATTRIBUT_CHANGE_REQUEST, 4,
                    [0, 0, 0, if in_change_ip then 0x06 else 0x02], some addr⟩] } :=
    AddAttribute_aligned rfc _ STUN_ATTRIBUT_CHANGE_REQUEST
      [0, 0, 0, if in_change_ip then 0x06 else 0x02] (some addr) (by simp) (by simp) (by simp)
  have hbytes : (StunPacket.ToBytes
      { stype := STUN_TYPE_BINDING_REQUEST, length := 24,
        cookie := STUN_MAGIC_COOKIE, id := requestId,
        attributes :=
          [⟨STUN_ATTRIBUT_SOFTWARE, 12, ascii "TestClient01", some addr⟩,
           ⟨STUN_ATTRIBUT_CHANGE_REQUEST, 4,
             [0, 0, 0, if in_change_ip then 0x06 else 0x02], some addr⟩] })
      = .ret (bytesBeforeFingerprintChange in_change_ip) := by
    simp only [StunPacket.ToBytes, ToBytes_loop, Outcome.bind]
    cases in_change_ip
    · decide
    · decide
  have hcrc : binaryWriteUint32 (__stunCrc32 (bytesBeforeFingerprintChange in_change_ip))
      = if in_change_ip then [0xBC, 0x59, 0x9B, 0xC5] else [0xBB, 0x34, 0x5F, 0xDC] := by
    cases in_change_ip
    · decide!
    · decide!
  have hfp := AttributeCreateFingerprint_bytes rfc (some addr) _ _ hbytes
  rw [hcrc] at hfp
  have hadd3 : StunPacket.AddAttribute rfc
      { stype := STUN_TYPE_BINDING_REQUEST, length := 24,
        cookie := STUN_MAGIC_COOKIE, id := requestId,
        attributes :=
          [⟨STUN_ATTRIBUT_SOFTWARE, 12, ascii "TestClient01", some addr⟩,
           ⟨STUN_ATTRIBUT_CHANGE_REQUEST, 4,
             [0, 0, 0, if in_change_ip then 0x06 else 0x02], some addr⟩] }
      ⟨STUN_ATTRIBUT_FINGERPRINT, 4,
        if in_change_ip then [0xBC, 0x59, 0x9B, 0xC5] else [0xBB, 0x34, 0x5F, 0xDC], some addr⟩
      = .ret (requestChangeAt addr in_change_ip) := by
    cases in_change_ip
    · exact AddAttribute_aligned rfc _ STUN_ATTRIBUT_FINGERPRINT [0xBB, 0x34, 0x5F, 0xDC]
        (some addr) (by decide) (by decide) (by simp)
    · exact AddAttribute_aligned rfc _ STUN_ATTRIBUT_FINGERPRINT [0xBC, 0x59, 0x9B, 0xC5]
        (some addr) (by decide) (by decide) (by simp)
  simp only [hadd1, hadd2, hfp, hadd3]

/-- What `dialAndSend` returns for a probe that reports no error. -/
theorem dialAndSend_probe (w : World) (n : Nat) (dest : GoString) (request : StunPacket)
    (loc : GoString) (p : StunPacket) (r : Bool)
    (h : w.probe n dest request loc p r) :
    dialAndSend w n dest requestResponse.zero.init request
      = .ret ((⟨r, p, loc, none⟩, none), n + 1) := by
  obtain ⟨c, hd, hl, hs, hc⟩ := h
  simp only [dialAndSend, hd, hs, Outcome.bind, hl, hc]

/-- Test I when its probe reports no error and gets no response. -/
theorem ClientTest1_silent (rfc : Int) (w : World) (server : GoString) (n : Nat)
    (dest : Option GoString) (loc : GoString) (p : StunPacket)
    (h : w.probe n (match dest with | some d => d | none => server)
      (requestBindingAt (w.alloc n)) loc p false) :
    ClientTest1 rfc w server n dest
      = .ret ((⟨⟨false, p, loc, none⟩, .nil⟩, none), n + 1) := by
  simp only [ClientTest1, ClientSendBinding_sends, dialAndSend_probe _ _ _ _ _ _ _ h,
    Outcome.bind]
  rfl

/-- Test I when its probe reports no error and gets a response whose mapped
transport address is `M` and whose CHANGED_ADDRESS lookup reports no error. -/
theorem ClientTest1_answered (rfc : Int) (w : World) (server : GoString) (n : Nat)
    (dest : Option GoString) (loc : GoString) (p : StunPacket) (M : GoString)
    (cf : Bool) (cfam : Nat) (cip : GoString) (cport : Nat)
    (h : w.probe n (match dest with | some d => d | none => server)
      (requestBindingAt (w.alloc n)) loc p true)
    (hM : mappedTransport w.heap p M)
    (hc : p.GetChangedAddress = .ret (cf, cfam, cip, cport, none)) :
    ClientTest1 rfc w server n dest
      = .ret ((⟨⟨true, p, loc, none⟩, .test1 ⟨cf, cfam, cip, cport, decide (loc = M)⟩⟩,
          none), n + 1) := by
  obtain ⟨fm, ipm, pm, fx, famx, ipx, px, ex, hm, hx, hT⟩ := hM
  by_cases hcond : ipm ≠ ipx ∧ fx = true
  · simp only [if_pos hcond] at hT
    have hT2 : MakeTransportAddress ipx (px : Int) = (M, none) := hT
    simp only [ClientTest1, ClientSendBinding_sends, dialAndSend_probe _ _ _ _ _ _ _ h,
      Outcome.bind, hm, hx, hc]
    simp [hcond, hT2, test1Info.zero, testResponse.zero]
  · simp only [if_neg hcond] at hT
    have hT2 : MakeTransportAddress ipm (pm : Int) = (M, none) := hT
    simp only [ClientTest1, ClientSendBinding_sends, dialAndSend_probe _ _ _ _ _ _ _ h,
      Outcome.bind, hm, hx, hc]
    simp [hcond, hT2, test1Info.zero, testResponse.zero]

/-- Test II when its probe reports no error. -/
theorem CientTest2_probe (rfc : Int) (w : World) (server : GoString) (n : Nat)
    (loc : GoString) (p : StunPacket) (r : Bool)
    (h : w.probe n server (requestChangeAt (w.alloc n) true) loc p r) :
    CientTest2 rfc w server n = .ret ((⟨⟨r, p, loc, none⟩, .test2⟩, none), n + 1) := by
  simp only [CientTest2, ClientSendChangeRequest_sends, dialAndSend_probe _ _ _ _ _ _ _ h,
    Outcome.bind]

/-- Test III when its probe reports no error. -/
theorem CientTest3_probe (rfc : Int) (w : World) (server : GoString) (n : Nat)
    (loc : GoString) (p : StunPacket) (r : Bool)
    (h : w.probe n server (requestChangeAt (w.alloc n) false) loc p r) :
    CientTest3 rfc w server n = .ret ((⟨⟨r, p, loc, none⟩, .test2⟩, none), n + 1) := by
  simp only [CientTest3, ClientSendChangeRequest_sends, dialAndSend_probe _ _ _ _ _ _ _ h,
    Outcome.bind]

/-- The address loop on a packet without an attribute of the wanted type. -/
theorem getAddress_loop_absent (wanted : Nat) (attrs : List StunAttribute)
    (h : ∀ a ∈ attrs, a.Typ ≠ wanted) :
    getAddress_loop wanted attrs = .ret (false, 0, [], 0, none) := by
  induction attrs with
  | nil => rfl
  | cons a rest ih =>
    have ha : wanted ≠ a.Typ := fun e => h a (List.mem_cons_self a rest) e.symm
    simp only [getAddress_loop, if_pos ha]
    exact ih fun b hb => h b (List.mem_cons_of_mem a hb)

/-- A changed transport address is accepted by `MakeTransportAddress`. -/
theorem changedTransport_made (p : StunPacket) (C : GoString) (cfam : Nat) (cip : GoString)
    (cport : Nat) (hch : p.GetChangedAddress = .ret (true, cfam, cip, cport, none))
    (hC : (MakeTransportAddress cip (Int.ofNat cport)).1 = C) :
    MakeTransportAddress cip (Int.ofNat cport) = (C, none) := by
  obtain ⟨bytes, hb⟩ := (getAddress_loop_ret _ _ _ hch).2 rfl rfl
  have h2 := MakeTransportAddress_BytesToIp bytes _ (Int.ofNat cport) hb
  rw [← hC]
  exact Prod.ext rfl h2

/-- The start of `ClientDiscover` once Test I got, without error, a response
with the mapped transport address `M` and the changed transport address `C`. -/
theorem ClientDiscover_of_test1 (rfc : Int) (w : World) (server : GoString)
    (loc : GoString) (p : StunPacket) (M C : GoString)
    (h1 : w.probe 0 server (requestBindingAt (w.alloc 0)) loc p true)
    (hM : mappedTransport w.heap p M) (hC : changedTransport p C) :
    ClientDiscover rfc w server =
      if loc = M then ClientDiscover_open rfc w server 1
      else ClientDiscover_nat rfc w server 1 C := by
  obtain ⟨cfam, cip, cport, hch, hmk⟩ := hC
  have hmade := changedTransport_made p C cfam cip cport hch hmk
  have ht := ClientTest1_answered rfc w server 0 none loc p M true cfam cip cport h1 hM hch
  simp only [ClientDiscover, ht, Outcome.bind, Extra.assertTest1, hmade]
  by_cases e : loc = M <;> simp [e]

/-- The NAT branch of `ClientDiscover` returns none of the two verdicts of the
other branch: the code it returns is below STUN_NAT_NO_NAT. -/
theorem ClientDiscover_nat_codes (rfc : Int) (w : World) (server : GoString) (n : Nat)
    (C : GoString) (v : Int) (e : Option StunError)
    (h : ClientDiscover_nat rfc w server n C = .ret (v, e)) : v < STUN_NAT_NO_NAT := by
  simp only [ClientDiscover_nat, Outcome.bind] at h
  repeat' split at h
  all_goals first
    | exact Outcome.noConfusion h
    | (simp only [Outcome.ret.injEq, Prod.mk.injEq] at h
       rw [← h.1]
       decide)

/-- C12, counterexample. First, the 36-byte response `bytesChangedEmpty`, which
`FromBytes` accepts, carries MAPPED_ADDRESS 10.0.0.2:5000, which is the local
address, and a CHANGED_ADDRESS with an empty value; every probe is answered
with it and none reports an error, yet `ClientDiscover` does not return: it
aborts on a slice out of range. Second, the response `packetXorIp` carries the
MAPPED_ADDRESS 10.0.0.2:5000, which is the local address, and a
CHANGED_ADDRESS that decodes; every probe is answered with it and none reports
an error, yet `ClientDiscover` returns STUN_NAT_FULL_CONE, since the
XOR-MAPPED-ADDRESS of the response de-XORs to another IP. Third, the response
`packetXorPortLocal` carries a MAPPED_ADDRESS and an XOR-MAPPED-ADDRESS that
disagree in the port, the de-XORed transport address 10.0.0.2:5000 is the
local address, yet `ClientDiscover` returns STUN_NAT_FULL_CONE. -/
theorem ClientDiscover_open_branch_abort_and_xor :
    (FromBytes SetRfc3489 0 3 ⟨bytesChangedEmpty, []⟩ = .ret (packetChangedEmpty, none) ∧
      worldChangedEmpty.probe 0 testServer (requestBindingAt (worldChangedEmpty.alloc 0))
        testLocal packetChangedEmpty true ∧
      worldChangedEmpty.probe 1 testServer (requestChangeAt (worldChangedEmpty.alloc 1) true)
        testLocal packetChangedEmpty true ∧
      mappedTransport worldChangedEmpty.heap packetChangedEmpty testLocal ∧
      (∃ a ∈ packetChangedEmpty.attributes, a.Typ = STUN_ATTRIBUT_CHANGED_ADDRESS) ∧
      ClientDiscover SetRfc3489 worldChangedEmpty testServer = .abort .sliceBounds) ∧
    (worldXorIp.probe 0 testServer (requestBindingAt (worldXorIp.alloc 0))
        testLocal packetXorIp true ∧
      worldXorIp.probe 1 testServer (requestChangeAt (worldXorIp.alloc 1) true)
        testLocal packetXorIp true ∧
      packetXorIp.GetMappedAddress = .ret (true, 1, ascii "10.0.0.2", 5000, none) ∧
      MakeTransportAddress (ascii "10.0.0.2") 5000 = (testLocal, none) ∧
      changedTransport packetXorIp (ascii "10.0.0.9:3479") ∧
      ClientDiscover SetRfc3489 worldXorIp testServer = .ret (STUN_NAT_FULL_CONE, none)) ∧
    (worldXorPortLocal.probe 0 testServer (requestBindingAt (worldXorPortLocal.alloc 0))
        testLocal packetXorPortLocal true ∧
      worldXorPortLocal.probe 1 testServer (requestChangeAt (worldXorPortLocal.alloc 1) true)
        testLocal packetXorPortLocal true ∧
      packetXorPortLocal.GetMappedAddress = .ret (true, 1, ascii "10.0.0.2", 6000, none) ∧
      packetXorPortLocal.GetXorMappedAddress worldXorPortLocal.heap
        = .ret (true, 1, ascii "10.0.0.2", 5000, none) ∧
      MakeTransportAddress (ascii "10.0.0.2") 5000 = (testLocal, none) ∧
      changedTransport packetXorPortLocal (ascii "10.0.0.9:3479") ∧
      ClientDiscover SetRfc3489 worldXorPortLocal testServer
        = .ret (STUN_NAT_FULL_CONE, none)) := by
  refine ⟨⟨by decide, ⟨_, rfl, rfl, rfl, rfl⟩, ⟨_, rfl, rfl, rfl, rfl⟩,
      ⟨1, ascii "10.0.0.2", 5000, false, 0, [], 0, none, by decide, by decide, by decide⟩,
      ⟨_, List.mem_cons_of_mem _ (List.mem_cons_self _ _), rfl⟩, by decide⟩,
    ⟨⟨_, rfl, rfl, rfl, rfl⟩, ⟨_, rfl, rfl, rfl, rfl⟩, by decide, by decide,
      ⟨1, ascii "10.0.0.9", 3479, by decide, by decide⟩, by decide⟩,
    ⟨_, rfl, rfl, rfl, rfl⟩, ⟨_, rfl, rfl, rfl, rfl⟩, by decide, by decide, by decide,
      ⟨1, ascii "10.0.0.9", 3479, by decide, by decide⟩, by decide⟩

/-- C12, amended: let the probe of Test I (the first dial, towards the server,
sending the Binding Request with SOFTWARE and FINGERPRINT) report no error, on
a socket with local address `loc`. If it gets no response, `ClientDiscover`
returns STUN_NAT_BLOCKED. If it gets a response with mapped transport address
`M` (the de-XORed XOR-MAPPED-ADDRESS when one is found and its IP text differs
from that of the MAPPED_ADDRESS, the MAPPED_ADDRESS otherwise): when the
response has no CHANGED_ADDRESS, `ClientDiscover` returns STUN_NAT_UNKNOWN,
whatever a second dial would do; when it has a CHANGED_ADDRESS that decodes,
`M = loc`, and the probe of Test II (the second dial, towards the server,
sending the Binding Request with SOFTWARE, CHANGE-REQUEST "change IP, change
port" and FINGERPRINT) reports no error, it returns STUN_NAT_NO_NAT if Test II
got a response and STUN_NAT_SYMETRIC_UDP_FIREWALL if it got none; when `M` is
not `loc`, it returns neither of these two verdicts. -/
theorem ClientDiscover_open_branch_of_probes (rfc : Int) (w : World) (server : GoString)
    (loc : GoString) (p : StunPacket) (r : Bool)
    (h1 : w.probe 0 server (requestBindingAt (w.alloc 0)) loc p r) :
    (r = false → ClientDiscover rfc w server = .ret (STUN_NAT_BLOCKED, none)) ∧
    (r = true → ∀ M, mappedTransport w.heap p M →
      ((∀ a ∈ p.attributes, a.Typ ≠ STUN_ATTRIBUT_CHANGED_ADDRESS) →
        ClientDiscover rfc w server = .ret (STUN_NAT_UNKNOWN, none)) ∧
      (∀ C, changedTransport p C →
        (M = loc →
          ∀ loc2 p2 r2, w.probe 1 server (requestChangeAt (w.alloc 1) true) loc2 p2 r2 →
            ClientDiscover rfc w server =
              .ret (if r2 then STUN_NAT_NO_NAT else STUN_NAT_SYMETRIC_UDP_FIREWALL, none)) ∧
        (M ≠ loc → ∀ v e, ClientDiscover rfc w server = .ret (v, e) →
          v ≠ STUN_NAT_NO_NAT ∧ v ≠ STUN_NAT_SYMETRIC_UDP_FIREWALL))) := by
  refine ⟨?_, ?_⟩
  · intro hr
    subst hr
    simp [ClientDiscover, ClientTest1_silent rfc w server 0 none loc p h1, Outcome.bind]
  · intro hr M hM
    subst hr
    refine ⟨?_, ?_⟩
    · intro hno
      have hch := getAddress_loop_absent _ _ hno
      have ht := ClientTest1_answered rfc w server 0 none loc p M false 0 [] 0 h1 hM hch
      simp [ClientDiscover, ht, Outcome.bind, Extra.assertTest1]
    · intro C hC
      refine ⟨?_, ?_⟩
      · intro hML loc2 p2 r2 h2
        rw [ClientDiscover_of_test1 rfc w server loc p M C h1 hM hC, if_pos hML.symm]
        simp only [ClientDiscover_open, CientTest2_probe rfc w server 1 loc2 p2 r2 h2,
          Outcome.bind]
        cases r2 <;> rfl
      · intro hne v e hv
        rw [ClientDiscover_of_test1 rfc w server loc p M C h1 hM hC,
          if_neg fun e => hne e.symm] at hv
        have hlt := ClientDiscover_nat_codes rfc w server 1 C v e hv
        simp only [STUN_NAT_NO_NAT, STUN_NAT_SYMETRIC_UDP_FIREWALL] at hlt ⊢
        omega

/-- C12, amended, in the world where every probe is answered with
MAPPED_ADDRESS 10.0.0.2:5000, which is the local address, and CHANGED_ADDRESS
10.0.0.9:3479: the discovery returns STUN_NAT_NO_NAT. -/
theorem ClientDiscover_open_branch_of_probes_witness :
    worldOpen.probe 0 testServer (requestBindingAt (worldOpen.alloc 0))
      testLocal packetMappedLocal true ∧
    mappedTransport worldOpen.heap packetMappedLocal testLocal ∧
    changedTransport packetMappedLocal (ascii "10.0.0.9:3479") ∧
    worldOpen.probe 1 testServer (requestChangeAt (worldOpen.alloc 1) true)
      testLocal packetMappedLocal true ∧
    ClientDiscover SetRfc3489 worldOpen testServer = .ret (STUN_NAT_NO_NAT, none) :=
  have h1 : worldOpen.probe 0 testServer (requestBindingAt (worldOpen.alloc 0))
      testLocal packetMappedLocal true := ⟨_, rfl, rfl, rfl, rfl⟩
  have hM : mappedTransport worldOpen.heap packetMappedLocal testLocal :=
    ⟨1, ascii "10.0.0.2", 5000, false, 0, [], 0, none, by decide, by decide, by decide⟩
  have hC : changedTransport packetMappedLocal (ascii "10.0.0.9:3479") :=
    ⟨1, ascii "10.0.0.9", 3479, by decide, by decide⟩
  have h2 : worldOpen.probe 1 testServer (requestChangeAt (worldOpen.alloc 1) true)
      testLocal packetMappedLocal true := ⟨_, rfl, rfl, rfl, rfl⟩
  ⟨h1, hM, hC, h2,
    (((ClientDiscover_open_branch_of_probes SetRfc3489 worldOpen testServer testLocal
      packetMappedLocal true h1).2 rfl testLocal hM).2 _ hC).1 rfl _ _ _ h2⟩

/-- C13, counterexample. First, in the world `worldNatChangedEmpty` no probe
reports an error, Test I gets a response with MAPPED_ADDRESS
198.51.100.7:40000, which is not the local address 10.0.0.2:5000, and
CHANGED_ADDRESS 10.0.0.9:3479, Test II gets no response, and Test I towards
10.0.0.9:3479 gets a response with MAPPED_ADDRESS 10.0.0.2:5000 and a
CHANGED_ADDRESS with an empty value; `ClientDiscover` does not return: it
aborts on a slice out of range. Second, the response `packetXorLocal` carries
the MAPPED_ADDRESS 198.51.100.7:40000, which is not the local address, yet
`ClientDiscover` returns STUN_NAT_NO_NAT, since the XOR-MAPPED-ADDRESS de-XORs
to the local address. Third, the response `packetXorPort` carries a
MAPPED_ADDRESS and an XOR-MAPPED-ADDRESS that disagree in the port, the
de-XORed transport address 10.0.0.2:6000 is not the local address, yet
`ClientDiscover` returns STUN_NAT_NO_NAT. -/
theorem ClientDiscover_nat_branch_abort_and_xor :
    (worldNatChangedEmpty.probe 0 testServer (requestBindingAt (worldNatChangedEmpty.alloc 0))
        testLocal packetMappedOther true ∧
      mappedTransport worldNatChangedEmpty.heap packetMappedOther
        (ascii "198.51.100.7:40000") ∧
      ascii "198.51.100.7:40000" ≠ testLocal ∧
      changedTransport packetMappedOther (ascii "10.0.0.9:3479") ∧
      worldNatChangedEmpty.probe 1 testServer
        (requestChangeAt (worldNatChangedEmpty.alloc 1) true)
        testLocal StunPacket.zero false ∧
      worldNatChangedEmpty.probe 2 (ascii "10.0.0.9:3479")
        (requestBindingAt (worldNatChangedEmpty.alloc 2)) testLocal packetChangedEmpty true ∧
      mappedTransport worldNatChangedEmpty.heap packetChangedEmpty testLocal ∧
      worldNatChangedEmpty.probe 3 testServer
        (requestChangeAt (worldNatChangedEmpty.alloc 3) false)
        testLocal StunPacket.zero false ∧
      ClientDiscover SetRfc3489 worldNatChangedEmpty testServer = .abort .sliceBounds) ∧
    (worldXorLocal.probe 0 testServer (requestBindingAt (worldXorLocal.alloc 0))
        testLocal packetXorLocal true ∧
      worldXorLocal.probe 1 testServer (requestChangeAt (worldXorLocal.alloc 1) true)
        testLocal packetXorLocal true ∧
      packetXorLocal.GetMappedAddress = .ret (true, 1, ascii "198.51.100.7", 40000, none) ∧
      MakeTransportAddress (ascii "198.51.100.7") 40000
        = (ascii "198.51.100.7:40000", none) ∧
      ascii "198.51.100.7:40000" ≠ testLocal ∧
      changedTransport packetXorLocal (ascii "10.0.0.9:3479") ∧
      ClientDiscover SetRfc3489 worldXorLocal testServer = .ret (STUN_NAT_NO_NAT, none)) ∧
    (worldXorPort.probe 0 testServer (requestBindingAt (worldXorPort.alloc 0))
        testLocal packetXorPort true ∧
      worldXorPort.probe 1 testServer (requestChangeAt (worldXorPort.alloc 1) true)
        testLocal packetXorPort true ∧
      packetXorPort.GetMappedAddress = .ret (true, 1, ascii "10.0.0.2", 5000, none) ∧
      packetXorPort.GetXorMappedAddress worldXorPort.heap
        = .ret (true, 1, ascii "10.0.0.2", 6000, none) ∧
      MakeTransportAddress (ascii "10.0.0.2") 6000 = (ascii "10.0.0.2:6000", none) ∧
      ascii "10.0.0.2:6000" ≠ testLocal ∧
      changedTransport packetXorPort (ascii "10.0.0.9:3479") ∧
      ClientDiscover SetRfc3489 worldXorPort testServer = .ret (STUN_NAT_NO_NAT, none)) := by
  refine ⟨⟨⟨_, rfl, rfl, rfl, rfl⟩,
      ⟨1, ascii "198.51.100.7", 40000, false, 0, [], 0, none, by decide, by decide,
        by decide⟩,
      by decide, ⟨1, ascii "10.0.0.9", 3479, by decide, by decide⟩,
      ⟨_, rfl, rfl, rfl, rfl⟩, ⟨_, rfl, rfl, rfl, rfl⟩,
      ⟨1, ascii "10.0.0.2", 5000, false, 0, [], 0, none, by decide, by decide, by decide⟩,
      ⟨_, rfl, rfl, rfl, rfl⟩, by decide⟩,
    ⟨⟨_, rfl, rfl, rfl, rfl⟩, ⟨_, rfl, rfl, rfl, rfl⟩, by decide, by decide, by decide,
      ⟨1, ascii "10.0.0.9", 3479, by decide, by decide⟩, by decide⟩,
    ⟨_, rfl, rfl, rfl, rfl⟩, ⟨_, rfl, rfl, rfl, rfl⟩, by decide, by decide, by decide,
      by decide, ⟨1, ascii "10.0.0.9", 3479, by decide, by decide⟩, by decide⟩

/-- C13, amended: let the probe of Test I report no error and get a response
with mapped transport address `M` (the de-XORed XOR-MAPPED-ADDRESS when one is
found and its IP text differs from that of the MAPPED_ADDRESS, the
MAPPED_ADDRESS otherwise) and a CHANGED_ADDRESS that decodes to the transport
address `C`, with `M` different from the local address `loc`, and let the
probe of Test II (the second dial, towards the server, CHANGE-REQUEST "change
IP, change port") report no error. `ClientDiscover` returns STUN_NAT_FULL_CONE
if Test II got a response. Otherwise, when the third probe (the Binding
Request of Test I, dialled towards `C`) reports no error, it returns
STUN_NAT_UNKNOWN if that got no response; and for a response with mapped
transport address `M3` whose CHANGED_ADDRESS lookup reports no error,
STUN_NAT_SYMETRIC if `M3` differs from the local address of that probe, and
otherwise, when the probe of Test III (the fourth dial, towards the server,
CHANGE-REQUEST "change port" only) reports no error, STUN_NAT_RESTRICTED if
Test III got a response and STUN_NAT_PORT_RESTRICTED if it got none. -/
theorem ClientDiscover_nat_branch_of_probes (rfc : Int) (w : World) (server : GoString)
    (loc : GoString) (p : StunPacket) (M C : GoString)
    (loc2 : GoString) (p2 : StunPacket) (r2 : Bool)
    (h1 : w.probe 0 server (requestBindingAt (w.alloc 0)) loc p true)
    (hM : mappedTransport w.heap p M) (hC : changedTransport p C) (hne : M ≠ loc)
    (h2 : w.probe 1 server (requestChangeAt (w.alloc 1) true) loc2 p2 r2) :
    (r2 = true → ClientDiscover rfc w server = .ret (STUN_NAT_FULL_CONE, none)) ∧
    (r2 = false →
      ∀ loc3 p3 r3, w.probe 2 C (requestBindingAt (w.alloc 2)) loc3 p3 r3 →
        (r3 = false → ClientDiscover rfc w server = .ret (STUN_NAT_UNKNOWN, none)) ∧
        (r3 = true → ∀ M3 cf3 cfam3 cip3 cport3, mappedTransport w.heap p3 M3 →
          p3.GetChangedAddress = .ret (cf3, cfam3, cip3, cport3, none) →
          (M3 ≠ loc3 → ClientDiscover rfc w server = .ret (STUN_NAT_SYMETRIC, none)) ∧
          (M3 = loc3 →
            ∀ loc4 p4 r4, w.probe 3 server (requestChangeAt (w.alloc 3) false) loc4 p4 r4 →
              ClientDiscover rfc w server =
                .ret (if r4 then STUN_NAT_RESTRICTED else STUN_NAT_PORT_RESTRICTED,
                  none)))) := by
  have hstart := ClientDiscover_of_test1 rfc w server loc p M C h1 hM hC
  rw [if_neg fun e => hne e.symm] at hstart
  have ht2 := CientTest2_probe rfc w server 1 loc2 p2 r2 h2
  refine ⟨?_, ?_⟩
  · intro hr2
    subst hr2
    rw [hstart]
    simp [ClientDiscover_nat, ht2, Outcome.bind]
  · intro hr2 loc3 p3 r3 h3
    subst hr2
    refine ⟨?_, ?_⟩
    · intro hr3
      subst hr3
      rw [hstart]
      simp [ClientDiscover_nat, ht2, Outcome.bind,
        ClientTest1_silent rfc w server 2 (some C) loc3 p3 h3]
    · intro hr3 M3 cf3 cfam3 cip3 cport3 hM3 hc3
      subst hr3
      have ht3 := ClientTest1_answered rfc w server 2 (some C) loc3 p3 M3 cf3 cfam3 cip3
        cport3 h3 hM3 hc3
      refine ⟨?_, ?_⟩
      · intro hne3
        have e : ¬ loc3 = M3 := fun e => hne3 e.symm
        rw [hstart]
        simp [ClientDiscover_nat, ht2, Outcome.bind, ht3, Extra.assertTest1, e]
      · intro he3 loc4 p4 r4 h4
        have ht4 := CientTest3_probe rfc w server 3 loc4 p4 r4 h4
        rw [hstart]
        simp only [ClientDiscover_nat, ht2, Outcome.bind, ht3, Extra.assertTest1, he3, ht4]
        cases r4 <;> simp

/-- C13, amended, in the world where Test I is answered with MAPPED_ADDRESS
198.51.100.7:40000, which is not the local address 10.0.0.2:5000, and
CHANGED_ADDRESS 10.0.0.9:3479, Test II and Test III get no response, and Test
I towards 10.0.0.9:3479 is answered with MAPPED_ADDRESS 10.0.0.2:5000: the
discovery returns STUN_NAT_PORT_RESTRICTED. -/
theorem ClientDiscover_nat_branch_of_probes_witness :
    worldNat.probe 0 testServer (requestBindingAt (worldNat.alloc 0))
      testLocal packetMappedOther true ∧
    mappedTransport worldNat.heap packetMappedOther (ascii "198.51.100.7:40000") ∧
    changedTransport packetMappedOther (ascii "10.0.0.9:3479") ∧
    ascii "198.51.100.7:40000" ≠ testLocal ∧
    worldNat.probe 1 testServer (requestChangeAt (worldNat.alloc 1) true)
      testLocal StunPacket.zero false ∧
    worldNat.probe 2 (ascii "10.0.0.9:3479") (requestBindingAt (worldNat.alloc 2))
      testLocal packetMappedLocal true ∧
    mappedTransport worldNat.heap packetMappedLocal testLocal ∧
    worldNat.probe 3 testServer (requestChangeAt (worldNat.alloc 3) false)
      testLocal StunPacket.zero false ∧
    ClientDiscover SetRfc3489 worldNat testServer
      = .ret (STUN_NAT_PORT_RESTRICTED, none) :=
  have h1 : worldNat.probe 0 testServer (requestBindingAt (worldNat.alloc 0))
      testLocal packetMappedOther true := ⟨_, rfl, rfl, rfl, rfl⟩
  have hM : mappedTransport worldNat.heap packetMappedOther (ascii "198.51.100.7:40000") :=
    ⟨1, ascii "198.51.100.7", 40000, false, 0, [], 0, none, by decide, by decide, by decide⟩
  have hC : changedTransport packetMappedOther (ascii "10.0.0.9:3479") :=
    ⟨1, ascii "10.0.0.9", 3479, by decide, by decide⟩
  have hne : ascii "198.51.100.7:40000" ≠ testLocal := by decide
  have h2 : worldNat.probe 1 testServer (requestChangeAt (worldNat.alloc 1) true)
      testLocal StunPacket.zero false := ⟨_, rfl, rfl, rfl, rfl⟩
  have h3 : worldNat.probe 2 (ascii "10.0.0.9:3479") (requestBindingAt (worldNat.alloc 2))
      testLocal packetMappedLocal true := ⟨_, rfl, rfl, rfl, rfl⟩
  have hM3 : mappedTransport worldNat.heap packetMappedLocal testLocal :=
    ⟨1, ascii "10.0.0.2", 5000, false, 0, [], 0, none, by decide, by decide, by decide⟩
  have hc3 : packetMappedLocal.GetChangedAddress
      = .ret (true, 1, ascii "10.0.0.9", 3479, none) := by decide
  have h4 : worldNat.probe 3 testServer (requestChangeAt (worldNat.alloc 3) false)
      testLocal StunPacket.zero false := ⟨_, rfl, rfl, rfl, rfl⟩
  ⟨h1, hM, hC, hne, h2, h3, hM3, h4,
    ((((ClientDiscover_nat_branch_of_probes SetRfc3489 worldNat testServer testLocal
      packetMappedOther _ _ testLocal StunPacket.zero false h1 hM hC hne h2).2 rfl
      _ _ _ h3).2 rfl _ _ _ _ _ hM3 hc3).2 rfl _ _ _ h4)⟩

/-- C14: in the world where `SendRequest` reports an error during Test I and
`Close` succeeds, `ClientSendBinding` stores the error in the field `err` of
its result and returns a nil error, and `ClientDiscover` returns
STUN_NAT_BLOCKED with a nil error. -/
theorem ClientDiscover_send_error_gives_blocked :
    (∃ packet, ClientSendBinding SetRfc3489 worldSendError testServer 0 none
      = .ret ((⟨false, packet, testLocal, some (.netError 1)⟩, none), 1)) ∧
    ClientDiscover SetRfc3489 worldSendError testServer = .ret (STUN_NAT_BLOCKED, none) := by
  refine ⟨⟨StunPacket.zero, ?_⟩, ?_⟩ <;> decide

/-- C15: `FromBytes` accepts the 20-byte response `bytesHeaderOnly`, which has
no MAPPED_ADDRESS; when it is the answer to Test I, `ClientTest1` returns with
`extra` left nil and `ClientDiscover` aborts on the type assertion
`extra.(test1Info)`. -/
theorem ClientDiscover_no_mapped_address_aborts :
    FromBytes SetRfc3489 0 1 ⟨bytesHeaderOnly, []⟩ = .ret (packetHeaderOnly, none) ∧
    ClientTest1 SetRfc3489 worldNoMapped testServer 0 none
      = .ret ((⟨⟨true, packetHeaderOnly, testLocal, none⟩, .nil⟩, none), 1) ∧
    ClientDiscover SetRfc3489 worldNoMapped testServer = .abort .typeAssertion := by
  refine ⟨?_, ?_, ?_⟩ <;> decide

/-! ### CHANGE_REQUEST -/

/-- C21: the attribute that `AttributeCreateChangeRequest(p, false, false)`
returns has the value `00 00 00 00`, and `AttributeGetChangeRequest` returns
`(true, true, nil)` on it, as it does for the three other pairs of flags: the
accessor tests `(0x04 | b) != 0` and `(0x02 | b) != 0`, which hold for every byte. -/
theorem AttributeGetChangeRequest_always_true (rfc : Int) (p : Option Nat) (ip port : Bool) :
    (AttributeCreateChangeRequest rfc p false false).1.Value = [0, 0, 0, 0] ∧
    (AttributeCreateChangeRequest rfc p false false).1.AttributeGetChangeRequest
      = (true, true, none) ∧
    (AttributeCreateChangeRequest rfc p ip port).1.AttributeGetChangeRequest
      = (true, true, none) := by
  have h : ∀ a b : Bool, AttributeCreateChangeRequest rfc p a b
      = (⟨STUN_ATTRIBUT_CHANGE_REQUEST, 4,
          [0, 0, 0, toByte ((if a then 0x04 else 0) ||| (if b then 0x02 else 0))], p⟩,
        none) := by
    intro a b
    cases a <;> cases b <;>
      simp [AttributeCreateChangeRequest, AttributeCreate, ByteSlice.len, __padding, goCopy]
  refine ⟨?_, ?_, ?_⟩
  · rw [h]
    rfl
  · rw [h]
    rfl
  · rw [h]
    cases ip <;> cases port <;> rfl

/-- C22: for all booleans `ip` and `port`, in every mode,
`AttributeCreateChangeRequest(p, ip, port)` returns without error the attribute
of type 0x0003, length 4, value `[0, 0, 0, b]` with
`b = (0x04 if ip else 0) | (0x02 if port else 0)`, attached to `p`; `b` has no
bit set outside 0x06. -/
theorem AttributeCreateChangeRequest_value (rfc : Int) (p : Option Nat) (ip port : Bool) :
    AttributeCreateChangeRequest rfc p ip port
      = (⟨0x0003, 4,
          [0, 0, 0, toByte ((if ip then 0x04 else 0) ||| (if port then 0x02 else 0))], p⟩,
        none) ∧
    (toByte ((if ip then 0x04 else 0) ||| (if port then 0x02 else 0))).val &&& 0xF9 = 0 := by
  constructor
  · cases ip <;> cases port <;>
      simp [AttributeCreateChangeRequest, AttributeCreate, ByteSlice.len, __padding, goCopy,
        STUN_ATTRIBUT_CHANGE_REQUEST]
  · cases ip <;> cases port <;> decide

/-! ### FINGERPRINT -/

/-- One bit step keeps the CRC register within 32 bits. -/
theorem crc32Bit_lt (crc : Nat) (h : crc < 2 ^ 32) : crc32Bit crc < 2 ^ 32 := by
  unfold crc32Bit
  split
  · exact Nat.xor_lt_two_pow (by omega) (by decide)
  · omega

/-- One input byte keeps the CRC register within 32 bits. -/
theorem crc32Byte_lt (crc : Nat) (b : Byte) (h : crc < 2 ^ 32) : crc32Byte crc b < 2 ^ 32 := by
  have hb : b.val < 2 ^ 32 := lt_trans b.isLt (by decide)
  have h0 : crc ^^^ b.val < 2 ^ 32 := Nat.xor_lt_two_pow h hb
  unfold crc32Byte
  exact crc32Bit_lt _ (crc32Bit_lt _ (crc32Bit_lt _ (crc32Bit_lt _ (crc32Bit_lt _
    (crc32Bit_lt _ (crc32Bit_lt _ (crc32Bit_lt _ h0)))))))

/-- The CRC register stays within 32 bits over any input. -/
theorem crc32_foldl_lt (data : List Byte) (crc : Nat) (h : crc < 2 ^ 32) :
    data.foldl crc32Byte crc < 2 ^ 32 := by
  induction data generalizing crc with
  | nil => simpa using h
  | cons b rest ih => exact ih _ (crc32Byte_lt crc b h)

/-- The fingerprint `__stunCrc32` is a 32-bit value. -/
theorem stunCrc32_lt (data : List Byte) : __stunCrc32 data < 2 ^ 32 := by
  unfold __stunCrc32 ChecksumIEEE
  exact Nat.xor_lt_two_pow
    (Nat.xor_lt_two_pow (crc32_foldl_lt data _ (by decide)) (by decide)) (by decide)

/-- Reading back the big-endian encoding of a 32-bit value gives the value. -/
theorem binaryReadUint32_write (x : Nat) (h : x < 2 ^ 32) :
    binaryReadUint32 (binaryWriteUint32 x) = some x := by
  simp only [binaryWriteUint32, binaryReadUint32, toByte, Option.some.injEq]
  omega

/-- C23: for every packet `P` whose `ToBytes()` returns `out`, in every mode,
`AttributeCreateFingerprint(&P)` returns without error the attribute of type
0x8028 and length 4 whose value is the 4-byte big-endian encoding of
`CRC-32/IEEE(out) XOR 0x5354554E`, a 32-bit number that the 4 bytes read back. -/
theorem AttributeCreateFingerprint_value (rfc : Int) (in_packet : Option Nat)
    (P : StunPacket) (out : List Byte) (h : P.ToBytes = .ret out) :
    AttributeCreateFingerprint rfc in_packet P
      = .ret (⟨0x8028, 4, binaryWriteUint32 (ChecksumIEEE out ^^^ 0x5354554E), in_packet⟩,
          none) ∧
    binaryReadUint32 (binaryWriteUint32 (ChecksumIEEE out ^^^ 0x5354554E))
      = some (ChecksumIEEE out ^^^ 0x5354554E) := by
  refine ⟨?_, binaryReadUint32_write _ (stunCrc32_lt out)⟩
  simp [AttributeCreateFingerprint, h, Outcome.bind, AttributeCreate, ByteSlice.len,
    binaryWriteUint32, __padding, goCopy, __stunCrc32, STUN_ATTRIBUT_FINGERPRINT]

/-- C23, at `packet4`, whose `ToBytes()` is `bytes4`. -/
theorem AttributeCreateFingerprint_value_witness :
    AttributeCreateFingerprint SetRfc3489 (some 0) packet4
      = .ret (⟨0x8028, 4, binaryWriteUint32 (ChecksumIEEE bytes4 ^^^ 0x5354554E), some 0⟩,
          none) :=
  (AttributeCreateFingerprint_value SetRfc3489 (some 0) packet4 bytes4 (by decide)).1

/-- C24: `__stunCrc32` of the 84 bytes of the RFC 5769 sample message used in
`test_fingerprint` is 0xC8FB0B4C. -/
theorem stunCrc32_rfc5769 : __stunCrc32 rfc5769Prefix = 0xC8FB0B4C := by
  decide!

/-- C25: the request that `ClientSendBinding` builds ends with the FINGERPRINT
attribute, whose value `24 90 1B 19` is `__stunCrc32` of the serialization made
before the attribute was added (length field 16); the bytes that precede the
FINGERPRINT in the final `ToBytes()` output carry the length field 24 and
their `__stunCrc32` is `48 75 9A C0`. -/
theorem fingerprint_not_over_final_bytes :
    ClientSendBinding SetRfc3489 worldEcho testServer 0 none
      = .ret ((⟨true, requestBinding, testLocal, none⟩, none), 1) ∧
    requestBinding.ToBytes = .ret bytesRequestBinding ∧
    requestBinding.attributes.getLast? = some ⟨0x8028, 4, [0x24, 0x90, 0x1B, 0x19], some 0⟩ ∧
    binaryWriteUint32 (__stunCrc32 bytesBeforeFingerprint) = [0x24, 0x90, 0x1B, 0x19] ∧
    binaryWriteUint32
      (__stunCrc32 (bytesRequestBinding.take (bytesRequestBinding.length - 8)))
      = [0x48, 0x75, 0x9A, 0xC0] := by
  refine ⟨?_, ?_, ?_, ?_, ?_⟩ <;> decide!

/-! ### SOFTWARE -/

/-- C26: the name `EF BF BD 61` (U+FFFD followed by the letter a) is valid
UTF-8 and is accepted by `AttributeCreateSoftware`, yet `AttributeGetSoftware`
on the created attribute returns the diagnostic text and not the name:
`utf8.DecodeRune` returns the rune U+FFFD, equal to `utf8.RuneError`, for the
valid 3-byte encoding of that character. -/
theorem AttributeGetSoftware_replacement_character (p : Option Nat) :
    validUtf8 replacementName = true ∧
    AttributeCreateSoftware SetRfc3489 p replacementName
      = (⟨0x8022, 4, replacementName, p⟩, none) ∧
    utf8DecodeRune replacementName = (RuneError, 3) ∧
    (⟨0x8022, 4, replacementName, p⟩ : StunAttribute).AttributeGetSoftware
      = .ret softwareDiagnostic ∧
    softwareDiagnostic ≠ replacementName := by
  have hloop : AttributeGetSoftware_loop replacementName (replacementName.length + 1) 0
      = .ret false := by decide!
  refine ⟨by decide!, rfl, by decide!, ?_, by decide!⟩
  show (AttributeGetSoftware_loop replacementName (replacementName.length + 1) 0).bind _ = _
  rw [hloop]
  rfl

/-! ### Parsing the text of addresses -/

/-- Reading the digits that `Nat.toDigitsCore` wrote gives the number back:
the digits of `n` shift the accumulator by a power of the base and add `n`. -/
theorem parseDigits_toDigitsCore (base : Nat) (hb : 1 < base)
    (hd : ∀ d, d < base → digitValue (toByte (Nat.digitChar d).toNat) = some d)
    (fuel : Nat) :
    ∀ (n : Nat) (ds : List Char), n < fuel →
      ∃ k, ∀ acc, parseDigits base acc
          ((Nat.toDigitsCore base fuel n ds).map fun c => toByte c.toNat)
        = parseDigits base (acc * base ^ k + n) (ds.map fun c => toByte c.toNat) := by
  induction fuel with
  | zero => intro n ds h; omega
  | succ fuel ih =>
    intro n ds hn
    have hmod : n % base < base := Nat.mod_lt _ (by omega)
    have hstep : ∀ acc (tl : List Char), parseDigits base acc
        ((Nat.digitChar (n % base) :: tl).map fun c => toByte c.toNat)
        = parseDigits base (acc * base + n % base) (tl.map fun c => toByte c.toNat) := by
      intro acc tl
      simp only [List.map_cons, parseDigits, hd _ hmod]
      rw [if_neg (by omega)]
    simp only [Nat.toDigitsCore]
    split
    · rename_i h0
      refine ⟨1, fun acc => ?_⟩
      rw [hstep, pow_one]
      have : n % base = n := Nat.mod_eq_of_lt ((Nat.div_eq_zero_iff (by omega)).mp h0)
      rw [this]
    · rename_i h0
      have hlt : n / base < fuel := by
        have hpos : 0 < n := by
          rcases Nat.eq_zero_or_pos n with e | e
          · subst e; simp at h0
          · exact e
        have : n / base < n := Nat.div_lt_self hpos hb
        omega
      obtain ⟨k, hk⟩ := ih (n / base) (Nat.digitChar (n % base) :: ds) hlt
      refine ⟨k + 1, fun acc => ?_⟩
      rw [hk, hstep]
      congr 1
      have := Nat.div_add_mod n base
      rw [pow_succ]
      nlinarith [Nat.div_add_mod n base]

/-- `strconv.ParseUint` in base 10 reads the decimal text of a byte value. -/
theorem ParseUint_itoa (x : Nat) (hx : x < 1000) : ParseUint (itoa x) 10 = some x := by
  have hd : ∀ d, d < 10 → digitValue (toByte (Nat.digitChar d).toNat) = some d := by decide
  obtain ⟨k, hk⟩ := parseDigits_toDigitsCore 10 (by decide) hd (x + 1) x [] (by omega)
  have hlen := (itoa_props x hx).1
  have hne : itoa x ≠ [] := by
    intro e
    rw [e] at hlen
    simp at hlen
  have hp : parseDigits 10 0 (itoa x) = some x := by
    have := hk 0
    simpa [itoa, Nat.toDigits, parseDigits] using this
  simp only [ParseUint, hne, if_false, hp]
  rw [if_pos (by omega)]

/-- Leading zeros do not change what the digits read. -/
theorem parseDigits_zeros (base : Nat) (hb : 0 < base) (z : Nat) (rest : List Byte) :
    parseDigits base 0 (List.replicate z (toByte 48) ++ rest) = parseDigits base 0 rest := by
  induction z with
  | zero => simp
  | succ z ih =>
    have h48 : digitValue (toByte 48) = some 0 := by decide
    simp only [List.replicate_succ, List.cons_append, parseDigits, h48]
    rw [if_neg (by omega)]
    simpa using ih

/-- `strconv.ParseUint` in base 16 reads the text `%04x` of a 16-bit value. -/
theorem ParseUint_fmtHex04 (x : Nat) (hx : x < 65536) : ParseUint (fmtHex04 x) 16 = some x := by
  have hd : ∀ d, d < 16 → digitValue (toByte (Nat.digitChar d).toNat) = some d := by decide
  obtain ⟨k, hk⟩ := parseDigits_toDigitsCore 16 (by decide) hd (x + 1) x [] (by omega)
  have hlen := (fmtHex04_props x hx).1
  have hne : fmtHex04 x ≠ [] := by
    intro e
    rw [e] at hlen
    simp at hlen
  have hp : parseDigits 16 0 (fmtHex04 x) = some x := by
    have := hk 0
    simp only [fmtHex04, Nat.toDigits]
    rw [parseDigits_zeros 16 (by decide)]
    simpa [parseDigits] using this
  simp only [ParseUint, hne, if_false, hp]
  rw [if_pos (by omega)]

/-- On a text of ASCII digits, the digits loop of `ParseUint` in base 10 never
fails and computes the decimal value. -/
theorem parseDigits_decimal (g : GoString) (hg : g.all isDigitByte = true) :
    ∀ acc, parseDigits 10 acc g = some (g.foldl (fun acc b => acc * 10 + (b.val - 48)) acc) := by
  induction g with
  | nil => intro acc; rfl
  | cons b g ih =>
    intro acc
    simp only [List.all_cons, Bool.and_eq_true] at hg
    have hb : 48 ≤ b.val ∧ b.val ≤ 57 := by
      simpa [isDigitByte] using hg.1
    simp only [parseDigits, digitValue, if_pos hb, List.foldl_cons]
    rw [if_neg (by omega)]
    exact ih hg.2 _

/-- On a text of hexadecimal digits, the digits loop of `ParseUint` in base 16
never fails and computes the hexadecimal value. -/
theorem parseDigits_hex (g : GoString) (hg : g.all isHexByte = true) :
    ∀ acc, parseDigits 16 acc g = some (g.foldl (fun acc b => acc * 16 + hexDigit b) acc) := by
  induction g with
  | nil => intro acc; rfl
  | cons b g ih =>
    intro acc
    simp only [List.all_cons, Bool.and_eq_true] at hg
    have hb : (48 ≤ b.val ∧ b.val ≤ 57) ∨ (65 ≤ b.val ∧ b.val ≤ 70) ∨
        (97 ≤ b.val ∧ b.val ≤ 102) := by
      have := hg.1
      simp only [isHexByte, isDigitByte, Bool.or_eq_true, Bool.and_eq_true,
        decide_eq_true_eq] at this
      omega
    have hd : digitValue b = some (hexDigit b) ∧ hexDigit b < 16 := by
      simp only [digitValue, hexDigit]
      split_ifs <;> simp <;> omega
    simp only [parseDigits, hd.1, List.foldl_cons]
    rw [if_neg (by omega)]
    exact ih hg.2 _

/-- `ParseUint` in base 10 accepts a decimal group in 0..255 and returns its
value. -/
theorem ParseUint_decimalGroup (g : GoString) (hg : decimalGroup g = true) :
    ParseUint g 10 = some (decimalValue g) ∧ decimalValue g ≤ 255 := by
  simp only [decimalGroup, Bool.and_eq_true, Bool.not_eq_true', List.isEmpty_eq_false,
    decide_eq_true_eq] at hg
  obtain ⟨⟨hne, hall⟩, hv⟩ := hg
  refine ⟨?_, hv⟩
  simp only [ParseUint, hne, if_false, parseDigits_decimal g hall 0]
  rw [if_pos (by simp only [decimalValue] at hv; omega)]
  rfl

/-- `ParseUint` in base 16 accepts a hexadecimal group in 0..0xFFFF and returns
its value. -/
theorem ParseUint_hexGroup (g : GoString) (hg : hexGroup g = true) :
    ParseUint g 16 = some (hexValue g) ∧ hexValue g ≤ 65535 := by
  simp only [hexGroup, Bool.and_eq_true, Bool.not_eq_true', List.isEmpty_eq_false,
    decide_eq_true_eq] at hg
  obtain ⟨⟨hne, hall⟩, hv⟩ := hg
  refine ⟨?_, hv⟩
  simp only [ParseUint, hne, if_false, parseDigits_hex g hall 0]
  rw [if_pos (by simp only [hexValue] at hv; omega)]
  rfl

/-- The loop of `IpToBytes` in the 4-group case: when every group parses in
base 10 to a value of at most 255, it appends one byte per group. -/
theorem IpToBytes_loop_four (ip : GoString) :
    ∀ (groups : List GoString) (vals : List Nat) (res : List Byte),
      groups.map (fun g => ParseUint g 10) = vals.map some → (∀ v ∈ vals, v ≤ 255) →
      IpToBytes_loop ip 4 255 groups res = (res ++ vals.map toByte, none) := by
  intro groups
  induction groups with
  | nil =>
    intro vals res h _
    cases vals with
    | nil => simp [IpToBytes_loop]
    | cons v vs => simp at h
  | cons g gs ih =>
    intro vals res h hv
    cases vals with
    | nil => simp at h
    | cons v vs =>
      simp only [List.map_cons, List.cons.injEq] at h
      have hle : v ≤ 255 := hv v (List.mem_cons_self _ _)
      have hb : toByte (v % 65536) = toByte v := by
        apply Fin.ext
        simp only [toByte]
        omega
      simp only [IpToBytes_loop, if_true, h.1]
      rw [if_neg (by omega)]
      rw [ih vs _ h.2 (fun w hw => hv w (List.mem_cons_of_mem _ hw))]
      simp [binaryWriteUint16, hb]

/-- The loop of `IpToBytes` in the 8-group case: when every group parses in
base 16 to a value of at most 65535, it appends the two big-endian bytes of
each group. -/
theorem IpToBytes_loop_eight (ip : GoString) :
    ∀ (groups : List GoString) (vals : List Nat) (res : List Byte),
      groups.map (fun g => ParseUint g 16) = vals.map some → (∀ v ∈ vals, v ≤ 65535) →
      IpToBytes_loop ip 8 65535 groups res
        = (res ++ (vals.map binaryWriteUint16).flatten, none) := by
  intro groups
  induction groups with
  | nil =>
    intro vals res h _
    cases vals with
    | nil => simp [IpToBytes_loop]
    | cons v vs => simp at h
  | cons g gs ih =>
    intro vals res h hv
    cases vals with
    | nil => simp at h
    | cons v vs =>
      simp only [List.map_cons, List.cons.injEq] at h
      have hle : v ≤ 65535 := hv v (List.mem_cons_self _ _)
      have hb : v % 65536 = v := Nat.mod_eq_of_lt (by omega)
      simp only [IpToBytes_loop, h.1]
      show (if v > 65535 then _ else _) = _
      rw [if_neg (by omega), if_neg (by decide), hb]
      rw [ih vs _ h.2 (fun w hw => hv w (List.mem_cons_of_mem _ hw))]
      simp

/-- What `IpToBytes` returns on a text that splits at the dots into four
groups that parse in base 10 to values of at most 255: the four bytes. -/
theorem IpToBytes_four_groups (s g1 g2 g3 g4 : GoString) (v1 v2 v3 v4 : Nat)
    (hs : s.splitOn (toByte 46) = [g1, g2, g3, g4])
    (h1 : ParseUint g1 10 = some v1) (h2 : ParseUint g2 10 = some v2)
    (h3 : ParseUint g3 10 = some v3) (h4 : ParseUint g4 10 = some v4)
    (l1 : v1 ≤ 255) (l2 : v2 ≤ 255) (l3 : v3 ≤ 255) (l4 : v4 ≤ 255) :
    IpToBytes s = ([toByte v1, toByte v2, toByte v3, toByte v4], none) := by
  have hloop := IpToBytes_loop_four s [g1, g2, g3, g4] [v1, v2, v3, v4] []
    (by simp [h1, h2, h3, h4]) (by simp [l1, l2, l3, l4])
  simp only [IpToBytes, stringsSplit, hs, List.length_cons, List.length_nil]
  simpa using hloop

/-- What `IpToBytes` returns on a text without a dot that splits at the colons
into eight groups that parse in base 16 to values of at most 65535: the two
big-endian bytes of each group. -/
theorem IpToBytes_eight_groups (s : GoString) (groups : List GoString) (vals : List Nat)
    (hdot : (s.splitOn (toByte 46)).length = 1)
    (hs : s.splitOn (toByte 58) = groups) (hlen : groups.length = 8)
    (hp : groups.map (fun g => ParseUint g 16) = vals.map some)
    (hv : ∀ v ∈ vals, v ≤ 65535) :
    IpToBytes s = ((vals.map binaryWriteUint16).flatten, none) := by
  have hloop := IpToBytes_loop_eight s groups vals [] hp hv
  simp only [IpToBytes, stringsSplit, hdot, hs, hlen, if_true]
  simpa using hloop

/-- A decimal group in 0..255 without leading zeros has at most 3 digits. -/
theorem canonicalGroup_short (g : GoString) (hg : canonicalGroup g = true) : g.length ≤ 3 := by
  have hmono : ∀ (l : GoString) (acc : Nat),
      acc ≤ l.foldl (fun acc b => acc * 10 + (b.val - 48)) acc := by
    intro l
    induction l with
    | nil => intro acc; exact Nat.le_refl _
    | cons b l ih =>
      intro acc
      simp only [List.foldl_cons]
      exact Nat.le_trans (by omega) (ih _)
  match g, hg with
  | [], _ => simp
  | [_], _ => simp
  | [_, _], _ => simp
  | [_, _, _], _ => simp
  | a :: b :: c :: d :: rest, hg =>
    exfalso
    simp only [canonicalGroup, decimalGroup, decimalValue, Bool.and_eq_true, Bool.not_eq_true',
      List.all_cons, decide_eq_true_eq, List.foldl_cons, isDigitByte, List.length_cons,
      List.head?_cons, Bool.or_eq_true, beq_iff_eq, bne_iff_ne, ne_eq, Option.some.injEq]
      at hg
    obtain ⟨⟨⟨_, ⟨ha1, _⟩, _⟩, hv⟩, h0⟩ := hg
    have ha : a.val ≠ 48 := by
      rcases h0 with h0 | h0
      · omega
      · intro e
        apply h0
        apply Fin.ext
        simpa [toByte] using e
    have := hmono rest ((((0 * 10 + (a.val - 48)) * 10 + (b.val - 48)) * 10 + (c.val - 48)) * 10
      + (d.val - 48))
    omega

/-- An ASCII digit is the byte `48 + i` for a digit `i`. -/
theorem digitByte_eq (a : Byte) (h : isDigitByte a = true) :
    ∃ i : Fin 10, a = toByte (48 + i.val) := by
  have hb : 48 ≤ a.val ∧ a.val ≤ 57 := by simpa [isDigitByte] using h
  refine ⟨⟨a.val - 48, by omega⟩, ?_⟩
  apply Fin.ext
  simp only [toByte]
  omega

/-- A decimal group in 0..255 without leading zeros is the text that
`strconv.Itoa` writes for its value. -/
theorem canonicalGroup_itoa (g : GoString) (hg : canonicalGroup g = true) :
    itoa (decimalValue g) = g := by
  have h1 : ∀ i : Fin 10, canonicalGroup [toByte (48 + i.val)] = true →
      itoa (decimalValue [toByte (48 + i.val)]) = [toByte (48 + i.val)] := by decide!
  have h2 : ∀ i j : Fin 10,
      canonicalGroup [toByte (48 + i.val), toByte (48 + j.val)] = true →
      itoa (decimalValue [toByte (48 + i.val), toByte (48 + j.val)])
        = [toByte (48 + i.val), toByte (48 + j.val)] := by decide!
  have h3 : ∀ i j k : Fin 10,
      canonicalGroup [toByte (48 + i.val), toByte (48 + j.val), toByte (48 + k.val)] = true →
      itoa (decimalValue [toByte (48 + i.val), toByte (48 + j.val), toByte (48 + k.val)])
        = [toByte (48 + i.val), toByte (48 + j.val), toByte (48 + k.val)] := by decide!
  have hshort := canonicalGroup_short g hg
  have hall : g.all isDigitByte = true := by
    simp only [canonicalGroup, decimalGroup, Bool.and_eq_true] at hg
    exact hg.1.1.2
  match g, hg, hshort, hall with
  | [], hg, _, _ => simp [canonicalGroup, decimalGroup] at hg
  | [a], hg, _, hall =>
    simp only [List.all_cons, List.all_nil, Bool.and_true] at hall
    obtain ⟨i, rfl⟩ := digitByte_eq a hall
    exact h1 i hg
  | [a, b], hg, _, hall =>
    simp only [List.all_cons, List.all_nil, Bool.and_true, Bool.and_eq_true] at hall
    obtain ⟨i, rfl⟩ := digitByte_eq a hall.1
    obtain ⟨j, rfl⟩ := digitByte_eq b hall.2
    exact h2 i j hg
  | [a, b, c], hg, _, hall =>
    simp only [List.all_cons, List.all_nil, Bool.and_true, Bool.and_eq_true] at hall
    obtain ⟨i, rfl⟩ := digitByte_eq a hall.1
    obtain ⟨j, rfl⟩ := digitByte_eq b hall.2.1
    obtain ⟨k, rfl⟩ := digitByte_eq c hall.2.2
    exact h3 i j k hg
  | _ :: _ :: _ :: _ :: _, _, hshort, _ => simp at hshort

/-- A text that splits into 4 groups, with the groups named. -/
theorem splitOn_four (s : GoString) (sep : Byte) (h : (s.splitOn sep).length = 4) :
    ∃ g1 g2 g3 g4, s.splitOn sep = [g1, g2, g3, g4] := by
  match hl : s.splitOn sep, h with
  | [g1, g2, g3, g4], _ => exact ⟨g1, g2, g3, g4, rfl⟩

/-- The conversion to a byte keeps a value of at most 255. -/
theorem toByte_val_lt (v : Nat) (h : v ≤ 255) : (toByte v).val = v := by
  simp only [toByte]
  omega

/-- On a canonical IPv4 text `IpToBytes` returns four bytes without error, and
`BytesToIp` on these bytes returns the text. -/
theorem IpToBytes_canonical (T : GoString) (h : canonicalIPv4 T = true) :
    ∃ a b c d : Byte, IpToBytes T = ([a, b, c, d], none) ∧ BytesToIp [a, b, c, d] = (T, none) := by
  simp only [canonicalIPv4, Bool.and_eq_true, beq_iff_eq] at h
  obtain ⟨hlen, hall⟩ := h
  obtain ⟨g1, g2, g3, g4, hs⟩ := splitOn_four T _ hlen
  rw [hs] at hall
  simp only [List.all_cons, List.all_nil, Bool.and_true, Bool.and_eq_true] at hall
  obtain ⟨c1, c2, c3, c4⟩ := hall
  have d1 : decimalGroup g1 = true := by
    simp only [canonicalGroup, Bool.and_eq_true] at c1; exact c1.1
  have d2 : decimalGroup g2 = true := by
    simp only [canonicalGroup, Bool.and_eq_true] at c2; exact c2.1
  have d3 : decimalGroup g3 = true := by
    simp only [canonicalGroup, Bool.and_eq_true] at c3; exact c3.1
  have d4 : decimalGroup g4 = true := by
    simp only [canonicalGroup, Bool.and_eq_true] at c4; exact c4.1
  have p1 := ParseUint_decimalGroup g1 d1
  have p2 := ParseUint_decimalGroup g2 d2
  have p3 := ParseUint_decimalGroup g3 d3
  have p4 := ParseUint_decimalGroup g4 d4
  refine ⟨toByte (decimalValue g1), toByte (decimalValue g2), toByte (decimalValue g3),
    toByte (decimalValue g4),
    IpToBytes_four_groups T g1 g2 g3 g4 _ _ _ _ hs p1.1 p2.1 p3.1 p4.1 p1.2 p2.2 p3.2 p4.2, ?_⟩
  have hT : T = [toByte 46].intercalate [g1, g2, g3, g4] := by
    rw [← hs]
    exact (List.intercalate_splitOn T (toByte 46)).symm
  rw [BytesToIp_four, toByte_val_lt _ p1.2, toByte_val_lt _ p2.2, toByte_val_lt _ p3.2,
    toByte_val_lt _ p4.2, canonicalGroup_itoa g1 c1, canonicalGroup_itoa g2 c2,
    canonicalGroup_itoa g3 c3, canonicalGroup_itoa g4 c4, hT]
  rfl

/-- C27: for every canonical IPv4 text `T` (four dot-separated decimal groups,
each in 0..255 and written without leading zeros), `IpToBytes T` returns no
error and 4 bytes, and `BytesToIp` on these bytes returns `T` without error. -/
theorem IpToBytes_then_BytesToIp_canonical (T : GoString) (h : canonicalIPv4 T = true) :
    (IpToBytes T).2 = none ∧ (IpToBytes T).1.length = 4 ∧
      BytesToIp (IpToBytes T).1 = (T, none) := by
  obtain ⟨a, b, c, d, h1, h2⟩ := IpToBytes_canonical T h
  rw [h1]
  exact ⟨rfl, rfl, h2⟩

/-- C27, at the text 192.168.0.1: it is canonical, `IpToBytes` returns the
bytes 192, 168, 0, 1 and `BytesToIp` on the result returns the text. -/
theorem IpToBytes_then_BytesToIp_canonical_witness :
    canonicalIPv4 (ascii "192.168.0.1") = true ∧
      IpToBytes (ascii "192.168.0.1") = ([192, 168, 0, 1], none) ∧
      BytesToIp [192, 168, 0, 1] = (ascii "192.168.0.1", none) ∧
      ((IpToBytes (ascii "192.168.0.1")).2 = none ∧
        (IpToBytes (ascii "192.168.0.1")).1.length = 4 ∧
        BytesToIp (IpToBytes (ascii "192.168.0.1")).1 = (ascii "192.168.0.1", none)) :=
  ⟨by decide!, by decide!, by decide!,
    IpToBytes_then_BytesToIp_canonical (ascii "192.168.0.1") (by decide!)⟩

/-- A text that does not contain the separator splits into itself alone. -/
theorem splitOn_not_mem (s : GoString) (sep : Byte) (h : sep ∉ s) : s.splitOn sep = [s] := by
  have := List.splitOn_intercalate [s] sep (by simpa using h) (by simp)
  simpa [List.intercalate] using this

/-- The conversion to a byte keeps the value of a byte. -/
theorem toByte_val (b : Byte) : toByte b.val = b := by
  apply Fin.ext
  simp only [toByte]
  omega

/-- On the dotted decimal text of four bytes `IpToBytes` returns the bytes. -/
theorem IpToBytes_join_itoa (a b c d : Byte) :
    IpToBytes (stringsJoin [itoa a.val, itoa b.val, itoa c.val, itoa d.val] (ascii "."))
      = ([a, b, c, d], none) := by
  have hn : ∀ x : Byte, toByte 46 ∉ itoa x.val := by
    intro x hmem
    have := (itoa_props x.val (by omega)).2.2 _ hmem
    exact absurd this (by decide)
  have hs : (stringsJoin [itoa a.val, itoa b.val, itoa c.val, itoa d.val]
      (ascii ".")).splitOn (toByte 46) = [itoa a.val, itoa b.val, itoa c.val, itoa d.val] :=
    List.splitOn_intercalate _ (toByte 46) (by
      intro g hg
      simp only [List.mem_cons, List.mem_singleton, List.not_mem_nil, or_false] at hg
      rcases hg with rfl | rfl | rfl | rfl <;> exact hn _) (by simp)
  have := IpToBytes_four_groups _ _ _ _ _ a.val b.val c.val d.val hs
    (ParseUint_itoa _ (by omega)) (ParseUint_itoa _ (by omega)) (ParseUint_itoa _ (by omega))
    (ParseUint_itoa _ (by omega)) (by omega) (by omega) (by omega) (by omega)
  simpa [toByte_val] using this

/-- The two bytes that `binary.Write` appends for the big-endian value of two
bytes are these bytes. -/
theorem binaryWriteUint16_pair (b0 b1 : Byte) :
    binaryWriteUint16 (b0.val * 256 + b1.val) = [b0, b1] := by
  simp only [binaryWriteUint16, toByte, List.cons.injEq, and_true]
  constructor <;> apply Fin.ext <;> simp only <;> omega

/-- A byte of a joined text is a byte of the separator or of one of the
groups. -/
theorem mem_intercalate (sep : GoString) :
    ∀ (groups : List GoString) (b : Byte), b ∈ sep.intercalate groups →
      b ∈ sep ∨ ∃ g ∈ groups, b ∈ g
  | [], b, h => by simp [List.intercalate] at h
  | [g], b, h => by
    simp only [List.intercalate, List.intersperse, List.flatten_cons, List.flatten_nil,
      List.append_nil] at h
    exact Or.inr ⟨g, by simp, h⟩
  | g :: g2 :: rest, b, h => by
    simp only [List.intercalate, List.intersperse, List.flatten_cons, List.mem_append] at h
    rcases h with h | h | h
    · exact Or.inr ⟨g, by simp, h⟩
    · exact Or.inl h
    · rcases mem_intercalate sep (g2 :: rest) b h with h | ⟨g3, hg3, hb⟩
      · exact Or.inl h
      · exact Or.inr ⟨g3, List.mem_cons_of_mem _ hg3, hb⟩

/-- On the colon-separated text of eight groups `%04x`, each the big-endian
value of two bytes, `IpToBytes` returns the sixteen bytes. -/
theorem IpToBytes_join_hex (b0 b1 b2 b3 b4 b5 b6 b7 b8 b9 b10 b11 b12 b13 b14 b15 : Byte) :
    IpToBytes (stringsJoin [fmtHex04 (b0.val * 256 + b1.val), fmtHex04 (b2.val * 256 + b3.val),
        fmtHex04 (b4.val * 256 + b5.val), fmtHex04 (b6.val * 256 + b7.val),
        fmtHex04 (b8.val * 256 + b9.val), fmtHex04 (b10.val * 256 + b11.val),
        fmtHex04 (b12.val * 256 + b13.val), fmtHex04 (b14.val * 256 + b15.val)] (ascii ":"))
      = ([b0, b1, b2, b3, b4, b5, b6, b7, b8, b9, b10, b11, b12, b13, b14, b15], none) := by
  have hx : ∀ x y : Byte, x.val * 256 + y.val < 65536 := by
    intro x y
    omega
  have hn : ∀ (x y : Byte) (sep : Byte), isHexByte sep = false →
      sep ∉ fmtHex04 (x.val * 256 + y.val) := by
    intro x y sep hsep hmem
    have := (fmtHex04_props _ (hx x y)).2 _ hmem
    rw [hsep] at this
    exact Bool.noConfusion this
  generalize hg : [fmtHex04 (b0.val * 256 + b1.val), fmtHex04 (b2.val * 256 + b3.val),
        fmtHex04 (b4.val * 256 + b5.val), fmtHex04 (b6.val * 256 + b7.val),
        fmtHex04 (b8.val * 256 + b9.val), fmtHex04 (b10.val * 256 + b11.val),
        fmtHex04 (b12.val * 256 + b13.val), fmtHex04 (b14.val * 256 + b15.val)] = groups
  have hmemg : ∀ g ∈ groups, ∃ x y : Byte, g = fmtHex04 (x.val * 256 + y.val) := by
    intro g hgm
    rw [← hg] at hgm
    simp only [List.mem_cons, List.mem_singleton, List.not_mem_nil, or_false] at hgm
    rcases hgm with rfl | rfl | rfl | rfl | rfl | rfl | rfl | rfl
    exacts [⟨_, _, rfl⟩, ⟨_, _, rfl⟩, ⟨_, _, rfl⟩, ⟨_, _, rfl⟩, ⟨_, _, rfl⟩, ⟨_, _, rfl⟩,
      ⟨_, _, rfl⟩, ⟨_, _, rfl⟩]
  have hne : groups ≠ [] := by rw [← hg]; simp
  have hlen : groups.length = 8 := by rw [← hg]; rfl
  have hcolon : (stringsJoin groups (ascii ":")).splitOn (toByte 58) = groups :=
    List.splitOn_intercalate _ (toByte 58) (by
      intro g hgm
      obtain ⟨x, y, rfl⟩ := hmemg g hgm
      exact hn x y _ (by decide)) hne
  have hdot : ((stringsJoin groups (ascii ":")).splitOn (toByte 46)).length = 1 := by
    rw [splitOn_not_mem]
    · rfl
    · intro hmem
      rcases mem_intercalate _ _ _ hmem with h | ⟨g, hgm, hb⟩
      · exact absurd h (by decide)
      · obtain ⟨x, y, rfl⟩ := hmemg g hgm
        exact hn x y _ (by decide) hb
  have hp : groups.map (fun g => ParseUint g 16)
      = ([b0.val * 256 + b1.val, b2.val * 256 + b3.val, b4.val * 256 + b5.val,
          b6.val * 256 + b7.val, b8.val * 256 + b9.val, b10.val * 256 + b11.val,
          b12.val * 256 + b13.val, b14.val * 256 + b15.val] : List Nat).map some := by
    rw [← hg]
    simp only [List.map_cons, List.map_nil, ParseUint_fmtHex04 _ (hx _ _)]
  have := IpToBytes_eight_groups _ groups _ hdot hcolon hlen hp (by
    intro v hv
    simp only [List.mem_cons, List.mem_singleton, List.not_mem_nil, or_false] at hv
    rcases hv with rfl | rfl | rfl | rfl | rfl | rfl | rfl | rfl <;>
      exact Nat.le_of_lt_succ (hx _ _))
  rw [this]
  simp [binaryWriteUint16_pair]

/-- C28: for every byte sequence `B` of length 4 or 16, `BytesToIp B` returns
no error, and `IpToBytes` on the returned text returns `B` without error. -/
theorem BytesToIp_then_IpToBytes (B : List Byte) (h : B.length = 4 ∨ B.length = 16) :
    (BytesToIp B).2 = none ∧ IpToBytes (BytesToIp B).1 = (B, none) := by
  rcases h with h | h
  · match B, h with
    | [a, b, c, d], _ =>
      rw [BytesToIp_four]
      exact ⟨rfl, IpToBytes_join_itoa a b c d⟩
  · match B, h with
    | [b0, b1, b2, b3, b4, b5, b6, b7, b8, b9, b10, b11, b12, b13, b14, b15], _ =>
      rw [BytesToIp_sixteen]
      exact ⟨rfl, IpToBytes_join_hex b0 b1 b2 b3 b4 b5 b6 b7 b8 b9 b10 b11 b12 b13 b14 b15⟩

/-- C28, at the 4 bytes AA BB CC DD, whose text is 170.187.204.221. -/
theorem BytesToIp_then_IpToBytes_witness :
    ([0xAA, 0xBB, 0xCC, 0xDD] : List Byte).length = 4 ∧
      BytesToIp [0xAA, 0xBB, 0xCC, 0xDD] = (ascii "170.187.204.221", none) ∧
      ((BytesToIp [0xAA, 0xBB, 0xCC, 0xDD]).2 = none ∧
        IpToBytes (BytesToIp [0xAA, 0xBB, 0xCC, 0xDD]).1 = ([0xAA, 0xBB, 0xCC, 0xDD], none)) :=
  ⟨rfl, by decide!, BytesToIp_then_IpToBytes [0xAA, 0xBB, 0xCC, 0xDD] (Or.inl rfl)⟩

/-- C28 for 16 bytes, at 00 11 22 33 44 55 66 77 88 99 AA BB CC DD EE FF, whose
text is 0011:2233:4455:6677:8899:aabb:ccdd:eeff. -/
theorem BytesToIp_then_IpToBytes_sixteen_example :
    BytesToIp [0x00, 0x11, 0x22, 0x33, 0x44, 0x55, 0x66, 0x77, 0x88, 0x99, 0xAA, 0xBB, 0xCC,
        0xDD, 0xEE, 0xFF] = (ascii "0011:2233:4455:6677:8899:aabb:ccdd:eeff", none) ∧
      IpToBytes (ascii "0011:2233:4455:6677:8899:aabb:ccdd:eeff")
        = ([0x00, 0x11, 0x22, 0x33, 0x44, 0x55, 0x66, 0x77, 0x88, 0x99, 0xAA, 0xBB, 0xCC,
            0xDD, 0xEE, 0xFF], none) := by
  constructor <;> decide!

/-- A text on which the digits loop of `ParseUint` in base 10 succeeds is made
of ASCII digits. -/
theorem parseDigits_decimal_inv (g : GoString) :
    ∀ acc v, parseDigits 10 acc g = some v → g.all isDigitByte = true := by
  induction g with
  | nil => intro acc v _; rfl
  | cons b g ih =>
    intro acc v h
    simp only [parseDigits, digitValue] at h
    have hb : 48 ≤ b.val ∧ b.val ≤ 57 := by
      by_contra hn
      rw [if_neg hn] at h
      split_ifs at h <;> simp at h
    rw [if_pos hb] at h
    simp only at h
    rw [if_neg (by omega)] at h
    simp only [List.all_cons, Bool.and_eq_true]
    exact ⟨by simpa [isDigitByte] using hb, ih _ _ h⟩

/-- A text on which the digits loop of `ParseUint` in base 16 succeeds is made
of hexadecimal digits. -/
theorem parseDigits_hex_inv (g : GoString) :
    ∀ acc v, parseDigits 16 acc g = some v → g.all isHexByte = true := by
  induction g with
  | nil => intro acc v _; rfl
  | cons b g ih =>
    intro acc v h
    simp only [parseDigits] at h
    cases hd : digitValue b with
    | none => rw [hd] at h; simp at h
    | some d =>
      rw [hd] at h
      simp only at h
      by_cases hlt : d ≥ 16
      · rw [if_pos hlt] at h; simp at h
      · rw [if_neg hlt] at h
        have hb : isHexByte b = true := by
          simp only [digitValue] at hd
          simp only [isHexByte, isDigitByte, Bool.or_eq_true, Bool.and_eq_true,
            decide_eq_true_eq]
          split_ifs at hd <;> simp at hd <;> omega
        simp only [List.all_cons, Bool.and_eq_true]
        exact ⟨hb, ih _ _ h⟩

/-- The decimal groups in 0..255 are the texts that `ParseUint` in base 10
reads as a value of at most 255. -/
theorem decimalGroup_iff (g : GoString) :
    decimalGroup g = true ↔ ∃ v, ParseUint g 10 = some v ∧ v ≤ 255 := by
  constructor
  · intro h
    exact ⟨_, ParseUint_decimalGroup g h⟩
  · rintro ⟨v, hp, hv⟩
    simp only [ParseUint] at hp
    by_cases hne : g = []
    · rw [if_pos hne] at hp; simp at hp
    · rw [if_neg hne] at hp
      cases hd : parseDigits 10 0 g with
      | none => rw [hd] at hp; simp at hp
      | some n =>
        have hall := parseDigits_decimal_inv g 0 n hd
        have hval := parseDigits_decimal g hall 0
        rw [hd] at hp hval
        simp only [Option.some.injEq] at hval
        simp only at hp
        split_ifs at hp
        simp only [Option.some.injEq] at hp
        simp only [decimalGroup, decimalValue, Bool.and_eq_true, Bool.not_eq_true',
          List.isEmpty_eq_false, decide_eq_true_eq]
        exact ⟨⟨hne, hall⟩, by omega⟩

/-- The hexadecimal groups in 0..0xFFFF are the texts that `ParseUint` in base
16 reads as a value of at most 65535. -/
theorem hexGroup_iff (g : GoString) :
    hexGroup g = true ↔ ∃ v, ParseUint g 16 = some v ∧ v ≤ 65535 := by
  constructor
  · intro h
    exact ⟨_, ParseUint_hexGroup g h⟩
  · rintro ⟨v, hp, hv⟩
    simp only [ParseUint] at hp
    by_cases hne : g = []
    · rw [if_pos hne] at hp; simp at hp
    · rw [if_neg hne] at hp
      cases hd : parseDigits 16 0 g with
      | none => rw [hd] at hp; simp at hp
      | some n =>
        have hall := parseDigits_hex_inv g 0 n hd
        have hval := parseDigits_hex g hall 0
        rw [hd] at hp hval
        simp only [Option.some.injEq] at hval
        simp only at hp
        split_ifs at hp
        simp only [Option.some.injEq] at hp
        simp only [hexGroup, hexValue, Bool.and_eq_true, Bool.not_eq_true',
          List.isEmpty_eq_false, decide_eq_true_eq]
        exact ⟨⟨hne, hall⟩, by omega⟩

/-- The loop of `IpToBytes` in the 4-group case returns no error exactly when
every group is a decimal group in 0..255. -/
theorem IpToBytes_loop_four_iff (ip : GoString) :
    ∀ (groups : List GoString) (res : List Byte),
      (IpToBytes_loop ip 4 255 groups res).2 = none ↔ groups.all decimalGroup = true := by
  intro groups
  induction groups with
  | nil => intro res; simp [IpToBytes_loop]
  | cons g gs ih =>
    intro res
    simp only [IpToBytes_loop, if_true, List.all_cons, Bool.and_eq_true]
    cases hp : ParseUint g 10 with
    | none =>
      have : ¬ decimalGroup g = true := by
        rw [decimalGroup_iff]
        rintro ⟨v, hv, _⟩
        rw [hp] at hv
        exact Option.noConfusion hv
      simp [this]
    | some v =>
      simp only
      by_cases hv : v > 255
      · have : ¬ decimalGroup g = true := by
          rw [decimalGroup_iff]
          rintro ⟨w, hw, hle⟩
          rw [hp] at hw
          simp only [Option.some.injEq] at hw
          omega
        rw [if_pos hv]
        simp [this]
      · have : decimalGroup g = true := (decimalGroup_iff g).mpr ⟨v, hp, by omega⟩
        rw [if_neg hv, ih]
        simp [this]

/-- The loop of `IpToBytes` in the 8-group case returns no error exactly when
every group is a hexadecimal group in 0..0xFFFF. -/
theorem IpToBytes_loop_eight_iff (ip : GoString) :
    ∀ (groups : List GoString) (res : List Byte),
      (IpToBytes_loop ip 8 65535 groups res).2 = none ↔ groups.all hexGroup = true := by
  intro groups
  induction groups with
  | nil => intro res; simp [IpToBytes_loop]
  | cons g gs ih =>
    intro res
    simp only [IpToBytes_loop, List.all_cons, Bool.and_eq_true]
    rw [if_neg (by decide)]
    cases hp : ParseUint g 16 with
    | none =>
      have : ¬ hexGroup g = true := by
        rw [hexGroup_iff]
        rintro ⟨v, hv, _⟩
        rw [hp] at hv
        exact Option.noConfusion hv
      simp [this]
    | some v =>
      simp only
      by_cases hv : v > 65535
      · have : ¬ hexGroup g = true := by
          rw [hexGroup_iff]
          rintro ⟨w, hw, hle⟩
          rw [hp] at hw
          simp only [Option.some.injEq] at hw
          omega
        rw [if_pos hv]
        simp [this]
      · have : hexGroup g = true := (hexGroup_iff g).mpr ⟨v, hp, by omega⟩
        rw [if_neg hv, if_neg (by decide), ih]
        simp [this]

/-- A text whose colon-separated groups are made of bytes of a class without
the dot contains no dot: it splits at the dots into itself alone. -/
theorem no_dot_of_groups (s : GoString) (cls : Byte → Bool) (hcls : cls (toByte 46) = false)
    (h : (s.splitOn (toByte 58)).all (fun g => g.all cls) = true) :
    (s.splitOn (toByte 46)).length = 1 := by
  rw [splitOn_not_mem]
  · rfl
  · intro hmem
    rw [← List.intercalate_splitOn s (toByte 58)] at hmem
    rcases mem_intercalate _ _ _ hmem with h1 | ⟨g, hg, hb⟩
    · exact absurd h1 (by decide)
    · simp only [List.all_eq_true] at h
      have := h g hg _ hb
      rw [hcls] at this
      exact Bool.noConfusion this

/-- A text of four colon-separated decimal groups contains no dot. -/
theorem colonDecimal_no_dot (s : GoString) (h : colonDecimal s = true) :
    (s.splitOn (toByte 46)).length = 1 := by
  apply no_dot_of_groups s isDigitByte (by decide)
  simp only [colonDecimal, Bool.and_eq_true, List.all_eq_true] at h
  simp only [List.all_eq_true]
  intro g hg b hb
  have := h.2 g hg
  simp only [decimalGroup, Bool.and_eq_true, List.all_eq_true] at this
  exact this.1.2 b hb

/-- A text of eight colon-separated hexadecimal groups contains no dot. -/
theorem colonHex_no_dot (s : GoString) (h : colonHex s = true) :
    (s.splitOn (toByte 46)).length = 1 := by
  apply no_dot_of_groups s isHexByte (by decide)
  simp only [colonHex, Bool.and_eq_true, List.all_eq_true] at h
  simp only [List.all_eq_true]
  intro g hg b hb
  have := h.2 g hg
  simp only [hexGroup, Bool.and_eq_true, List.all_eq_true] at this
  exact this.1.2 b hb

/-- The part of `IpToBytes` after the split returns no error exactly when there
are 4 groups, all decimal in 0..255, or 8 groups, all hexadecimal in
0..0xFFFF. -/
theorem IpToBytes_groups_iff (ip : GoString) (data : List GoString) :
    (if 4 ≠ data.length ∧ 8 ≠ data.length then
        (([], some (.invalidIp ip)) : List Byte × Option StunError)
      else IpToBytes_loop ip data.length (if 4 = data.length then 255 else 65535) data []).2
        = none ↔
      ((data.length = 4 ∧ data.all decimalGroup = true) ∨
        (data.length = 8 ∧ data.all hexGroup = true)) := by
  by_cases h4 : data.length = 4
  · rw [if_neg (by omega), h4, if_pos rfl, IpToBytes_loop_four_iff]
    constructor
    · intro h; exact Or.inl ⟨rfl, h⟩
    · rintro (h | h)
      · exact h.2
      · exact absurd h.1 (by decide)
  · by_cases h8 : data.length = 8
    · rw [if_neg (by omega), h8, if_neg (by decide), IpToBytes_loop_eight_iff]
      constructor
      · intro h; exact Or.inr ⟨rfl, h⟩
      · rintro (h | h)
        · exact absurd h.1 (by decide)
        · exact h.2
    · rw [if_pos (by omega)]
      constructor
      · intro h; exact absurd h (by simp)
      · rintro (h | h)
        · exact absurd h.1 h4
        · exact absurd h.1 h8

/-- The texts that `IpToBytes` accepts: four decimal groups in 0..255 or eight
hexadecimal groups in 0..0xFFFF, separated by dots or, when the text has no
dot, by colons. -/
theorem IpToBytes_accepts_iff (s : GoString) :
    (IpToBytes s).2 = none ↔
      (dottedDecimal s = true ∨ colonHex s = true ∨ colonDecimal s = true ∨
        dottedHex s = true) := by
  have hcd := colonDecimal_no_dot s
  have hch := colonHex_no_dot s
  have hkey : (IpToBytes s).2 = none ↔ _ :=
    IpToBytes_groups_iff s (if 1 = (s.splitOn (toByte 46)).length then s.splitOn (toByte 58)
      else s.splitOn (toByte 46))
  rw [hkey]
  simp only [dottedDecimal, colonHex, colonDecimal, dottedHex, Bool.and_eq_true,
    beq_iff_eq] at hcd hch ⊢
  by_cases h1 : (s.splitOn (toByte 46)).length = 1
  · rw [if_pos h1.symm]
    constructor
    · rintro (h | h)
      · exact Or.inr (Or.inr (Or.inl h))
      · exact Or.inr (Or.inl h)
    · rintro (h | h | h | h)
      · omega
      · exact Or.inr h
      · exact Or.inl h
      · omega
  · rw [if_neg (fun e => h1 e.symm)]
    constructor
    · rintro (h | h)
      · exact Or.inl h
      · exact Or.inr (Or.inr (Or.inr h))
    · rintro (h | h | h | h)
      · exact Or.inl h
      · exact absurd (hch h) h1
      · exact absurd (hcd h) h1
      · exact Or.inr h

/-- On four dot-separated decimal groups in 0..255 `IpToBytes` returns the
byte of each group. -/
theorem IpToBytes_dottedDecimal (s : GoString) (h : dottedDecimal s = true) :
    IpToBytes s = ((s.splitOn (toByte 46)).map (fun g => toByte (decimalValue g)), none) := by
  simp only [dottedDecimal, Bool.and_eq_true, beq_iff_eq, List.all_eq_true] at h
  obtain ⟨hlen, hall⟩ := h
  have hloop := IpToBytes_loop_four s (s.splitOn (toByte 46))
    ((s.splitOn (toByte 46)).map decimalValue) []
    (by
      rw [List.map_map]
      apply List.map_congr_left
      intro g hg
      exact (ParseUint_decimalGroup g (hall g hg)).1)
    (by
      intro v hv
      obtain ⟨g, hg, rfl⟩ := List.mem_map.mp hv
      exact (ParseUint_decimalGroup g (hall g hg)).2)
  have e : (if 1 = (s.splitOn (toByte 46)).length then s.splitOn (toByte 58)
      else s.splitOn (toByte 46)) = s.splitOn (toByte 46) := by
    rw [hlen]
    rfl
  simp only [IpToBytes, stringsSplit]
  rw [e, hlen, if_neg (show ¬ (4 ≠ 4 ∧ 8 ≠ 4) by decide), if_pos rfl, hloop]
  simp [List.map_map, Function.comp_def]

/-- On eight colon-separated hexadecimal groups in 0..0xFFFF `IpToBytes`
returns the two big-endian bytes of each group. -/
theorem IpToBytes_colonHex (s : GoString) (h : colonHex s = true) :
    IpToBytes s
      = (((s.splitOn (toByte 58)).map (fun g => binaryWriteUint16 (hexValue g))).flatten,
          none) := by
  have hdot := colonHex_no_dot s h
  simp only [colonHex, Bool.and_eq_true, beq_iff_eq, List.all_eq_true] at h
  obtain ⟨hlen, hall⟩ := h
  have := IpToBytes_eight_groups s (s.splitOn (toByte 58))
    ((s.splitOn (toByte 58)).map hexValue) hdot rfl hlen
    (by
      rw [List.map_map]
      apply List.map_congr_left
      intro g hg
      exact (ParseUint_hexGroup g (hall g hg)).1)
    (by
      intro v hv
      obtain ⟨g, hg, rfl⟩ := List.mem_map.mp hv
      exact (ParseUint_hexGroup g (hall g hg)).2)
  rw [this, List.map_map]
  rfl

/-- C29: `IpToBytes` accepts every text of four dot-separated decimal groups in
0..255 (result: the 4 bytes) and every text of eight colon-separated
hexadecimal groups in 0..0xFFFF (result: 16 bytes, each group big-endian), and
rejects 800.168.0.1, 800.168.0.1.12 and FFFFA.2233.4455.6677.8899.AABB.CCDD.EEFF;
but it accepts other texts too. It accepts exactly the texts of 4 decimal groups
or 8 hexadecimal groups separated by dots or, without any dot, by colons: the
colon-separated text 1:2:3:4 gives the bytes 1, 2, 3, 4 and the dot-separated
text 1.2.3.4.5.6.7.8 gives 16 bytes, where the claim says both are rejected. -/
theorem IpToBytes_acceptance :
    (∀ s, dottedDecimal s = true →
      IpToBytes s = ((s.splitOn (toByte 46)).map (fun g => toByte (decimalValue g)), none)) ∧
    (∀ s, colonHex s = true →
      IpToBytes s
        = (((s.splitOn (toByte 58)).map (fun g => binaryWriteUint16 (hexValue g))).flatten,
            none)) ∧
    (∀ s, (IpToBytes s).2 = none ↔
      (dottedDecimal s = true ∨ colonHex s = true ∨ colonDecimal s = true ∨
        dottedHex s = true)) ∧
    IpToBytes (ascii "800.168.0.1") = ([], some (.invalidIp (ascii "800.168.0.1"))) ∧
    IpToBytes (ascii "800.168.0.1.12") = ([], some (.invalidIp (ascii "800.168.0.1.12"))) ∧
    IpToBytes (ascii "FFFFA.2233.4455.6677.8899.AABB.CCDD.EEFF")
      = ([], some (.invalidIp (ascii "FFFFA.2233.4455.6677.8899.AABB.CCDD.EEFF"))) ∧
    (dottedDecimal (ascii "1:2:3:4") = false ∧ colonHex (ascii "1:2:3:4") = false ∧
      IpToBytes (ascii "1:2:3:4") = ([1, 2, 3, 4], none)) ∧
    (dottedDecimal (ascii "1.2.3.4.5.6.7.8") = false ∧
      colonHex (ascii "1.2.3.4.5.6.7.8") = false ∧
      IpToBytes (ascii "1.2.3.4.5.6.7.8")
        = ([0, 1, 0, 2, 0, 3, 0, 4, 0, 5, 0, 6, 0, 7, 0, 8], none)) := by
  refine ⟨IpToBytes_dottedDecimal, IpToBytes_colonHex, IpToBytes_accepts_iff, ?_, ?_, ?_,
    ⟨?_, ?_, ?_⟩, ⟨?_, ?_, ?_⟩⟩ <;> decide!

/-- The text `%04x` is made of lowercase hexadecimal digits. -/
theorem fmtHex04_lower (x : Nat) : ∀ b ∈ fmtHex04 x, isLowerHexByte b = true := by
  have hd : ∀ d, d < 16 → isLowerHexByte (toByte (Nat.digitChar d).toNat) = true := by decide
  have hall := toDigitsCore_forall 16 (fun c => isLowerHexByte (toByte c.toNat) = true)
    (fun n => hd (n % 16) (Nat.mod_lt _ (by decide))) (x + 1) x [] (by simp)
  intro b hb
  simp only [fmtHex04, Nat.toDigits, List.mem_append, List.mem_replicate, List.mem_map] at hb
  rcases hb with ⟨_, rfl⟩ | ⟨c, hc, rfl⟩
  · decide
  · exact hall c hc

/-- The hexadecimal value of the text `%04x` of a 16-bit number is the number. -/
theorem hexValue_fmtHex04 (x : Nat) (hx : x < 65536) : hexValue (fmtHex04 x) = x := by
  have hp := ParseUint_fmtHex04 x hx
  have hall : (fmtHex04 x).all isHexByte = true := by
    simp only [List.all_eq_true]
    exact (fmtHex04_props x hx).2
  have hv := parseDigits_hex (fmtHex04 x) hall 0
  simp only [ParseUint] at hp
  split_ifs at hp
  rw [hv] at hp
  simp only at hp
  split_ifs at hp
  simpa [hexValue] using hp

/-- The inputs on which `BytesToIp` returns an error are those whose length is neither
4 nor 16. -/
theorem BytesToIp_error_iff (B : List Byte) :
    (BytesToIp B).2 ≠ none ↔ (B.length ≠ 4 ∧ B.length ≠ 16) := by
  by_cases h4 : B.length = 4
  · match B, h4 with
    | [a, b, c, d], _ => rw [BytesToIp_four]; simp
  · by_cases h16 : B.length = 16
    · match B, h16 with
      | [b0, b1, b2, b3, b4, b5, b6, b7, b8, b9, b10, b11, b12, b13, b14, b15], _ =>
        rw [BytesToIp_sixteen]; simp
    · have e4 : ¬ (4 = B.length) := fun e => h4 e.symm
      have e16 : ¬ (16 = B.length) := fun e => h16 e.symm
      simp [BytesToIp, h4, h16, e4, e16]

/-- C30: `BytesToIp B` returns an error if and only if the length of `B` is
neither 4 nor 16; for 4 bytes it returns the decimal texts of the four byte
values joined by dots, each text being the decimal writing without leading
zeros of the byte; for 16 bytes it returns eight groups joined by colons, the
group of index `i` being the text `%04x` of the big-endian value of the bytes
`2 i` and `2 i + 1`, which has exactly four lowercase hexadecimal digits whose
value is that big-endian value. -/
theorem BytesToIp_output (B : List Byte) :
    ((BytesToIp B).2 ≠ none ↔ (B.length ≠ 4 ∧ B.length ≠ 16)) ∧
    (B.length = 4 →
      BytesToIp B = (stringsJoin (B.map fun b => itoa b.val) (ascii "."), none)) ∧
    (∀ b : Byte, canonicalGroup (itoa b.val) = true ∧ decimalValue (itoa b.val) = b.val) ∧
    (B.length = 16 →
      BytesToIp B = (stringsJoin ((List.range 8).map fun i =>
        fmtHex04 ((B.getD (2 * i) 0).val * 256 + (B.getD (2 * i + 1) 0).val)) (ascii ":"),
        none)) ∧
    (∀ b1 b0 : Byte, (fmtHex04 (b1.val * 256 + b0.val)).length = 4 ∧
      (∀ c ∈ fmtHex04 (b1.val * 256 + b0.val), isLowerHexByte c = true) ∧
      hexValue (fmtHex04 (b1.val * 256 + b0.val)) = b1.val * 256 + b0.val) := by
  refine ⟨BytesToIp_error_iff B, ?_, by decide!, ?_, ?_⟩
  · intro h4
    match B, h4 with
    | [a, b, c, d], _ => rw [BytesToIp_four]; rfl
  · intro h16
    match B, h16 with
    | [b0, b1, b2, b3, b4, b5, b6, b7, b8, b9, b10, b11, b12, b13, b14, b15], _ =>
      rw [BytesToIp_sixteen]; rfl
  · intro b1 b0
    have hx : b1.val * 256 + b0.val < 65536 := by omega
    exact ⟨(fmtHex04_props _ hx).1, fmtHex04_lower _, hexValue_fmtHex04 _ hx⟩

/-- C30, at the bytes AA BB CC DD, whose text is 170.187.204.221, at the 16
bytes 00 11 .. FF, and at inputs of 3, 5 and 15 bytes, which fail. -/
theorem BytesToIp_output_witness :
    BytesToIp [0xAA, 0xBB, 0xCC, 0xDD] = (ascii "170.187.204.221", none) ∧
    BytesToIp [0x00, 0x11, 0x22, 0x33, 0x44, 0x55, 0x66, 0x77, 0x88, 0x99, 0xAA, 0xBB, 0xCC,
        0xDD, 0xEE, 0xFF] = (ascii "0011:2233:4455:6677:8899:aabb:ccdd:eeff", none) ∧
    (BytesToIp [0xAA, 0xBB, 0xCC]).2 ≠ none ∧
    (BytesToIp [0xAA, 0xBB, 0xCC, 0xDD, 0xEE]).2 ≠ none ∧
    (BytesToIp [0x00, 0x11, 0x22, 0x33, 0x44, 0x55, 0x66, 0x77, 0x88, 0x99, 0xAA, 0xBB, 0xCC,
        0xDD, 0xEE]).2 ≠ none :=
  ⟨((BytesToIp_output [0xAA, 0xBB, 0xCC, 0xDD]).2.1 rfl).trans (by decide!),
    ((BytesToIp_output [0x00, 0x11, 0x22, 0x33, 0x44, 0x55, 0x66, 0x77, 0x88, 0x99, 0xAA,
      0xBB, 0xCC, 0xDD, 0xEE, 0xFF]).2.2.2.1 rfl).trans (by decide!),
    (BytesToIp_output [0xAA, 0xBB, 0xCC]).1.mpr (by decide),
    (BytesToIp_output [0xAA, 0xBB, 0xCC, 0xDD, 0xEE]).1.mpr (by decide),
    (BytesToIp_output [0x00, 0x11, 0x22, 0x33, 0x44, 0x55, 0x66, 0x77, 0x88, 0x99, 0xAA, 0xBB,
      0xCC, 0xDD, 0xEE]).1.mpr (by decide)⟩

/-- C33: for every 16-bit `x`, `Uint16toBytesMSF x` is the two bytes `x / 256`,
`x mod 256` and `Uint16toBytesLSF x` is the two bytes `x mod 256`, `x / 256`;
each has exactly 2 bytes and one is the reverse of the other. -/
theorem Uint16toBytes_packing (x : Nat) (hx : x < 65536) :
    (Uint16toBytesMSF x).map Fin.val = [x / 256, x % 256] ∧
    (Uint16toBytesLSF x).map Fin.val = [x % 256, x / 256] ∧
    (Uint16toBytesMSF x).length = 2 ∧ (Uint16toBytesLSF x).length = 2 ∧
    Uint16toBytesLSF x = (Uint16toBytesMSF x).reverse := by
  have h : x / 256 % 256 = x / 256 := Nat.mod_eq_of_lt (by omega)
  simp [Uint16toBytesMSF, Uint16toBytesLSF, binaryWriteUint16, binaryWriteUint16LE, toByte, h]

/-- C33, at 0xFFAA: `[0xFF, 0xAA]` most significant byte first and
`[0xAA, 0xFF]` least significant byte first. -/
theorem Uint16toBytes_packing_witness :
    Uint16toBytesMSF 0xFFAA = [0xFF, 0xAA] ∧ Uint16toBytesLSF 0xFFAA = [0xAA, 0xFF] ∧
    ((Uint16toBytesMSF 0xFFAA).map Fin.val = [0xFFAA / 256, 0xFFAA % 256] ∧
      (Uint16toBytesLSF 0xFFAA).map Fin.val = [0xFFAA % 256, 0xFFAA / 256] ∧
      (Uint16toBytesMSF 0xFFAA).length = 2 ∧ (Uint16toBytesLSF 0xFFAA).length = 2 ∧
      Uint16toBytesLSF 0xFFAA = (Uint16toBytesMSF 0xFFAA).reverse) :=
  ⟨by decide, by decide, Uint16toBytes_packing 0xFFAA (by decide)⟩

/-- A text that splits into 8 groups, with the groups named. -/
theorem splitOn_eight (s : GoString) (sep : Byte) (h : (s.splitOn sep).length = 8) :
    ∃ g1 g2 g3 g4 g5 g6 g7 g8, s.splitOn sep = [g1, g2, g3, g4, g5, g6, g7, g8] := by
  match hl : s.splitOn sep, h with
  | [g1, g2, g3, g4, g5, g6, g7, g8], _ => exact ⟨g1, g2, g3, g4, g5, g6, g7, g8, rfl⟩

/-- What `textGroup` says of a group. -/
theorem textGroup_iff (cls : Byte → Bool) (m : Nat) (g : GoString) :
    textGroup cls m g = true ↔ (1 ≤ g.length ∧ g.length ≤ m ∧ ∀ b ∈ g, cls b = true) := by
  simp [textGroup, and_assoc]

/-- The pattern of four dot-separated groups of 1 to 3 digits matches exactly
the texts of IPv4 shape. -/
theorem matchGroups_ipShape4 (ip : GoString) :
    matchGroups isDigitByte 3 4 (toByte 46) ip = true ↔ ipShape4 ip := by
  constructor
  · intro h
    simp only [matchGroups, Bool.and_eq_true, beq_iff_eq, List.all_eq_true,
      decide_eq_true_eq] at h
    obtain ⟨hlen, hall⟩ := h
    obtain ⟨g1, g2, g3, g4, hs⟩ := splitOn_four ip _ hlen
    have hg : ∀ g ∈ [g1, g2, g3, g4], textGroup isDigitByte 3 g = true := by
      intro g hg
      rw [← hs] at hg
      rw [textGroup_iff]
      exact ⟨(hall g hg).1.1, (hall g hg).1.2, (hall g hg).2⟩
    refine ⟨g1, g2, g3, g4, hg g1 (by simp), hg g2 (by simp), hg g3 (by simp),
      hg g4 (by simp), ?_⟩
    have := List.intercalate_splitOn ip (toByte 46)
    rw [hs] at this
    rw [← this]
    simp [List.intercalate, ascii]
  · rintro ⟨g1, g2, g3, g4, h1, h2, h3, h4, rfl⟩
    have := matchGroups_intercalate isDigitByte 3 4 (toByte 46) [g1, g2, g3, g4] rfl (by simp)
      (by
        intro g hg
        simp only [List.mem_cons, List.mem_singleton, List.not_mem_nil, or_false] at hg
        rcases hg with rfl | rfl | rfl | rfl
        · exact (textGroup_iff _ _ _).mp h1
        · exact (textGroup_iff _ _ _).mp h2
        · exact (textGroup_iff _ _ _).mp h3
        · exact (textGroup_iff _ _ _).mp h4) (by decide)
    simpa [List.intercalate, ascii] using this

/-- The pattern of eight colon-separated groups of 1 to 4 hexadecimal digits
matches exactly the texts of IPv6 shape. -/
theorem matchGroups_ipShape6 (ip : GoString) :
    matchGroups isHexByte 4 8 (toByte 58) ip = true ↔ ipShape6 ip := by
  constructor
  · intro h
    simp only [matchGroups, Bool.and_eq_true, beq_iff_eq, List.all_eq_true,
      decide_eq_true_eq] at h
    obtain ⟨hlen, hall⟩ := h
    obtain ⟨g1, g2, g3, g4, g5, g6, g7, g8, hs⟩ := splitOn_eight ip _ hlen
    have hg : ∀ g ∈ [g1, g2, g3, g4, g5, g6, g7, g8], textGroup isHexByte 4 g = true := by
      intro g hg
      rw [← hs] at hg
      rw [textGroup_iff]
      exact ⟨(hall g hg).1.1, (hall g hg).1.2, (hall g hg).2⟩
    refine ⟨g1, g2, g3, g4, g5, g6, g7, g8, hg g1 (by simp), hg g2 (by simp), hg g3 (by simp),
      hg g4 (by simp), hg g5 (by simp), hg g6 (by simp), hg g7 (by simp), hg g8 (by simp), ?_⟩
    have := List.intercalate_splitOn ip (toByte 58)
    rw [hs] at this
    rw [← this]
    simp [List.intercalate, ascii]
  · rintro ⟨g1, g2, g3, g4, g5, g6, g7, g8, h1, h2, h3, h4, h5, h6, h7, h8, rfl⟩
    have := matchGroups_intercalate isHexByte 4 8 (toByte 58) [g1, g2, g3, g4, g5, g6, g7, g8]
      rfl (by simp)
      (by
        intro g hg
        simp only [List.mem_cons, List.mem_singleton, List.not_mem_nil, or_false] at hg
        rcases hg with rfl | rfl | rfl | rfl | rfl | rfl | rfl | rfl
        · exact (textGroup_iff _ _ _).mp h1
        · exact (textGroup_iff _ _ _).mp h2
        · exact (textGroup_iff _ _ _).mp h3
        · exact (textGroup_iff _ _ _).mp h4
        · exact (textGroup_iff _ _ _).mp h5
        · exact (textGroup_iff _ _ _).mp h6
        · exact (textGroup_iff _ _ _).mp h7
        · exact (textGroup_iff _ _ _).mp h8) (by decide)
    simpa [List.intercalate, ascii] using this

/-- A text of IPv6 shape contains no dot: it splits at the dots into itself
alone. -/
theorem ipShape6_no_dot (ip : GoString) (h : ipShape6 ip) :
    ip.splitOn (toByte 46) = [ip] := by
  apply splitOn_not_mem
  obtain ⟨g1, g2, g3, g4, g5, g6, g7, g8, h1, h2, h3, h4, h5, h6, h7, h8, rfl⟩ := h
  have hg : ∀ g : GoString, textGroup isHexByte 4 g = true → toByte 46 ∉ g := by
    intro g hg hmem
    have := ((textGroup_iff _ _ _).mp hg).2.2 _ hmem
    exact absurd this (by decide)
  have hc : toByte 46 ∉ ascii ":" := by decide
  simp only [List.mem_append, not_or]
  exact ⟨⟨⟨⟨⟨⟨⟨⟨⟨⟨⟨⟨⟨⟨hg _ h1, hc⟩, hg _ h2⟩, hc⟩, hg _ h3⟩, hc⟩, hg _ h4⟩, hc⟩, hg _ h5⟩, hc⟩,
    hg _ h6⟩, hc⟩, hg _ h7⟩, hc⟩, hg _ h8⟩

/-- C32: for every IP text of IPv4 shape `MakeTransportAddress(ip, port)` returns
`ip`, a colon and the decimal text of the port; for every IP text of IPv6 shape
it returns `ip` between brackets, a colon and the decimal text of the port; for
every other IP text it returns an error and the empty text. -/
theorem MakeTransportAddress_format (ip : GoString) (port : Int) :
    (ipShape4 ip → MakeTransportAddress ip port = (ip ++ ascii ":" ++ fmtInt port, none)) ∧
    (ipShape6 ip →
      MakeTransportAddress ip port = (ascii "[" ++ ip ++ ascii "]:" ++ fmtInt port, none)) ∧
    (¬ ipShape4 ip → ¬ ipShape6 ip →
      ∃ err, MakeTransportAddress ip port = ([], some err)) := by
  refine ⟨?_, ?_, ?_⟩
  · intro h
    have := (matchGroups_ipShape4 ip).mpr h
    simp [MakeTransportAddress, this]
  · intro h
    have h6 := (matchGroups_ipShape6 ip).mpr h
    have h4 : ¬ matchGroups isDigitByte 3 4 (toByte 46) ip = true := by
      intro hm
      simp only [matchGroups, Bool.and_eq_true, beq_iff_eq] at hm
      rw [ipShape6_no_dot ip h] at hm
      exact absurd hm.1 (by simp)
    simp [MakeTransportAddress, h4, h6]
  · intro h4 h6
    have e4 : ¬ matchGroups isDigitByte 3 4 (toByte 46) ip = true :=
      fun h => h4 ((matchGroups_ipShape4 ip).mp h)
    have e6 : ¬ matchGroups isHexByte 4 8 (toByte 58) ip = true :=
      fun h => h6 ((matchGroups_ipShape6 ip).mp h)
    exact ⟨.invalidIpAddress ip, by simp [MakeTransportAddress, e4, e6]⟩

/-- C32, at `("1.2.3.4", 123)`, at `("1:2:3:4:5:6:7:8", 123)` and at the text
`1.2.3`, which is of neither shape. -/
theorem MakeTransportAddress_format_witness :
    MakeTransportAddress (ascii "1.2.3.4") 123 = (ascii "1.2.3.4:123", none) ∧
    MakeTransportAddress (ascii "1:2:3:4:5:6:7:8") 123
      = (ascii "[1:2:3:4:5:6:7:8]:123", none) ∧
    MakeTransportAddress (ascii "1.2.3") 123
      = ([], some (.invalidIpAddress (ascii "1.2.3"))) :=
  ⟨((MakeTransportAddress_format (ascii "1.2.3.4") 123).1
      ⟨ascii "1", ascii "2", ascii "3", ascii "4", by decide, by decide, by decide, by decide,
        by decide⟩).trans (by decide),
    ((MakeTransportAddress_format (ascii "1:2:3:4:5:6:7:8") 123).2.1
      ⟨ascii "1", ascii "2", ascii "3", ascii "4", ascii "5", ascii "6", ascii "7", ascii "8",
        by decide, by decide, by decide, by decide, by decide, by decide, by decide, by decide,
        by decide⟩).trans (by decide),
    by decide⟩

/-- The decimal value of a text of at most 5 digits is below 100000. -/
theorem decimalValue_port (port : GoString) (h : textGroup isDigitByte 5 port = true) :
    decimalValue port < 100000 := by
  obtain ⟨_, hlen, hall⟩ := (textGroup_iff _ _ _).mp h
  have hd : ∀ b ∈ port, b.val - 48 ≤ 9 := by
    intro b hb
    have := hall b hb
    simp only [isDigitByte, Bool.and_eq_true, decide_eq_true_eq] at this
    omega
  match port, hlen, hd with
  | [], _, _ => simp [decimalValue]
  | [a], _, hd =>
    have := hd a (by simp)
    simp only [decimalValue, List.foldl_cons, List.foldl_nil]
    omega
  | [a, b], _, hd =>
    have := hd a (by simp)
    have := hd b (by simp)
    simp only [decimalValue, List.foldl_cons, List.foldl_nil]
    omega
  | [a, b, c], _, hd =>
    have := hd a (by simp)
    have := hd b (by simp)
    have := hd c (by simp)
    simp only [decimalValue, List.foldl_cons, List.foldl_nil]
    omega
  | [a, b, c, d], _, hd =>
    have := hd a (by simp)
    have := hd b (by simp)
    have := hd c (by simp)
    have := hd d (by simp)
    simp only [decimalValue, List.foldl_cons, List.foldl_nil]
    omega
  | [a, b, c, d, e], _, hd =>
    have := hd a (by simp)
    have := hd b (by simp)
    have := hd c (by simp)
    have := hd d (by simp)
    have := hd e (by simp)
    simp only [decimalValue, List.foldl_cons, List.foldl_nil]
    omega
  | _ :: _ :: _ :: _ :: _ :: _ :: _, hlen, _ => simp at hlen

/-- `strconv.Atoi` reads a text of 1 to 5 decimal digits as its decimal value. -/
theorem Atoi_port (port : GoString) (h : textGroup isDigitByte 5 port = true) :
    Atoi port = some (Int.ofNat (decimalValue port)) := by
  have hv := decimalValue_port port h
  obtain ⟨hpos, _, hall⟩ := (textGroup_iff _ _ _).mp h
  have hallb : port.all isDigitByte = true := by
    simp only [List.all_eq_true]
    exact hall
  have hp : ParseUint port 10 = some (decimalValue port) := by
    have hne : port ≠ [] := by
      intro e
      rw [e] at hpos
      simp at hpos
    simp only [ParseUint, hne, if_false, parseDigits_decimal port hallb 0]
    rw [if_pos (by simp only [decimalValue] at hv; omega)]
    rfl
  match port, hpos, hall, hp with
  | c :: rest, _, hall, hp =>
    have hc := hall c (by simp)
    have h43 : c ≠ toByte 43 := by
      intro e
      rw [e] at hc
      exact absurd hc (by decide)
    have h45 : c ≠ toByte 45 := by
      intro e
      rw [e] at hc
      exact absurd hc (by decide)
    simp only [Atoi, if_neg h43, if_neg h45, hp]
    rw [if_neg (by simp), if_pos (by omega)]

/-- A text of IPv4 shape contains no colon and starts with a digit. -/
theorem ipShape4_props (ip : GoString) (h : ipShape4 ip) :
    toByte 58 ∉ ip ∧ ∃ d rest, ip = d :: rest ∧ isDigitByte d = true := by
  obtain ⟨g1, g2, g3, g4, h1, h2, h3, h4, rfl⟩ := h
  have hg : ∀ g : GoString, textGroup isDigitByte 3 g = true → toByte 58 ∉ g := by
    intro g hg hmem
    have := ((textGroup_iff _ _ _).mp hg).2.2 _ hmem
    exact absurd this (by decide)
  have hc : toByte 58 ∉ ascii "." := by decide
  refine ⟨?_, ?_⟩
  · simp only [List.mem_append, not_or]
    exact ⟨⟨⟨⟨⟨⟨hg _ h1, hc⟩, hg _ h2⟩, hc⟩, hg _ h3⟩, hc⟩, hg _ h4⟩
  · obtain ⟨hpos, _, hall⟩ := (textGroup_iff _ _ _).mp h1
    match g1, hpos, hall with
    | d :: rest, _, hall =>
      exact ⟨d, _, rfl, hall d (by simp)⟩

/-- A text of IPv6 shape contains no closing bracket. -/
theorem ipShape6_no_bracket (ip : GoString) (h : ipShape6 ip) : toByte 93 ∉ ip := by
  obtain ⟨g1, g2, g3, g4, g5, g6, g7, g8, h1, h2, h3, h4, h5, h6, h7, h8, rfl⟩ := h
  have hg : ∀ g : GoString, textGroup isHexByte 4 g = true → toByte 93 ∉ g := by
    intro g hg hmem
    have := ((textGroup_iff _ _ _).mp hg).2.2 _ hmem
    exact absurd this (by decide)
  have hc : toByte 93 ∉ ascii ":" := by decide
  simp only [List.mem_append, not_or]
  exact ⟨⟨⟨⟨⟨⟨⟨⟨⟨⟨⟨⟨⟨⟨hg _ h1, hc⟩, hg _ h2⟩, hc⟩, hg _ h3⟩, hc⟩, hg _ h4⟩, hc⟩, hg _ h5⟩, hc⟩,
    hg _ h6⟩, hc⟩, hg _ h7⟩, hc⟩, hg _ h8⟩

/-- A text of digits contains neither a colon nor a closing bracket. -/
theorem port_no_separator (port : GoString) (h : textGroup isDigitByte 5 port = true) :
    toByte 58 ∉ port ∧ toByte 93 ∉ port := by
  have hall := ((textGroup_iff _ _ _).mp h).2.2
  exact ⟨fun hm => absurd (hall _ hm) (by decide), fun hm => absurd (hall _ hm) (by decide)⟩

/-- The pattern of `matchPort` matches exactly the texts of 1 to 5 digits. -/
theorem matchPort_eq (port : GoString) : matchPort port = textGroup isDigitByte 5 port := rfl

/-- The IPv4 pattern of `InetSplit` matches exactly the texts `g.g.g.g:P`, with
the IP text and the port text as groups. -/
theorem InetSplit_ipv4_iff (s ip port : GoString) :
    InetSplit_ipv4 s = some (ip, port) ↔ inetShape4 s ip port := by
  constructor
  · intro h
    unfold InetSplit_ipv4 at h
    match hs : s.splitOn (toByte 58), h with
    | [ip2, port2], h =>
      simp only at h
      by_cases hc : (matchGroups isDigitByte 3 4 (toByte 46) ip2 && matchPort port2) = true
      · rw [if_pos hc] at h
        simp only [Option.some.injEq, Prod.mk.injEq] at h
        obtain ⟨rfl, rfl⟩ := h
        simp only [Bool.and_eq_true] at hc
        refine ⟨(matchGroups_ipShape4 _).mp hc.1, hc.2, ?_⟩
        have := List.intercalate_splitOn s (toByte 58)
        rw [hs] at this
        rw [← this]
        simp [List.intercalate, ascii]
      · rw [if_neg hc] at h
        exact Option.noConfusion h
  · rintro ⟨h4, hp, rfl⟩
    have hsplit : (ip ++ ascii ":" ++ port).splitOn (toByte 58) = [ip, port] := by
      have := List.splitOn_intercalate [ip, port] (toByte 58) (by
        intro g hg
        simp only [List.mem_cons, List.mem_singleton, List.not_mem_nil, or_false] at hg
        rcases hg with rfl | rfl
        · exact (ipShape4_props _ h4).1
        · exact (port_no_separator _ hp).1) (by simp)
      simpa [List.intercalate, ascii] using this
    have hm := (matchGroups_ipShape4 ip).mpr h4
    unfold InetSplit_ipv4
    rw [hsplit]
    simp only [hm, matchPort_eq, hp, Bool.and_self, if_true]

/-- The IPv6 pattern of `InetSplit` matches exactly the texts
`[h:h:h:h:h:h:h:h]:P`, with the IP text and the port text as groups. -/
theorem InetSplit_ipv6_iff (s ip port : GoString) :
    InetSplit_ipv6 s = some (ip, port) ↔ inetShape6 s ip port := by
  constructor
  · intro h
    unfold InetSplit_ipv6 at h
    match s, h with
    | c :: rest, h =>
      simp only at h
      by_cases hc : c = toByte 91
      · rw [if_pos hc] at h
        match hs : rest.splitOn (toByte 93), h with
        | [ip2, []], h => exact Option.noConfusion h
        | [ip2, d :: port2], h =>
          simp only at h
          by_cases hcond : (d = toByte 58 && matchGroups isHexByte 4 8 (toByte 58) ip2 &&
              matchPort port2) = true
          · rw [if_pos hcond] at h
            simp only [Option.some.injEq, Prod.mk.injEq] at h
            obtain ⟨rfl, rfl⟩ := h
            simp only [Bool.and_eq_true, decide_eq_true_eq] at hcond
            refine ⟨(matchGroups_ipShape6 _).mp hcond.1.2, hcond.2, ?_⟩
            have := List.intercalate_splitOn rest (toByte 93)
            rw [hs] at this
            rw [← this, hc, hcond.1.1]
            simp [List.intercalate, ascii]
          · rw [if_neg hcond] at h
            exact Option.noConfusion h
      · rw [if_neg hc] at h
        exact Option.noConfusion h
  · rintro ⟨h6, hp, rfl⟩
    have hsplit : (ip ++ toByte 93 :: toByte 58 :: port).splitOn (toByte 93)
        = [ip, toByte 58 :: port] := by
      have := List.splitOn_intercalate [ip, toByte 58 :: port] (toByte 93) (by
        intro g hg
        simp only [List.mem_cons, List.mem_singleton, List.not_mem_nil, or_false] at hg
        rcases hg with rfl | rfl
        · exact ipShape6_no_bracket _ h6
        · intro hm
          rcases List.mem_cons.mp hm with e | e
          · exact absurd e (by decide)
          · exact (port_no_separator _ hp).2 e) (by simp)
      simpa [List.intercalate] using this
    have hm := (matchGroups_ipShape6 ip).mpr h6
    have hs : ascii "[" ++ ip ++ ascii "]:" ++ port
        = toByte 91 :: (ip ++ toByte 93 :: toByte 58 :: port) := by
      simp [ascii]
    rw [hs]
    unfold InetSplit_ipv6
    simp only [if_true]
    rw [hsplit]
    simp only [hm, matchPort_eq, hp, decide_True, Bool.and_self, if_true]

/-- On a text of the shape `[h:h:h:h:h:h:h:h]:P` the IPv4 pattern of `InetSplit`
does not match. -/
theorem InetSplit_ipv4_none (s ip port : GoString) (h : inetShape6 s ip port) :
    InetSplit_ipv4 s = none := by
  cases h4 : InetSplit_ipv4 s with
  | none => rfl
  | some r =>
    exfalso
    obtain ⟨ip2, port2⟩ := r
    obtain ⟨hip, _, hs⟩ := (InetSplit_ipv4_iff s ip2 port2).mp h4
    obtain ⟨_, d, rest, hd, hdig⟩ := ipShape4_props ip2 hip
    obtain ⟨_, _, hs6⟩ := h
    rw [hs6, hd] at hs
    simp only [ascii, List.cons_append, List.map_cons, List.cons.injEq] at hs
    have := hs.1
    rw [← this] at hdig
    exact absurd hdig (by decide)

/-- C31: `InetSplit(s)` succeeds exactly on the texts of the shape `g.g.g.g:P`
(four groups of 1 to 3 decimal digits, `P` of 1 to 5 decimal digits) or
`[h:h:h:h:h:h:h:h]:P` (eight groups of 1 to 4 hexadecimal digits): on such a
text it returns the IP text without brackets, the decimal value of `P` and no
error; on every other text it returns the empty text, -1 and an error. -/
theorem InetSplit_acceptance (s : GoString) :
    (∀ ip port, inetShape4 s ip port ∨ inetShape6 s ip port →
      InetSplit s = (ip, Int.ofNat (decimalValue port), none)) ∧
    ((¬ ∃ ip port, inetShape4 s ip port ∨ inetShape6 s ip port) →
      InetSplit s = ([], -1, some (.unknownAddressFamily s))) := by
  constructor
  · rintro ip port (h | h)
    · have h4 := (InetSplit_ipv4_iff s ip port).mpr h
      simp only [InetSplit, h4, Atoi_port port h.2.1]
    · have h4 := InetSplit_ipv4_none s ip port h
      have h6 := (InetSplit_ipv6_iff s ip port).mpr h
      simp only [InetSplit, h4, h6, Atoi_port port h.2.1]
  · intro hno
    have h4 : InetSplit_ipv4 s = none := by
      cases h : InetSplit_ipv4 s with
      | none => rfl
      | some r =>
        exact absurd ⟨r.1, r.2, Or.inl ((InetSplit_ipv4_iff s r.1 r.2).mp h)⟩ hno
    have h6 : InetSplit_ipv6 s = none := by
      cases h : InetSplit_ipv6 s with
      | none => rfl
      | some r =>
        exact absurd ⟨r.1, r.2, Or.inr ((InetSplit_ipv6_iff s r.1 r.2).mp h)⟩ hno
    simp only [InetSplit, h4, h6]

/-- C31, at `192.168.0.1:80`, which gives `192.168.0.1` and 80, at an IPv6
transport address, and at the texts `192.168.0.1.15.16:80` and
`[0011:22:4455:6677:8899:A:CCDD:E:A]:125`, which fail. -/
theorem InetSplit_acceptance_witness :
    InetSplit (ascii "192.168.0.1:80") = (ascii "192.168.0.1", 80, none) ∧
    InetSplit (ascii "[0011:22:4455:6677:8899:A:CCDD:E]:125")
      = (ascii "0011:22:4455:6677:8899:A:CCDD:E", 125, none) ∧
    InetSplit (ascii "192.168.0.1.15.16:80")
      = ([], -1, some (.unknownAddressFamily (ascii "192.168.0.1.15.16:80"))) ∧
    InetSplit (ascii "[0011:22:4455:6677:8899:A:CCDD:E:A]:125")
      = ([], -1,
          some (.unknownAddressFamily (ascii "[0011:22:4455:6677:8899:A:CCDD:E:A]:125"))) :=
  ⟨((InetSplit_acceptance (ascii "192.168.0.1:80")).1 (ascii "192.168.0.1") (ascii "80")
      (Or.inl ⟨⟨ascii "192", ascii "168", ascii "0", ascii "1", by decide, by decide,
        by decide, by decide, by decide⟩, by decide, by decide⟩)).trans (by decide),
    by decide!, by decide!, by decide!⟩

/-- C38: the claim fails on the empty value. For every type, `AttributeCreate`
returns without error an attribute for the empty value, in every mode, and on
this attribute `AttributeGetMappedAddress`, `AttributeGetChangeedAddress` and
`AttributeGetXorMappedAddress` abort with a slice-bounds run-time error
(`v.Value[0:2]` on a slice of capacity 0) instead of returning an error. The
same holds from the network: `FromBytes` accepts the 24-byte datagrams whose
only attribute is a MAPPED_ADDRESS, CHANGED_ADDRESS or XOR_MAPPED_ADDRESS of
declared length 0, and the packet queries abort on the parsed packets. -/
theorem address_accessors_abort_on_empty_value :
    (∀ (rfc : Int) (t : Nat) (spare : List Byte) (p : Option Nat) (heap : Heap),
      AttributeCreate rfc t ⟨[], spare⟩ p = (⟨t, 0, [], p⟩, none) ∧
      (⟨t, 0, [], p⟩ : StunAttribute).AttributeGetMappedAddress = .abort .sliceBounds ∧
      (⟨t, 0, [], p⟩ : StunAttribute).AttributeGetChangeedAddress = .abort .sliceBounds ∧
      (⟨t, 0, [], p⟩ : StunAttribute).AttributeGetXorMappedAddress heap
        = .abort .sliceBounds) ∧
    (FromBytes SetRfc3489 0 2 ⟨bytesEmptyValue 0x00 0x01, []⟩
        = .ret (packetEmptyValue 0x00 0x01, none) ∧
      (packetEmptyValue 0x00 0x01).GetMappedAddress = .abort .sliceBounds) ∧
    (FromBytes SetRfc3489 0 2 ⟨bytesEmptyValue 0x00 0x05, []⟩
        = .ret (packetEmptyValue 0x00 0x05, none) ∧
      (packetEmptyValue 0x00 0x05).GetChangedAddress = .abort .sliceBounds) ∧
    (FromBytes SetRfc3489 0 2 ⟨bytesEmptyValue 0x00 0x20, []⟩
        = .ret (packetEmptyValue 0x00 0x20, none) ∧
      ∀ heap : Heap,
        (packetEmptyValue 0x00 0x20).GetXorMappedAddress heap = .abort .sliceBounds) := by
  refine ⟨?_, ⟨by decide, by decide⟩, ⟨by decide, by decide⟩, ⟨by decide, fun heap => rfl⟩⟩
  intro rfc t spare p heap
  refine ⟨?_, rfl, rfl, rfl⟩
  simp [AttributeCreate, ByteSlice.len, __padding, goCopy, StunAttribute.zero]

/-- C37, counterexample: the response `packetXorPort` holds a MAPPED_ADDRESS
10.0.0.2:5000 and a decodable XOR-MAPPED-ADDRESS whose de-XORed transport
address 10.0.0.2:6000 differs from it in the port; the local transport address
is 10.0.0.2:5000, which is not the de-XORed transport address, yet `ClientTest1`
sets `identical` to true: it compared against the MAPPED_ADDRESS. -/
theorem ClientTest1_ignores_xor_port :
    packetXorPort.GetMappedAddress = .ret (true, 1, ascii "10.0.0.2", 5000, none) ∧
    packetXorPort.GetXorMappedAddress worldXorPort.heap
      = .ret (true, 1, ascii "10.0.0.2", 6000, none) ∧
    MakeTransportAddress (ascii "10.0.0.2") 6000 = (ascii "10.0.0.2:6000", none) ∧
    testLocal ≠ ascii "10.0.0.2:6000" ∧
    ClientTest1 SetRfc3489 worldXorPort testServer 0 none
      = .ret ((⟨⟨true, packetXorPort, testLocal, none⟩,
          .test1 ⟨true, 1, ascii "10.0.0.9", 3479, true⟩⟩, none), 1) := by
  refine ⟨by decide, by decide, by decide, by decide, by decide⟩

/-- C37, amended: when the request of Test I gets a response in which
`GetMappedAddress` finds an address `ipm : pm` without error and
`GetXorMappedAddress` returns `(fx, _, ipx, px, _)`, `ClientTest1` compares the
local transport address against the transport address of `ipx : px` when the
IP texts `ipm` and `ipx` differ and `fx` is true, and against that of
`ipm : pm` otherwise (also when only the ports differ): `identical` is the
equality of the two texts. -/
theorem ClientTest1_identical (rfc : Int) (w : World) (server : GoString) (n n2 : Nat)
    (dest : Option GoString) (req : requestResponse)
    (fm : Nat) (ipm : GoString) (pm : Nat)
    (fx : Bool) (famx : Nat) (ipx : GoString) (px : Nat) (ex : Option StunError)
    (cf : Bool) (cfam : Nat) (cip : GoString) (cport : Nat) (T : GoString)
    (hs : ClientSendBinding rfc w server n dest = .ret ((req, none), n2))
    (hresp : req.response = true)
    (hm : req.packet.GetMappedAddress = .ret (true, fm, ipm, pm, none))
    (hx : req.packet.GetXorMappedAddress w.heap = .ret (fx, famx, ipx, px, ex))
    (hc : req.packet.GetChangedAddress = .ret (cf, cfam, cip, cport, none))
    (hT : MakeTransportAddress (if ipm ≠ ipx ∧ fx = true then ipx else ipm)
        (Int.ofNat (if ipm ≠ ipx ∧ fx = true then px else pm)) = (T, none)) :
    ClientTest1 rfc w server n dest
      = .ret ((⟨req, .test1 ⟨cf, cfam, cip, cport, decide (req.transport_local = T)⟩⟩,
          none), n2) := by
  by_cases hcond : ipm ≠ ipx ∧ fx = true
  · simp only [if_pos hcond] at hT
    have hT2 : MakeTransportAddress ipx (px : Int) = (T, none) := hT
    simp only [ClientTest1, hs, Outcome.bind, hresp, hm, hx, hc]
    simp [hcond, hT2, test1Info.zero, testResponse.zero]
  · simp only [if_neg hcond] at hT
    have hT2 : MakeTransportAddress ipm (pm : Int) = (T, none) := hT
    simp only [ClientTest1, hs, Outcome.bind, hresp, hm, hx, hc]
    simp [hcond, hT2, test1Info.zero, testResponse.zero]

/-- C37, amended, at the response `packetXorIp`, whose de-XORed address
198.51.100.7:40000 differs in IP from the mapped address 10.0.0.2:5000: the
local address 10.0.0.2:5000 is compared against 198.51.100.7:40000. -/
theorem ClientTest1_identical_witness :
    ClientTest1 SetRfc3489 worldXorIp testServer 0 none
      = .ret ((⟨⟨true, packetXorIp, testLocal, none⟩,
          .test1 ⟨true, 1, ascii "10.0.0.9", 3479,
            decide (testLocal = ascii "198.51.100.7:40000")⟩⟩, none), 1) :=
  ClientTest1_identical SetRfc3489 worldXorIp testServer 0 1 none
    ⟨true, packetXorIp, testLocal, none⟩ 1 (ascii "10.0.0.2") 5000
    true 1 (ascii "198.51.100.7") 40000 none true 1 (ascii "10.0.0.9") 3479
    (ascii "198.51.100.7:40000") (by decide) rfl (by decide) (by decide) (by decide) (by decide)

/-- The attribute loop of `FromBytes` is the repetition of `FromBytes_step`: one
unit of fuel runs one iteration. -/
theorem FromBytes_loop_step (rfc : Int) (res_addr fuel : Nat) (in_bin : ByteSlice)
    (res : StunPacket) (pos : Nat) :
    FromBytes_loop rfc res_addr (fuel + 1) in_bin res pos
      = (FromBytes_step rfc res_addr in_bin res pos).bind fun st =>
          match st with
          | .stop r e => .ret (r, e)
          | .next b r p => FromBytes_loop rfc res_addr fuel b r p := by
  simp only [FromBytes_loop, FromBytes_step]
  split
  · rfl
  · cases in_bin.slice pos ((pos + 2) % 65536) with
    | abort q => rfl
    | outOfFuel => rfl
    | ret s1 =>
      simp only [Outcome.bind]
      cases binaryReadUint16 s1.data with
      | none => rfl
      | some vtype =>
        simp only
        cases in_bin.slice ((pos + 2) % 65536) ((pos + 4) % 65536) with
        | abort q => rfl
        | outOfFuel => rfl
        | ret s2 =>
          simp only
          cases binaryReadUint16 s2.data with
          | none => rfl
          | some length =>
            simp only
            cases in_bin.slice ((pos + 4) % 65536) ((pos + 4 + length) % 65536) with
            | abort q => rfl
            | outOfFuel => rfl
            | ret value =>
              simp only
              cases hA : AttributeCreate rfc vtype value (some res_addr) with
              | mk attr err =>
                cases err with
                | some e => rfl
                | none =>
                  simp only
                  cases res.AddAttribute rfc attr with
                  | abort q => rfl
                  | outOfFuel => rfl
                  | ret res2 =>
                    simp only
                    split
                    · split
                      · rfl
                      · rfl
                    · rfl

/-- When a slice expression returns: its bounds, the length of the result, and
the backing array of the result. -/
theorem slice_backing (s : ByteSlice) (lo hi : Nat) (v : ByteSlice)
    (h : s.slice lo hi = .ret v) :
    lo ≤ hi ∧ hi ≤ s.cap ∧ v.len = hi - lo ∧ v.backing = s.backing.drop lo := by
  unfold ByteSlice.slice at h
  by_cases hc : lo ≤ hi ∧ hi ≤ s.cap
  · rw [if_pos hc] at h
    simp only [Outcome.ret.injEq] at h
    subst h
    have hb : s.backing.length = s.cap := by simp [ByteSlice.backing, ByteSlice.cap]
    refine ⟨hc.1, hc.2, ?_, ?_⟩
    · simp only [ByteSlice.len, List.length_take, List.length_drop]
      omega
    · simp only [ByteSlice.backing]
      have e : List.drop hi (s.data ++ s.spare)
          = List.drop (hi - lo) (List.drop lo (s.data ++ s.spare)) := by
        rw [List.drop_drop]
        congr 1
        omega
      rw [e]
      exact List.take_append_drop _ _
  · rw [if_neg hc] at h
    exact Outcome.noConfusion h

/-- A value read by `binary.Read` into a `uint16` fits 16 bits. -/
theorem binaryReadUint16_lt (b : List Byte) (x : Nat) (h : binaryReadUint16 b = some x) :
    x < 65536 := by
  match b, h with
  | b0 :: b1 :: _, h =>
    simp only [binaryReadUint16, Option.some.injEq] at h
    have := b0.isLt
    have := b1.isLt
    omega

/-- An iteration of the attribute loop of `FromBytes` that completes, under
`rfc = STUN_RFC_3489` and on an input of at most 65535 bytes: it started below
the length, the offset grew by at least 4 without wrapping around and stays
within the capacity and a multiple of 4, the input slice is unchanged and
exactly one attribute was added. -/
theorem FromBytes_step_next (rfc : Int) (hrfc : rfc = STUN_RFC_3489) (res_addr : Nat)
    (in_bin : ByteSlice) (res : StunPacket) (pos : Nat) (b : ByteSlice) (r : StunPacket)
    (p : Nat) (hlen : in_bin.len ≤ 65535)
    (h : FromBytes_step rfc res_addr in_bin res pos = .ret (.next b r p)) :
    pos < in_bin.len ∧ pos + 4 ≤ p ∧ p ≤ in_bin.cap ∧ p < 65536 ∧ p % 4 = 0 ∧ b = in_bin ∧
      r.attributes.length = res.attributes.length + 1 := by
  subst hrfc
  unfold FromBytes_step at h
  have hmod : in_bin.len % 65536 = in_bin.len := Nat.mod_eq_of_lt (by omega)
  by_cases hp : pos ≥ in_bin.len % 65536
  · rw [if_pos hp] at h
    simp at h
  · rw [if_neg hp] at h
    cases h1 : in_bin.slice pos ((pos + 2) % 65536) with
    | abort q => simp [h1, Outcome.bind] at h
    | outOfFuel => simp [h1, Outcome.bind] at h
    | ret s1 =>
      simp only [h1, Outcome.bind] at h
      have k1 := slice_backing _ _ _ _ h1
      cases hv : binaryReadUint16 s1.data with
      | none => simp [hv] at h
      | some vtype =>
        simp only [hv] at h
        cases h2 : in_bin.slice ((pos + 2) % 65536) ((pos + 4) % 65536) with
        | abort q => simp [h2] at h
        | outOfFuel => simp [h2] at h
        | ret s2 =>
          simp only [h2] at h
          have k2 := slice_backing _ _ _ _ h2
          cases hl : binaryReadUint16 s2.data with
          | none => simp [hl] at h
          | some length =>
            simp only [hl] at h
            cases h3 : in_bin.slice ((pos + 4) % 65536) ((pos + 4 + length) % 65536) with
            | abort q => simp [h3] at h
            | outOfFuel => simp [h3] at h
            | ret value =>
              simp only [h3] at h
              have k3 := slice_backing _ _ _ _ h3
              have hlength : length < 65536 := binaryReadUint16_lt _ _ hl
              cases hA : AttributeCreate STUN_RFC_3489 vtype value (some res_addr) with
              | mk attr err =>
                cases err with
                | some e => simp [hA] at h
                | none =>
                  simp only [hA] at h
                  have hal : value.len % 4 = 0 := by
                    by_contra hne
                    rw [AttributeCreate_rfc0_unaligned vtype value (some res_addr) hne] at hA
                    simp at hA
                  cases hadd : res.AddAttribute STUN_RFC_3489 attr with
                  | abort q => simp [hadd] at h
                  | outOfFuel => simp [hadd] at h
                  | ret res2 =>
                    simp only [hadd, if_true] at h
                    split at h
                    · exact Outcome.noConfusion h
                    · rename_i h4
                      simp only [Outcome.ret.injEq, LoopStep.next.injEq] at h
                      obtain ⟨hb, hr, hpp⟩ := h
                      have hattr : res2.attributes.length = res.attributes.length + 1 := by
                        unfold StunPacket.AddAttribute at hadd
                        simp only [if_true] at hadd
                        split at hadd
                        · exact Outcome.noConfusion hadd
                        · simp only [Outcome.ret.injEq] at hadd
                          rw [← hadd]
                          simp
                      have hbb : b = in_bin := by
                        rw [← hb]
                        have ha : AttributeCreateAlias STUN_RFC_3489 value = value := by
                          simp [AttributeCreateAlias, __paddingAlias, hal]
                        rw [ha, k3.2.2.2, List.take_append_drop]
                        simp [ByteSlice.backing, ByteSlice.len]
                      refine ⟨by omega, by omega, by omega, by omega, by omega, hbb, ?_⟩
                      rw [← hr]
                      exact hattr

/-- A slice expression uses no fuel. -/
theorem slice_ne_outOfFuel (s : ByteSlice) (lo hi : Nat) : s.slice lo hi ≠ .outOfFuel := by
  unfold ByteSlice.slice
  split <;> exact fun h => Outcome.noConfusion h

/-- `AddAttribute` uses no fuel. -/
theorem AddAttribute_ne_outOfFuel (rfc : Int) (v : StunPacket) (a : StunAttribute) :
    v.AddAttribute rfc a ≠ .outOfFuel := by
  unfold StunPacket.AddAttribute
  simp only
  split
  · split <;> exact fun h => Outcome.noConfusion h
  · exact fun h => Outcome.noConfusion h

/-- One iteration of the attribute loop of `FromBytes` uses no fuel. -/
theorem FromBytes_step_ne_outOfFuel (rfc : Int) (res_addr : Nat) (in_bin : ByteSlice)
    (res : StunPacket) (pos : Nat) :
    FromBytes_step rfc res_addr in_bin res pos ≠ .outOfFuel := by
  intro h
  unfold FromBytes_step at h
  split at h
  · exact Outcome.noConfusion h
  · cases h1 : in_bin.slice pos ((pos + 2) % 65536) with
    | abort q => simp [h1, Outcome.bind] at h
    | outOfFuel => exact slice_ne_outOfFuel _ _ _ h1
    | ret s1 =>
      simp only [h1, Outcome.bind] at h
      cases hv : binaryReadUint16 s1.data with
      | none => simp [hv] at h
      | some vtype =>
        simp only [hv] at h
        cases h2 : in_bin.slice ((pos + 2) % 65536) ((pos + 4) % 65536) with
        | abort q => simp [h2] at h
        | outOfFuel => exact slice_ne_outOfFuel _ _ _ h2
        | ret s2 =>
          simp only [h2] at h
          cases hl : binaryReadUint16 s2.data with
          | none => simp [hl] at h
          | some length =>
            simp only [hl] at h
            cases h3 : in_bin.slice ((pos + 4) % 65536) ((pos + 4 + length) % 65536) with
            | abort q => simp [h3] at h
            | outOfFuel => exact slice_ne_outOfFuel _ _ _ h3
            | ret value =>
              simp only [h3] at h
              cases hA : AttributeCreate rfc vtype value (some res_addr) with
              | mk attr err =>
                cases err with
                | some e => simp [hA] at h
                | none =>
                  simp only [hA] at h
                  cases hadd : res.AddAttribute rfc attr with
                  | abort q => simp [hadd] at h
                  | outOfFuel => exact AddAttribute_ne_outOfFuel _ _ _ hadd
                  | ret res2 =>
                    simp only [hadd] at h
                    split at h
                    · split at h <;> exact Outcome.noConfusion h
                    · exact Outcome.noConfusion h

/-- Under `rfc = STUN_RFC_3489`, the attribute loop of `FromBytes` started at
`pos` stops within `fuel` iterations as soon as `4 * fuel` is at least
`len - pos + 4`, and more fuel does not change its result. -/
theorem FromBytes_loop_fuel (rfc : Int) (hrfc : rfc = STUN_RFC_3489) (res_addr : Nat) :
    ∀ (fuel : Nat) (in_bin : ByteSlice) (res : StunPacket) (pos : Nat),
      in_bin.len ≤ 65535 → in_bin.len - pos + 4 ≤ 4 * fuel →
      FromBytes_loop rfc res_addr fuel in_bin res pos ≠ .outOfFuel ∧
      ∀ k, FromBytes_loop rfc res_addr (fuel + k) in_bin res pos
        = FromBytes_loop rfc res_addr fuel in_bin res pos := by
  intro fuel
  induction fuel with
  | zero => intro in_bin res pos _ h; omega
  | succ fuel ih =>
    intro in_bin res pos hlen hfuel
    have hk : ∀ k, fuel + 1 + k = (fuel + k) + 1 := fun k => by omega
    cases hs : FromBytes_step rfc res_addr in_bin res pos with
    | outOfFuel => exact absurd hs (FromBytes_step_ne_outOfFuel _ _ _ _ _)
    | abort q =>
      refine ⟨?_, fun k => ?_⟩
      · rw [FromBytes_loop_step, hs]
        exact fun h => Outcome.noConfusion h
      · rw [hk, FromBytes_loop_step, FromBytes_loop_step, hs]
        rfl
    | ret st =>
      cases st with
      | stop r e =>
        refine ⟨?_, fun k => ?_⟩
        · rw [FromBytes_loop_step, hs]
          exact fun h => Outcome.noConfusion h
        · rw [hk, FromBytes_loop_step, FromBytes_loop_step, hs]
          rfl
      | next b r p =>
        obtain ⟨h1, h2, _, _, _, hb, _⟩ :=
          FromBytes_step_next rfc hrfc res_addr in_bin res pos b r p hlen hs
        subst hb
        have := ih b r p hlen (by omega)
        refine ⟨?_, fun k => ?_⟩
        · rw [FromBytes_loop_step, hs]
          exact this.1
        · rw [hk, FromBytes_loop_step, FromBytes_loop_step, hs]
          exact this.2 k

/-- Under `rfc = STUN_RFC_3489`, `FromBytes` returns or aborts within `fuel`
iterations of its loop as soon as `4 * fuel` is at least `len - 20 + 4`, and
more fuel does not change its result. -/
theorem FromBytes_fuel (rfc : Int) (hrfc : rfc = STUN_RFC_3489) (res_addr fuel : Nat)
    (in_bin : ByteSlice) (hfuel : in_bin.len - 20 + 4 ≤ 4 * fuel) :
    FromBytes rfc res_addr fuel in_bin ≠ .outOfFuel ∧
    ∀ k, FromBytes rfc res_addr (fuel + k) in_bin = FromBytes rfc res_addr fuel in_bin := by
  unfold FromBytes
  simp only
  split
  · exact ⟨fun h => Outcome.noConfusion h, fun _ => rfl⟩
  · split
    · exact ⟨fun h => Outcome.noConfusion h, fun _ => rfl⟩
    · rename_i h1 h2
      cases e1 : in_bin.slice 0 2 with
      | outOfFuel => exact absurd e1 (slice_ne_outOfFuel _ _ _)
      | abort q => exact ⟨fun h => Outcome.noConfusion h, fun _ => rfl⟩
      | ret s1 =>
        simp only [Outcome.bind]
        cases binaryReadUint16 s1.data with
        | none => exact ⟨fun h => Outcome.noConfusion h, fun _ => rfl⟩
        | some stype =>
          simp only
          cases e2 : in_bin.slice 2 4 with
          | outOfFuel => exact absurd e2 (slice_ne_outOfFuel _ _ _)
          | abort q => exact ⟨fun h => Outcome.noConfusion h, fun _ => rfl⟩
          | ret s2 =>
            simp only
            cases binaryReadUint16 s2.data with
            | none => exact ⟨fun h => Outcome.noConfusion h, fun _ => rfl⟩
            | some length =>
              simp only
              cases e3 : in_bin.slice 4 8 with
              | outOfFuel => exact absurd e3 (slice_ne_outOfFuel _ _ _)
              | abort q => exact ⟨fun h => Outcome.noConfusion h, fun _ => rfl⟩
              | ret s3 =>
                simp only
                cases binaryReadUint32 s3.data with
                | none => exact ⟨fun h => Outcome.noConfusion h, fun _ => rfl⟩
                | some cookie =>
                  simp only
                  cases e4 : in_bin.slice 8 20 with
                  | outOfFuel => exact absurd e4 (slice_ne_outOfFuel _ _ _)
                  | abort q => exact ⟨fun h => Outcome.noConfusion h, fun _ => rfl⟩
                  | ret s4 =>
                    simp only
                    cases e5 : StunPacket.SetId
                        (((PacketCreate.SetType stype).SetLength length).SetCookie cookie)
                        s4.data with
                    | outOfFuel =>
                      exfalso
                      unfold StunPacket.SetId at e5
                      split at e5 <;> exact Outcome.noConfusion e5
                    | abort q => exact ⟨fun h => Outcome.noConfusion h, fun _ => rfl⟩
                    | ret res =>
                      simp only
                      exact FromBytes_loop_fuel rfc hrfc res_addr fuel in_bin res 20
                        (by omega) hfuel

/-- C39, counterexample: the 21-byte input `bytesOneExtra` with 3 spare bytes
of capacity (a slice of a larger read buffer) has `(len - 20) / 4 = 0`, yet the
attribute loop of `FromBytes` completes one iteration on it: one unit of fuel
(one iteration) is not enough, and with two the result holds one attribute. -/
theorem FromBytes_iterations_exceed_quotient :
    (bytesOneExtra.length - 20) / 4 = 0 ∧
    FromBytes SetRfc3489 0 1 ⟨bytesOneExtra, [0, 0, 0]⟩ = .outOfFuel ∧
    FromBytes SetRfc3489 0 2 ⟨bytesOneExtra, [0, 0, 0]⟩
      = .ret ({ stype := 0x0101, length := 4, cookie := STUN_MAGIC_COOKIE, id := requestId,
                attributes := [⟨0, 0, [], some 0⟩] }, none) := by
  refine ⟨by decide, by decide, by decide⟩

/-- C39, amended: `FromBytes` terminates on every input. In each iteration of
its attribute loop that completes, the 16-bit offset `pos` was below the length
and grows by at least 4 without wrapping around, the input is unchanged and one
attribute is added; so the loop stops within `(len - 20 + 3) / 4 + 1` passes of
its test, that is, after at most `(len - 20 + 3) / 4` completed iterations (the
quotient rounded up), and more fuel does not change the result. -/
theorem FromBytes_terminates (rfc : Int) (hrfc : rfc = SetRfc3489 ∨ rfc = SetRfc5389)
    (res_addr : Nat) (in_bin : ByteSlice) :
    (∀ res pos b r p, in_bin.len ≤ 65535 →
      FromBytes_step rfc res_addr in_bin res pos = .ret (.next b r p) →
      pos < in_bin.len ∧ pos + 4 ≤ p ∧ p < 65536 ∧ b = in_bin ∧
        r.attributes.length = res.attributes.length + 1) ∧
    (∀ fuel res pos, FromBytes_loop rfc res_addr (fuel + 1) in_bin res pos
      = (FromBytes_step rfc res_addr in_bin res pos).bind fun st =>
          match st with
          | .stop r e => .ret (r, e)
          | .next b r p => FromBytes_loop rfc res_addr fuel b r p) ∧
    FromBytes rfc res_addr ((in_bin.len - 20 + 3) / 4 + 1) in_bin ≠ .outOfFuel ∧
    (∀ k, FromBytes rfc res_addr ((in_bin.len - 20 + 3) / 4 + 1 + k) in_bin
      = FromBytes rfc res_addr ((in_bin.len - 20 + 3) / 4 + 1) in_bin) := by
  have h0 : rfc = STUN_RFC_3489 := by
    rcases hrfc with h | h <;> exact h
  have hf := FromBytes_fuel rfc h0 res_addr ((in_bin.len - 20 + 3) / 4 + 1) in_bin (by omega)
  refine ⟨?_, fun fuel res pos => FromBytes_loop_step rfc res_addr fuel in_bin res pos,
    hf.1, hf.2⟩
  intro res pos b r p hlen hs
  obtain ⟨h1, h2, _, h4, _, h6, h7⟩ :=
    FromBytes_step_next rfc h0 res_addr in_bin res pos b r p hlen hs
  exact ⟨h1, h2, h4, h6, h7⟩

/-- C39, amended, at the 21-byte input `bytesOneExtra` with 3 spare bytes: the
bound is `(21 - 20 + 3) / 4 + 1 = 2` and `FromBytes` returns with this fuel. -/
theorem FromBytes_terminates_witness :
    (SetRfc3489 = SetRfc3489 ∨ SetRfc3489 = SetRfc5389) ∧
    FromBytes SetRfc3489 0 (((⟨bytesOneExtra, [0, 0, 0]⟩ : ByteSlice).len - 20 + 3) / 4 + 1)
      ⟨bytesOneExtra, [0, 0, 0]⟩ ≠ .outOfFuel :=
  ⟨Or.inl rfl,
    (FromBytes_terminates SetRfc3489 (Or.inl rfl) 0 ⟨bytesOneExtra, [0, 0, 0]⟩).2.2.1⟩

/-- Reading back the big-endian encoding of a 16-bit value gives the value. -/
theorem binaryReadUint16_write (x : Nat) (h : x < 65536) :
    binaryReadUint16 (binaryWriteUint16 x) = some x := by
  simp only [binaryWriteUint16, binaryReadUint16, toByte, Option.some.injEq]
  omega

/-- The slice expression that cuts the part `mid` out of `pre ++ mid ++ post`. -/
theorem slice_at (s : ByteSlice) (pre mid post : List Byte) (lo hi : Nat)
    (hd : s.data = pre ++ mid ++ post) (hlo : lo = pre.length)
    (hhi : hi = pre.length + mid.length) :
    s.slice lo hi = .ret ⟨mid, post ++ s.spare⟩ := by
  subst hlo hhi
  unfold ByteSlice.slice
  have hc : pre.length ≤ pre.length + mid.length ∧ pre.length + mid.length ≤ s.cap := by
    simp only [ByteSlice.cap, hd, List.length_append]
    omega
  rw [if_pos hc]
  simp only [ByteSlice.backing, hd, Outcome.ret.injEq, ByteSlice.mk.injEq]
  constructor
  · simp [List.append_assoc]
  · have : pre ++ mid ++ post ++ s.spare = (pre ++ mid) ++ (post ++ s.spare) := by simp
    rw [this, ← List.length_append, List.drop_left]

/-- One iteration of the attribute loop of `FromBytes` at the wire form of an
attribute whose length is its value length, a multiple of 4: it completes, adds
the attribute (with the pointer to the packet being built) and moves the offset
to the end of the attribute. -/
theorem FromBytes_step_wire (res_addr : Nat) (pre rest spare : List Byte) (a : StunAttribute)
    (res : StunPacket) (hT : a.Typ < 65536) (hL : a.Length = a.Value.length)
    (h4 : a.Length % 4 = 0) (hpre : pre.length % 4 = 0) (hres : res.length % 4 = 0)
    (htot : pre.length + 4 + a.Value.length + rest.length ≤ 65535) :
    FromBytes_step STUN_RFC_3489 res_addr ⟨pre ++ (wireAttribute a ++ rest), spare⟩ res
        pre.length
      = .ret (.next ⟨pre ++ (wireAttribute a ++ rest), spare⟩
          { res with attributes := res.attributes ++ [{ a with Packet := some res_addr }]
                     length := (res.length + (4 + a.Value.length)) % 65536 }
          (pre.length + 4 + a.Value.length)) := by
  obtain ⟨t, l, v, pk⟩ := a
  simp only at hT hL h4 htot ⊢
  subst hL
  generalize ha : (⟨t, v.length, v, pk⟩ : StunAttribute) = a
  have hat : a.Typ = t := by rw [← ha]
  have hal : a.Length = v.length := by rw [← ha]
  have hav : a.Value = v := by rw [← ha]
  rw [← hat] at hT
  rw [← hav] at htot h4 ⊢
  have hL : a.Length = a.Value.length := by rw [hal, hav]
  have hw : wireAttribute a = binaryWriteUint16 a.Typ ++ binaryWriteUint16 a.Length ++ a.Value :=
    rfl
  have hlenw : (binaryWriteUint16 a.Typ).length = 2 := rfl
  have hlenl : (binaryWriteUint16 a.Length).length = 2 := rfl
  generalize hin : (⟨pre ++ (wireAttribute a ++ rest), spare⟩ : ByteSlice) = in_bin
  have hdata : in_bin.data = pre ++ (wireAttribute a ++ rest) := by rw [← hin]
  have hspare : in_bin.spare = spare := by rw [← hin]
  have hlen : in_bin.len = pre.length + 4 + a.Value.length + rest.length := by
    simp only [ByteSlice.len, hdata, hw, List.length_append, hlenw, hlenl]
    omega
  have s1 : in_bin.slice pre.length ((pre.length + 2) % 65536)
      = .ret ⟨binaryWriteUint16 a.Typ,
          (binaryWriteUint16 a.Length ++ a.Value ++ rest) ++ in_bin.spare⟩ :=
    slice_at in_bin pre _ _ _ _ (by rw [hdata, hw]; simp) rfl
      (by rw [hlenw]; exact Nat.mod_eq_of_lt (by omega))
  have s2 : in_bin.slice ((pre.length + 2) % 65536) ((pre.length + 4) % 65536)
      = .ret ⟨binaryWriteUint16 a.Length, (a.Value ++ rest) ++ in_bin.spare⟩ :=
    slice_at in_bin (pre ++ binaryWriteUint16 a.Typ) _ _ _ _ (by rw [hdata, hw]; simp)
      (by rw [List.length_append, hlenw]; exact Nat.mod_eq_of_lt (by omega))
      (by rw [List.length_append, hlenw, hlenl]; exact Nat.mod_eq_of_lt (by omega))
  have s3 : in_bin.slice ((pre.length + 4) % 65536) ((pre.length + 4 + a.Length) % 65536)
      = .ret ⟨a.Value, rest ++ in_bin.spare⟩ :=
    slice_at in_bin (pre ++ binaryWriteUint16 a.Typ ++ binaryWriteUint16 a.Length) _ _ _ _
      (by rw [hdata, hw]; simp)
      (by simp only [List.length_append, hlenw, hlenl]; exact Nat.mod_eq_of_lt (by omega))
      (by
        simp only [List.length_append, hlenw, hlenl]
        rw [Nat.mod_eq_of_lt (by omega)]
        omega)
  have hcreate := AttributeCreate_rfc0_ok a.Typ ⟨a.Value, rest ++ in_bin.spare⟩ (some res_addr)
    (by simp only [ByteSlice.len]; omega) (by simp only [ByteSlice.len]; omega)
  have hadd : res.AddAttribute STUN_RFC_3489 ⟨a.Typ, a.Value.length, a.Value, some res_addr⟩
      = .ret { res with
          attributes := res.attributes ++ [⟨a.Typ, a.Value.length, a.Value, some res_addr⟩]
          length := (res.length + (4 + a.Value.length)) % 65536 } := by
    have e : (res.length + (a.Value.length + 4) % 65536) % 65536
        = (res.length + (4 + a.Value.length)) % 65536 := by omega
    have e4 : ¬ (0 ≠ (res.length + (4 + a.Value.length)) % 65536 % 4) := by omega
    simp only [StunPacket.AddAttribute, if_true, e, e4, if_false]
  have hstep : ∃ b, FromBytes_step STUN_RFC_3489 res_addr in_bin res pre.length
      = .ret (.next b
          { res with attributes := res.attributes ++ [{ a with Packet := some res_addr }]
                     length := (res.length + (4 + a.Value.length)) % 65536 }
          (pre.length + 4 + a.Value.length)) := by
    unfold FromBytes_step
    rw [if_neg (by rw [Nat.mod_eq_of_lt (by omega)]; omega)]
    simp only [s1, Outcome.bind, binaryReadUint16_write a.Typ hT, s2,
      binaryReadUint16_write a.Length (by omega), s3, hcreate, ByteSlice.len, hadd, if_true]
    have hp : (pre.length + (4 + a.Length) % 65536) % 65536 = pre.length + 4 + a.Value.length := by
      omega
    rw [hp, if_neg (by omega)]
    have hsame : ({ a with Packet := some res_addr } : StunAttribute)
        = ⟨a.Typ, a.Value.length, a.Value, some res_addr⟩ := by
      rw [← hL]
    rw [hsame]
    exact ⟨_, rfl⟩
  obtain ⟨b, hb⟩ := hstep
  have := FromBytes_step_next STUN_RFC_3489 rfl res_addr in_bin res pre.length b _ _
    (by omega) hb
  rw [hb, this.2.2.2.2.2.1, hL, hat]

/-- The number of bytes of one attribute on the wire. -/
theorem wireAttribute_length (a : StunAttribute) :
    (wireAttribute a).length = 4 + a.Value.length := by
  simp [wireAttribute, binaryWriteUint16]
  omega

/-- The attribute loop of `FromBytes` on the wire form of a list of attributes
whose lengths are their value lengths, multiples of 4: with one unit of fuel
per attribute and one more it returns without error, having added the
attributes in order. -/
theorem FromBytes_loop_wire (res_addr : Nat) :
    ∀ (todo : List StunAttribute) (pre spare : List Byte) (res : StunPacket) (k : Nat),
      (∀ a ∈ todo, a.Typ < 65536 ∧ a.Length = a.Value.length ∧ a.Length % 4 = 0) →
      pre.length % 4 = 0 → res.length % 4 = 0 →
      pre.length + attributesSize todo ≤ 65535 →
      ∃ L, FromBytes_loop STUN_RFC_3489 res_addr (todo.length + 1 + k)
          ⟨pre ++ wireAttributes todo, spare⟩ res pre.length
        = .ret ({ res with
            attributes := res.attributes ++ todo.map fun a => { a with Packet := some res_addr }
            length := L }, none) ∧ L % 4 = 0 := by
  intro todo
  induction todo with
  | nil =>
    intro pre spare res k _ _ hres htot
    refine ⟨res.length, ?_, hres⟩
    simp only [attributesSize, Nat.add_zero] at htot
    have hfuel : ([] : List StunAttribute).length + 1 + k = k + 1 := by simp; omega
    rw [hfuel, FromBytes_loop_step]
    have hlen : (⟨pre ++ wireAttributes [], spare⟩ : ByteSlice).len % 65536 = pre.length := by
      simp only [ByteSlice.len, wireAttributes, List.append_nil]
      exact Nat.mod_eq_of_lt (by omega)
    simp only [FromBytes_step, hlen, ge_iff_le, Nat.le_refl, if_true, Outcome.bind,
      List.map_nil, List.append_nil]
  | cons a rest ih =>
    intro pre spare res k hall hpre hres htot
    obtain ⟨hT, hL, h4⟩ := hall a (List.mem_cons_self _ _)
    simp only [attributesSize] at htot
    have hwl := wireAttributes_length rest
    have hfuel : (a :: rest).length + 1 + k = (rest.length + 1 + k) + 1 := by
      simp only [List.length_cons]
      omega
    rw [hfuel, FromBytes_loop_step]
    have hstep := FromBytes_step_wire res_addr pre (wireAttributes rest) spare a res hT hL h4
      hpre hres (by omega)
    simp only [wireAttributes]
    rw [hstep]
    simp only [Outcome.bind]
    have hpre2 : (pre ++ wireAttribute a).length = pre.length + 4 + a.Value.length := by
      rw [List.length_append, wireAttribute_length]
      omega
    have hin : (⟨pre ++ (wireAttribute a ++ wireAttributes rest), spare⟩ : ByteSlice)
        = ⟨(pre ++ wireAttribute a) ++ wireAttributes rest, spare⟩ := by
      rw [List.append_assoc]
    rw [hin, ← hpre2]
    obtain ⟨L, hL2, hL4⟩ := ih (pre ++ wireAttribute a) spare
      { res with attributes := res.attributes ++ [{ a with Packet := some res_addr }]
                 length := (res.length + (4 + a.Value.length)) % 65536 } k
      (fun b hb => hall b (List.mem_cons_of_mem _ hb))
      (by rw [hpre2]; omega) (by simp only; omega) (by rw [hpre2]; omega)
    refine ⟨L, ?_, hL4⟩
    rw [hL2]
    simp

/-- What holds of every packet built through the API under
`rfc = STUN_RFC_3489`: the fields are in the range of their types, the id has 12
bytes, the length is a multiple of 4 and every attribute has a 16-bit type and
a semantic length equal to the length of its value, a multiple of 4. -/
theorem Built_props (rfc : Int) (hrfc : rfc = STUN_RFC_3489) (P : StunPacket)
    (h : Built rfc P) :
    P.stype < 65536 ∧ P.cookie < 2 ^ 32 ∧ P.id.length = 12 ∧ P.length % 4 = 0 ∧
    ∀ a ∈ P.attributes, a.Typ < 65536 ∧ a.Length = a.Value.length ∧ a.Length % 4 = 0 := by
  induction h with
  | create =>
    refine ⟨by decide, by decide, by decide, by decide, ?_⟩
    intro a ha
    simp [PacketCreate] at ha
  | setType v t _ ht ih => exact ⟨ht, ih.2⟩
  | setId v w id _ hid ih =>
    unfold StunPacket.SetId at hid
    by_cases h12 : 12 ≠ id.length
    · rw [if_pos h12] at hid
      exact Outcome.noConfusion hid
    · rw [if_neg h12] at hid
      simp only [Outcome.ret.injEq] at hid
      subst hid
      refine ⟨ih.1, ih.2.1, ?_, ih.2.2.2⟩
      have := ih.2.2.1
      simp only [goCopy, this, ne_eq, not_true_eq_false, if_false, List.length_append,
        List.length_take, List.length_drop]
      omega
  | setCookie v c _ hc ih => exact ⟨ih.1, hc, ih.2.2⟩
  | addAttribute v w a _ hcr hT hadd ih =>
    obtain ⟨hL, hV, h4⟩ := CreatedBy_props rfc a hcr
    have hA := h4 hrfc
    rw [AddAttribute_created rfc v a hcr ih.2.2.2.1] at hadd
    simp only [Outcome.ret.injEq] at hadd
    subst hadd
    refine ⟨ih.1, ih.2.1, ih.2.2.1, ?_, ?_⟩
    · simp only
      omega
    · intro b hb
      simp only [List.mem_append, List.mem_singleton] at hb
      rcases hb with hb | rfl
      · exact ih.2.2.2.2 b hb
      · exact ⟨hT, by omega, hA⟩

/-- Reading back the two bytes written for a number gives the number modulo
65536. -/
theorem binaryReadUint16_write_mod (x : Nat) :
    binaryReadUint16 (binaryWriteUint16 x) = some (x % 65536) := by
  simp only [binaryWriteUint16, binaryReadUint16, toByte, Option.some.injEq]
  omega

/-- `FromBytes` on the wire form of a packet whose fields are in range and whose
attributes have a semantic length equal to the length of their value, a
multiple of 4: it returns without error the type, cookie, id and attributes of
the packet, each attribute pointing to the parsed packet. -/
theorem FromBytes_wire (res_addr : Nat) (P : StunPacket) (spare : List Byte) (k : Nat)
    (hs : P.stype < 65536) (hc : P.cookie < 2 ^ 32) (hid : P.id.length = 12)
    (hl : P.length % 4 = 0)
    (hall : ∀ a ∈ P.attributes, a.Typ < 65536 ∧ a.Length = a.Value.length ∧ a.Length % 4 = 0)
    (htot : 20 + attributesSize P.attributes ≤ 65535) :
    ∃ L, FromBytes STUN_RFC_3489 res_addr (P.attributes.length + 1 + k)
        ⟨binaryWriteUint16 P.stype ++ binaryWriteUint16 P.length ++
          binaryWriteUint32 P.cookie ++ P.id ++ wireAttributes P.attributes, spare⟩
      = .ret ({ stype := P.stype, length := L, cookie := P.cookie, id := P.id,
                attributes := P.attributes.map fun a => { a with Packet := some res_addr } },
              none) := by
  generalize hhdr : binaryWriteUint16 P.stype ++ binaryWriteUint16 P.length ++
      binaryWriteUint32 P.cookie ++ P.id = hdr
  have hhl : hdr.length = 20 := by
    rw [← hhdr]
    simp [binaryWriteUint16, binaryWriteUint32, hid]
  generalize hin : (⟨hdr ++ wireAttributes P.attributes, spare⟩ : ByteSlice) = in_bin
  have hdata : in_bin.data = hdr ++ wireAttributes P.attributes := by rw [← hin]
  have hlen : in_bin.len = 20 + attributesSize P.attributes := by
    simp only [ByteSlice.len, hdata, List.length_append, hhl, wireAttributes_length]
  have s1 : in_bin.slice 0 2 = .ret ⟨binaryWriteUint16 P.stype,
      (binaryWriteUint16 P.length ++ binaryWriteUint32 P.cookie ++ P.id ++
        wireAttributes P.attributes) ++ in_bin.spare⟩ :=
    slice_at in_bin [] _ _ _ _ (by rw [hdata, ← hhdr]; simp) rfl rfl
  have s2 : in_bin.slice 2 4 = .ret ⟨binaryWriteUint16 P.length,
      (binaryWriteUint32 P.cookie ++ P.id ++ wireAttributes P.attributes) ++ in_bin.spare⟩ :=
    slice_at in_bin (binaryWriteUint16 P.stype) _ _ _ _ (by rw [hdata, ← hhdr]; simp) rfl rfl
  have s3 : in_bin.slice 4 8 = .ret ⟨binaryWriteUint32 P.cookie,
      (P.id ++ wireAttributes P.attributes) ++ in_bin.spare⟩ :=
    slice_at in_bin (binaryWriteUint16 P.stype ++ binaryWriteUint16 P.length) _ _ _ _
      (by rw [hdata, ← hhdr]; simp) rfl rfl
  have s4 : in_bin.slice 8 20 = .ret ⟨P.id, wireAttributes P.attributes ++ in_bin.spare⟩ :=
    slice_at in_bin (binaryWriteUint16 P.stype ++ binaryWriteUint16 P.length ++
      binaryWriteUint32 P.cookie) _ _ _ _ (by rw [hdata, ← hhdr]) rfl
      (by simp [binaryWriteUint16, binaryWriteUint32, hid])
  have hsetid : StunPacket.SetId
      (((PacketCreate.SetType P.stype).SetLength (P.length % 65536)).SetCookie P.cookie) P.id
      = .ret { stype := P.stype, length := P.length % 65536, cookie := P.cookie, id := P.id,
               attributes := [] } := by
    have h12 : ¬ (12 ≠ P.id.length) := by omega
    simp only [StunPacket.SetId, h12, if_false, StunPacket.SetCookie, StunPacket.SetLength,
      StunPacket.SetType, PacketCreate, List.length_replicate, ne_eq, not_true_eq_false,
      goCopy, Outcome.ret.injEq, StunPacket.mk.injEq, true_and, and_true]
    rw [← hid, List.take_length]
    simp
  obtain ⟨L, hloop, _⟩ := FromBytes_loop_wire res_addr P.attributes hdr spare
    { stype := P.stype, length := P.length % 65536, cookie := P.cookie, id := P.id,
      attributes := [] } k hall (by omega) (by simp only; omega) (by omega)
  rw [hin, hhl] at hloop
  refine ⟨L, ?_⟩
  unfold FromBytes
  simp only [hlen]
  rw [if_neg (by omega), if_neg (by omega)]
  simp only [s1, Outcome.bind, binaryReadUint16_write_mod, Nat.mod_eq_of_lt hs, s2, s3,
    binaryReadUint32_write P.cookie hc, s4, hsetid, hloop]
  simp

/-- C40: for every packet `P` built with `PacketCreate`, `SetType`, `SetId`,
`SetCookie` and `AddAttribute` of attributes returned by `AttributeCreate`, and
whose `ToBytes()` returns `out`, `FromBytes(out)` returns without error (with
one unit of loop fuel per attribute and one more, whatever the spare capacity
of the slice) a packet with the same message type, cookie and transaction id
and the same number of attributes, the i-th parsed attribute having the same
`Type`, `Length` and `Value` as the i-th attribute of `P`. -/
theorem FromBytes_ToBytes_preserves (rfc : Int) (hrfc : rfc = SetRfc3489 ∨ rfc = SetRfc5389)
    (P : StunPacket) (out spare : List Byte) (res_addr k : Nat)
    (hB : Built rfc P) (hout : P.ToBytes = .ret out) :
    ∃ Q, FromBytes rfc res_addr (P.GetAttributesCount + 1 + k) ⟨out, spare⟩ = .ret (Q, none) ∧
      Q.GetType = P.GetType ∧ Q.GetCookie = P.GetCookie ∧ Q.GetId = P.GetId ∧
      Q.GetAttributesCount = P.GetAttributesCount ∧
      Q.attributes.map StunAttribute.content = P.attributes.map StunAttribute.content := by
  have h0 : rfc = STUN_RFC_3489 := by
    rcases hrfc with h | h <;> exact h
  subst h0
  obtain ⟨hs, hc, hid, hl, hall⟩ := Built_props STUN_RFC_3489 rfl P hB
  obtain ⟨hlay, _, hle⟩ := ToBytes_ret P out hout
  have htot : 20 + attributesSize P.attributes ≤ 65535 := by
    have := congrArg List.length hlay
    simp only [List.length_append, wireAttributes_length, binaryWriteUint16,
      binaryWriteUint32, List.length_cons, List.length_nil, hid] at this
    omega
  obtain ⟨L, hL⟩ := FromBytes_wire res_addr P spare k hs hc hid hl hall htot
  rw [← hlay] at hL
  refine ⟨_, hL, rfl, rfl, rfl, ?_, ?_⟩
  · simp [StunPacket.GetAttributesCount]
  · simp [StunAttribute.content, Function.comp_def]

/-- C40, at `packet4`, built by `PacketCreate()` and `AddAttribute(attr4)`, whose
`ToBytes()` is `bytes4`. -/
theorem FromBytes_ToBytes_preserves_witness :
    ∃ Q, FromBytes SetRfc3489 0 (packet4.GetAttributesCount + 1 + 0) ⟨bytes4, []⟩
        = .ret (Q, none) ∧
      Q.GetType = packet4.GetType ∧ Q.GetCookie = packet4.GetCookie ∧
      Q.GetId = packet4.GetId ∧ Q.GetAttributesCount = packet4.GetAttributesCount ∧
      Q.attributes.map StunAttribute.content = packet4.attributes.map StunAttribute.content :=
  FromBytes_ToBytes_preserves SetRfc3489 (Or.inl rfl) packet4 bytes4 [] 0 0
    (Built.addAttribute PacketCreate packet4 attr4 Built.create
      ⟨1, ⟨zero4, []⟩, none, by decide⟩ (by decide) (by decide))
    (by decide)

/-- A pass of the loop of `SendRequest` in which the request is sent and `Read`
times out: the state is updated, then the function returns when the retry
counter has reached 9 and starts the next pass otherwise. -/
theorem SendRequest_pass_timeout (rfc : Int) (res_addr : Nat) (c : NetConn)
    (req : StunPacket) (out : List Byte) (fuel : Nat) (st : SendState)
    (hout : req.ToBytes = .ret out) (hw : c.write st.sends out = (out.length, none))
    (hr : c.read st.deadlines.length = .timeout) :
    SendRequest_loop rfc res_addr c req (fuel + 1) st
      = if (st.afterPass st.rcv_packet).retries_count ≥ 9 then
          .ret ((st.rcv_packet, false, none), st.afterPass st.rcv_packet)
        else SendRequest_loop rfc res_addr c req fuel (st.afterPass st.rcv_packet) := by
  simp only [SendRequest_loop, hout, Outcome.bind, hw, ne_eq, not_true_eq_false, if_false, hr,
    SendState.afterPass]
  by_cases h : st.request_timeout < 1600
  · simp only [h, if_true]
  · simp only [h, if_false]

/-- A pass of the loop of `SendRequest` in which the request is sent and `Read`
gives a datagram that `FromBytes` rejects: the state is updated as in every
pass and the next pass starts. -/
theorem SendRequest_pass_rejected (rfc : Int) (res_addr : Nat) (c : NetConn)
    (req : StunPacket) (out : List Byte) (fuel : Nat) (st : SendState) (bytes : List Byte)
    (p : StunPacket) (e : StunError)
    (hout : req.ToBytes = .ret out) (hw : c.write st.sends out = (out.length, none))
    (hr : c.read st.deadlines.length = .datagram bytes)
    (hf : FromBytes rfc res_addr (min bytes.length 1000 + 1)
      ⟨bytes.take 1000, List.replicate (1000 - min bytes.length 1000) 0⟩ = .ret (p, some e)) :
    SendRequest_loop rfc res_addr c req (fuel + 1) st
      = SendRequest_loop rfc res_addr c req fuel (st.afterPass p) := by
  simp only [SendRequest_loop, hout, Outcome.bind, hw, ne_eq, not_true_eq_false, if_false, hr,
    hf, SendState.afterPass]
  by_cases h : st.request_timeout < 1600
  · simp only [h, if_true]
  · simp only [h, if_false]

/-- The run of `SendRequest` on a connection on which every `Write` sends all the
bytes and every `Read` times out: 12 passes are not enough, and with 13 or more
it returns after 13 sends. -/
theorem SendRequest_all_timeouts (rfc : Int) (res_addr : Nat) (c : NetConn)
    (req : StunPacket) (out : List Byte)
    (hout : req.ToBytes = .ret out) (hw : ∀ i, c.write i out = (out.length, none))
    (hr : ∀ i, c.read i = .timeout) :
    SendRequest rfc res_addr 12 c req = .outOfFuel ∧
    ∀ k, SendRequest rfc res_addr (k + 13) c req
      = .ret ((StunPacket.zero, false, none),
          ⟨StunPacket.zero, 1600, 9, 13,
            [100, 200, 400, 800, 1600, 1600, 1600, 1600, 1600, 1600, 1600, 1600, 1600]⟩) := by
  have pass : ∀ fuel st, SendRequest_loop rfc res_addr c req (fuel + 1) st
      = if (st.afterPass st.rcv_packet).retries_count ≥ 9 then
          .ret ((st.rcv_packet, false, none), st.afterPass st.rcv_packet)
        else SendRequest_loop rfc res_addr c req fuel (st.afterPass st.rcv_packet) :=
    fun fuel st => SendRequest_pass_timeout rfc res_addr c req out fuel st hout (hw _) (hr _)
  constructor
  · unfold SendRequest
    refine (pass _ _).trans ((if_neg (by decide)).trans ?_)
    refine (pass _ _).trans ((if_neg (by decide)).trans ?_)
    refine (pass _ _).trans ((if_neg (by decide)).trans ?_)
    refine (pass _ _).trans ((if_neg (by decide)).trans ?_)
    refine (pass _ _).trans ((if_neg (by decide)).trans ?_)
    refine (pass _ _).trans ((if_neg (by decide)).trans ?_)
    refine (pass _ _).trans ((if_neg (by decide)).trans ?_)
    refine (pass _ _).trans ((if_neg (by decide)).trans ?_)
    refine (pass _ _).trans ((if_neg (by decide)).trans ?_)
    refine (pass _ _).trans ((if_neg (by decide)).trans ?_)
    refine (pass _ _).trans ((if_neg (by decide)).trans ?_)
    refine (pass _ _).trans ((if_neg (by decide)).trans ?_)
    rfl
  · intro k
    unfold SendRequest
    refine (pass _ _).trans ((if_neg (by decide)).trans ?_)
    refine (pass _ _).trans ((if_neg (by decide)).trans ?_)
    refine (pass _ _).trans ((if_neg (by decide)).trans ?_)
    refine (pass _ _).trans ((if_neg (by decide)).trans ?_)
    refine (pass _ _).trans ((if_neg (by decide)).trans ?_)
    refine (pass _ _).trans ((if_neg (by decide)).trans ?_)
    refine (pass _ _).trans ((if_neg (by decide)).trans ?_)
    refine (pass _ _).trans ((if_neg (by decide)).trans ?_)
    refine (pass _ _).trans ((if_neg (by decide)).trans ?_)
    refine (pass _ _).trans ((if_neg (by decide)).trans ?_)
    refine (pass _ _).trans ((if_neg (by decide)).trans ?_)
    refine (pass _ _).trans ((if_neg (by decide)).trans ?_)
    refine (pass _ _).trans ((if_pos (by decide)).trans ?_)
    rfl

/-- C34: on a connection on which every send succeeds and every read times
out, `SendRequest` returns (zero packet, `false`, nil error) as claimed, but
after 13 sends, not 9: the retry counter only starts to count once the timeout
has reached 1600 ms, so 12 passes of the loop are not enough and the run ends
in the 13th with `retries_count = 9`. -/
theorem SendRequest_silent_sends_thirteen (rfc : Int) (res_addr : Nat) (c : NetConn)
    (req : StunPacket) (out : List Byte) (k : Nat)
    (hout : req.ToBytes = .ret out) (hw : ∀ i, c.write i out = (out.length, none))
    (hr : ∀ i, c.read i = .timeout) :
    SendRequest rfc res_addr 12 c req = .outOfFuel ∧
    ∃ st, SendRequest rfc res_addr (k + 13) c req
        = .ret ((StunPacket.zero, false, none), st) ∧
      st.sends = 13 ∧ st.retries_count = 9 := by
  obtain ⟨h12, h13⟩ := SendRequest_all_timeouts rfc res_addr c req out hout hw hr
  exact ⟨h12, _, h13 k, rfl, rfl⟩

/-- C34, at the binding request of the client on the connection `connSilent`. -/
theorem SendRequest_silent_sends_thirteen_witness :
    SendRequest SetRfc3489 0 12 connSilent requestBinding = .outOfFuel ∧
    ∃ st, SendRequest SetRfc3489 0 (0 + 13) connSilent requestBinding
        = .ret ((StunPacket.zero, false, none), st) ∧
      st.sends = 13 ∧ st.retries_count = 9 :=
  SendRequest_silent_sends_thirteen SetRfc3489 0 connSilent requestBinding
    bytesRequestBinding 0 (by decide!) (fun _ => rfl) (fun _ => rfl)

/-- The schedule of the specification, step by step: the deadline doubles while
it is below 1600 and then stays. -/
theorem specDeadline_succ (n : Nat) :
    specDeadline (n + 1)
      = if specDeadline n < 1600 then specDeadline n * 2 else specDeadline n := by
  unfold specDeadline
  have hs : 2 ^ (n + 1) = 2 ^ n * 2 := pow_succ 2 n
  rw [hs]
  by_cases h : 100 * 2 ^ n < 1600
  · have hn : n < 4 := by
      by_contra hge
      have : 2 ^ 4 ≤ 2 ^ n := Nat.pow_le_pow_right (by decide) (by omega)
      omega
    have h8 : 2 ^ n ≤ 2 ^ 3 := Nat.pow_le_pow_right (by decide) (by omega)
    simp only [Nat.min_def]
    split_ifs <;> omega
  · simp only [Nat.min_def]
    split_ifs <;> omega

/-- A pass of the loop of `SendRequest` keeps the deadlines and the timeout on
the schedule. -/
theorem onSchedule_pass (st : SendState) (h : st.onSchedule) (rcv : StunPacket) (retries : Nat) :
    SendState.onSchedule
      ⟨rcv, if st.request_timeout < 1600 then st.request_timeout * 2 else st.request_timeout,
        retries, st.sends + 1, st.deadlines ++ [st.request_timeout]⟩ := by
  obtain ⟨h1, h2⟩ := h
  constructor
  · simp only [List.length_append, List.length_singleton, List.range_succ, List.map_append,
      List.map_cons, List.map_nil]
    rw [← h1, ← h2]
  · simp only [List.length_append, List.length_singleton]
    rw [specDeadline_succ, ← h2]

/-- On every connection, when the loop of `SendRequest` returns from a state on
the schedule, the final state is on the schedule. -/
theorem SendRequest_loop_onSchedule (rfc : Int) (res_addr : Nat) (c : NetConn)
    (req : StunPacket) :
    ∀ (fuel : Nat) (st : SendState) (r : StunPacket × Bool × Option StunError)
      (st2 : SendState), st.onSchedule →
      SendRequest_loop rfc res_addr c req fuel st = .ret (r, st2) → st2.onSchedule := by
  intro fuel
  induction fuel with
  | zero =>
    intro st r st2 _ h
    exact Outcome.noConfusion h
  | succ fuel ih =>
    intro st r st2 hst h
    have hsame : ∀ rcv : StunPacket, SendState.onSchedule
        (if st.request_timeout < 1600 then
          ({ rcv_packet := rcv, request_timeout := st.request_timeout * 2,
             retries_count := st.retries_count, sends := st.sends + 1,
             deadlines := st.deadlines ++ [st.request_timeout] } : SendState)
        else
          { rcv_packet := rcv, request_timeout := st.request_timeout,
            retries_count := st.retries_count + 1, sends := st.sends + 1,
            deadlines := st.deadlines ++ [st.request_timeout] }) := by
      intro rcv
      by_cases ht : st.request_timeout < 1600
      · rw [if_pos ht]
        have := onSchedule_pass st hst rcv st.retries_count
        rwa [if_pos ht] at this
      · rw [if_neg ht]
        have := onSchedule_pass st hst rcv (st.retries_count + 1)
        rwa [if_neg ht] at this
    have hnow : SendState.onSchedule { st with sends := st.sends + 1 } := hst
    simp only [SendRequest_loop] at h
    cases hout : req.ToBytes with
    | abort q => simp [hout, Outcome.bind] at h
    | outOfFuel => simp [hout, Outcome.bind] at h
    | ret out =>
      simp only [hout, Outcome.bind] at h
      cases hw : (c.write st.sends out).2 with
      | some code =>
        simp only [hw, Outcome.ret.injEq, Prod.mk.injEq] at h
        rw [← h.2]
        exact hnow
      | none =>
        simp only [hw] at h
        by_cases hcount : out.length ≠ (c.write st.sends out).1
        · rw [if_pos hcount] at h
          simp only [Outcome.ret.injEq, Prod.mk.injEq] at h
          rw [← h.2]
          exact hnow
        · rw [if_neg hcount] at h
          by_cases ht : st.request_timeout < 1600
          all_goals
            simp only [ht, if_true, if_false] at h
            have hs := hsame
            simp only [ht, if_true, if_false] at hs
            cases hr : c.read st.deadlines.length with
            | timeout =>
              simp only [hr] at h
              split at h
              · simp only [Outcome.ret.injEq, Prod.mk.injEq] at h
                rw [← h.2]
                exact hs _
              · exact ih _ r st2 (hs _) h
            | failed code =>
              simp only [hr, Outcome.ret.injEq, Prod.mk.injEq] at h
              rw [← h.2]
              exact hs _
            | notNetError => simp [hr] at h
            | datagram bytes =>
              simp only [hr] at h
              cases hf : FromBytes rfc res_addr (min bytes.length 1000 + 1)
                  ⟨bytes.take 1000, List.replicate (1000 - min bytes.length 1000) 0⟩ with
              | abort q => simp [hf] at h
              | outOfFuel => simp [hf] at h
              | ret p =>
                simp only [hf] at h
                cases he : p.2 with
                | some e =>
                  simp only [he] at h
                  exact ih _ r st2 (hs _) h
                | none =>
                  simp only [he, Outcome.ret.injEq, Prod.mk.injEq] at h
                  rw [← h.2]
                  exact hs _

/-- The deadlines of a state on the schedule, one by one. -/
theorem onSchedule_get (st : SendState) (h : st.onSchedule) (i : Nat)
    (hi : i < st.deadlines.length) : st.deadlines[i]? = some (min (100 * 2 ^ i) 1600) := by
  rw [h.1]
  simp only [List.getElem?_map, List.length_map, List.length_range]
  rw [List.getElem?_range hi]
  rfl

/-- C35: in a run of `SendRequest` in which every send succeeds and every read
times out, 13 deadlines are set and the deadline of the read of index `i`
(counted from 0, so `k = i + 1`) is `min (100 * 2 ^ i) 1600` milliseconds: 100,
200, 400, 800, 1600, 1600, ... More generally, on every connection and in every
run that returns, each deadline that was set follows this schedule. -/
theorem SendRequest_deadlines (rfc : Int) (res_addr : Nat) (c : NetConn)
    (req : StunPacket) (out : List Byte) (k : Nat)
    (hout : req.ToBytes = .ret out) (hw : ∀ i, c.write i out = (out.length, none))
    (hr : ∀ i, c.read i = .timeout) :
    (∃ r st, SendRequest rfc res_addr (k + 13) c req = .ret (r, st) ∧
      st.deadlines.length = 13 ∧
      ∀ i, i < 13 → st.deadlines[i]? = some (min (100 * 2 ^ i) 1600)) ∧
    (∀ (c2 : NetConn) (fuel : Nat) (r : StunPacket × Bool × Option StunError)
      (st : SendState), SendRequest rfc res_addr fuel c2 req = .ret (r, st) →
      ∀ i, i < st.deadlines.length → st.deadlines[i]? = some (min (100 * 2 ^ i) 1600)) := by
  have hinit : SendState.init.onSchedule := ⟨rfl, rfl⟩
  have hgen : ∀ (c2 : NetConn) (fuel : Nat) (r : StunPacket × Bool × Option StunError)
      (st : SendState), SendRequest rfc res_addr fuel c2 req = .ret (r, st) →
      ∀ i, i < st.deadlines.length → st.deadlines[i]? = some (min (100 * 2 ^ i) 1600) := by
    intro c2 fuel r st h i hi
    exact onSchedule_get st
      (SendRequest_loop_onSchedule rfc res_addr c2 req fuel _ r st hinit h) i hi
  refine ⟨?_, hgen⟩
  have h13 := (SendRequest_all_timeouts rfc res_addr c req out hout hw hr).2 k
  refine ⟨_, _, h13, rfl, ?_⟩
  intro i hi
  exact hgen c (k + 13) _ _ h13 i hi

/-- C35, at the binding request of the client on the connection `connSilent`:
the 13 deadlines of the run. -/
theorem SendRequest_deadlines_witness :
    ∃ r st, SendRequest SetRfc3489 0 (0 + 13) connSilent requestBinding = .ret (r, st) ∧
      st.deadlines
        = [100, 200, 400, 800, 1600, 1600, 1600, 1600, 1600, 1600, 1600, 1600, 1600] := by
  obtain ⟨r, st, h, hlen, hget⟩ := (SendRequest_deadlines SetRfc3489 0 connSilent
    requestBinding bytesRequestBinding 0 (by decide!) (fun _ => rfl) (fun _ => rfl)).1
  refine ⟨r, st, h, ?_⟩
  apply List.ext_getElem?
  intro i
  by_cases hi : i < 13
  · rw [hget i hi]
    interval_cases i <;> rfl
  · rw [List.getElem?_eq_none (by omega), List.getElem?_eq_none (by simp; omega)]

/-- C36, counterexample: on `connGarbageFirst` the first read gives a 3-byte
datagram, which `FromBytes` rejects, and the second read gives a valid
response; `SendRequest` returns after 2 sends, with the deadlines 100 and 200
and a timeout of 400: the rejected datagram was followed by another send and
the timeout was doubled. On `connGarbageFive` no read ever times out, yet the
retry counter ends at 2. -/
theorem SendRequest_rejected_datagram_resends :
    FromBytes SetRfc3489 0 (min ([1, 2, 3] : List Byte).length 1000 + 1)
        ⟨([1, 2, 3] : List Byte).take 1000,
          List.replicate (1000 - min ([1, 2, 3] : List Byte).length 1000) 0⟩
      = .ret (PacketCreate, some (.tooFewBytes 3)) ∧
    SendRequest SetRfc3489 0 2 connGarbageFirst requestBinding
      = .ret ((packetHeaderOnly, true, none), ⟨packetHeaderOnly, 400, 0, 2, [100, 200]⟩) ∧
    SendRequest SetRfc3489 0 6 connGarbageFive requestBinding
      = .ret ((packetHeaderOnly, true, none),
          ⟨packetHeaderOnly, 1600, 2, 6, [100, 200, 400, 800, 1600, 1600]⟩) := by
  refine ⟨by decide!, by decide!, by decide!⟩

/-- C36, amended: a pass of the loop of `SendRequest` in which the request is
sent and the read gives a datagram that `FromBytes` rejects ends like every
pass that reads: one more send and one more deadline are on record, and the
timeout was doubled (below 1600 ms) or the retry counter incremented (at
1600 ms) before the read; then the next pass starts, which sends the request
again before anything else (shown by what is returned when this send fails). -/
theorem SendRequest_rejected_datagram (rfc : Int) (res_addr : Nat) (c : NetConn)
    (req : StunPacket) (out : List Byte) (fuel : Nat) (st : SendState) (bytes : List Byte)
    (p : StunPacket) (e : StunError)
    (hout : req.ToBytes = .ret out) (hw : c.write st.sends out = (out.length, none))
    (hr : c.read st.deadlines.length = .datagram bytes)
    (hf : FromBytes rfc res_addr (min bytes.length 1000 + 1)
      ⟨bytes.take 1000, List.replicate (1000 - min bytes.length 1000) 0⟩ = .ret (p, some e)) :
    SendRequest_loop rfc res_addr c req (fuel + 1) st
      = SendRequest_loop rfc res_addr c req fuel (st.afterPass p) ∧
    (st.afterPass p).sends = st.sends + 1 ∧
    (st.afterPass p).deadlines = st.deadlines ++ [st.request_timeout] ∧
    (st.request_timeout < 1600 →
      (st.afterPass p).request_timeout = st.request_timeout * 2 ∧
      (st.afterPass p).retries_count = st.retries_count) ∧
    (¬ st.request_timeout < 1600 →
      (st.afterPass p).request_timeout = st.request_timeout ∧
      (st.afterPass p).retries_count = st.retries_count + 1) ∧
    (∀ n code, c.write (st.sends + 1) out = (n, some code) →
      SendRequest_loop rfc res_addr c req (fuel + 2) st
        = .ret ((p, false, some (.cannotSend code)),
            { st.afterPass p with sends := st.sends + 2 })) := by
  have hpass := SendRequest_pass_rejected rfc res_addr c req out fuel st bytes p e hout hw hr hf
  refine ⟨hpass, rfl, rfl, ?_, ?_, ?_⟩
  · intro h
    simp [SendState.afterPass, h]
  · intro h
    simp [SendState.afterPass, h]
  · intro n code hw2
    rw [SendRequest_pass_rejected rfc res_addr c req out (fuel + 1) st bytes p e hout hw hr hf]
    have hs : (st.afterPass p).sends = st.sends + 1 := rfl
    simp only [SendRequest_loop, hout, Outcome.bind, hs, hw2]
    rfl

/-- C36, amended, at the first pass of `SendRequest` on `connGarbageFirst`: the
3-byte datagram is rejected and the second pass starts from the state with one
send on record, the deadline 100 on record and the timeout 200. -/
theorem SendRequest_rejected_datagram_witness :
    SendRequest_loop SetRfc3489 0 connGarbageFirst requestBinding (1 + 1) SendState.init
      = SendRequest_loop SetRfc3489 0 connGarbageFirst requestBinding 1
          ⟨PacketCreate, 200, 0, 1, [100]⟩ :=
  (SendRequest_rejected_datagram SetRfc3489 0 connGarbageFirst requestBinding
    bytesRequestBinding 1 SendState.init [1, 2, 3] PacketCreate (.tooFewBytes 3)
    (by decide!) rfl rfl (by decide!)).1

end GoStun
